import Mathlib

/-!
# go-messenger: a shallow embedding of the session and encrypted-messaging core

Go values are embedded as follows.

* `string` and `[]byte` are both byte sequences (`List UInt8`); the conversions
  `[]byte(s)` and `string(b)` are the identity.
* A Go result pair `(v, err)` is a Lean pair whose last component is an
  `Option Error` (`none` is the `nil` error).
* Reads of the operating system (`crypto/rand`, `time.Now`) are explicit inputs.
* Functions of libraries outside the repository whose bodies are not part of
  the sources (`pbkdf2.Key`, RSA-OAEP, AES-GCM, `encoding/json`) are fields of
  parameter structures; `encoding/base64` and the `%x` verb are written out.
-/

/-! ## Part I: definitions -/

/-- A Go `[]byte`. -/
abbrev Bytes := List UInt8

/-- A Go `string`: an immutable byte sequence. -/
abbrev GoString := List UInt8

/-- A Go `error` value, identified with its `Error()` text. -/
abbrev Error := List UInt8

/-- An ASCII string literal of the source as a Go string. -/
def lit (s : String) : GoString := s.toList.map (fun c => UInt8.ofNat c.toNat)

/-- One use of `crypto/rand`: either the read fails, or the buffer is filled
with the bytes `byte 0, byte 1, ...`. -/
structure RandSource where
  fail : Option Error
  byte : Nat → UInt8

/-- The call `rand.Read(buf)` (also `io.ReadFull(rand.Reader, buf)`) for a
buffer made with `make([]byte, n)`. -/
def RandSource.read (r : RandSource) (n : Nat) : Except Error Bytes :=
  match r.fail with
  | some e => .error e
  | none => .ok ((List.range n).map r.byte)

namespace base64

/-- The alphabet `encodeStd` of `encoding/base64`. -/
def encodeStd : GoString :=
  lit "ABCDEFGHIJKLMNOPQRSTUVWXYZabcdefghijklmnopqrstuvwxyz0123456789+/"

/-- The padding character `StdPadding`, `'='`. -/
def padChar : UInt8 := 61

/-- The table `enc.encode[n]`. -/
def encodeChar (n : Nat) : UInt8 := encodeStd.getD n 0

/-- The table `enc.decodeMap[c]`; `none` stands for the entry `0xff`. -/
def decodeMap (c : UInt8) : Option Nat :=
  let i := encodeStd.indexOf c
  if i < 64 then some i else none

/-- The function `StdEncoding.EncodeToString`: three source bytes become four
characters, a final block of one or two bytes is padded with `'='`. -/
def EncodeToString : Bytes → GoString
  | [] => []
  | [a] =>
    let val := a.toNat * 65536
    [encodeChar (val / 262144 % 64), encodeChar (val / 4096 % 64), padChar, padChar]
  | [a, b] =>
    let val := a.toNat * 65536 + b.toNat * 256
    [encodeChar (val / 262144 % 64), encodeChar (val / 4096 % 64),
      encodeChar (val / 64 % 64), padChar]
  | a :: b :: c :: rest =>
    let val := a.toNat * 65536 + b.toNat * 256 + c.toNat
    encodeChar (val / 262144 % 64) :: encodeChar (val / 4096 % 64) ::
      encodeChar (val / 64 % 64) :: encodeChar (val % 64) :: EncodeToString rest

/-- The test `in == '\n' || in == '\r'` of the decoder. -/
def isNewline (c : UInt8) : Bool := c == 10 || c == 13

/-- The loop `for si < len(src) && (src[si] == '\n' || src[si] == '\r')`. -/
def skipNewlines : GoString → GoString
  | [] => []
  | c :: rest => if isNewline c then skipNewlines rest else c :: rest

/-- The tail of `decodeQuantum`: the collected 6-bit values `dbuf` (its length
is `dlen`) are packed into `dlen - 1` bytes. -/
def quantumBytes (dbuf : List Nat) : Bytes :=
  let val := dbuf.getD 0 0 * 262144 + dbuf.getD 1 0 * 4096 + dbuf.getD 2 0 * 64 + dbuf.getD 3 0
  [UInt8.ofNat (val / 65536 % 256), UInt8.ofNat (val / 256 % 256), UInt8.ofNat (val % 256)].take
    (dbuf.length - 1)

/-- The loop of `Encoding.Decode` over `decodeQuantum` for the padded,
non-strict standard encoding. `dbuf` holds the 6-bit values read so far in the
current quantum; `none` is a `CorruptInputError`. Line breaks are skipped,
padding is accepted only in the last two places of a quantum, and nothing but
line breaks may follow it. -/
def decodeFrom : GoString → List Nat → Option Bytes
  | [], [] => some []
  | [], _ :: _ => none
  | c :: rest, dbuf =>
    match decodeMap c with
    | some v =>
      if dbuf.length = 3 then
        match decodeFrom rest [] with
        | some out => some (quantumBytes (dbuf ++ [v]) ++ out)
        | none => none
      else decodeFrom rest (dbuf ++ [v])
    | none =>
      if isNewline c then decodeFrom rest dbuf
      else if c ≠ padChar then none
      else if dbuf.length = 2 then
        match skipNewlines rest with
        | [] => none
        | d :: rest2 =>
          if d ≠ padChar then none
          else if skipNewlines rest2 = [] then some (quantumBytes dbuf) else none
      else if dbuf.length = 3 then
        if skipNewlines rest = [] then some (quantumBytes dbuf) else none
      else none

/-- The function `StdEncoding.DecodeString`; `none` when it returns an error. -/
def DecodeString (s : GoString) : Option Bytes := decodeFrom s []

end base64

/-- The digits used by the verb `%x` and by `hex.EncodeToString`. -/
def hexDigit (n : Nat) : UInt8 := (lit "0123456789abcdef").getD n 0

/-- Both `fmt.Sprintf("%x", b)` for a byte slice and `hex.EncodeToString(b)`:
two lower-case hexadecimal digits for each byte. -/
def hexString : Bytes → GoString
  | [] => []
  | b :: rest => hexDigit (b.toNat / 16) :: hexDigit (b.toNat % 16) :: hexString rest

namespace crypto

/-- The type of `pbkdf2.Key(password, salt, iter, keyLen, sha256.New)`. -/
abbrev KeyDerivation := Bytes → Bytes → Nat → Nat → Bytes

/-- The constant `SaltLength`. -/
def SaltLength : Nat := 32

/-- The constant `Iterations`. -/
def Iterations : Nat := 100000

/-- The function `HashPassword` of `crypto/password_utils.go`; the result is
`(hashStr, saltStr, err)`. -/
def HashPassword (kdf : KeyDerivation) (rnd : RandSource) (password : GoString) :
    GoString × GoString × Option Error :=
  match rnd.read SaltLength with
  | .error err => ([], [], some err)
  | .ok salt =>
    let hash := kdf password salt Iterations 32
    let saltStr := base64.EncodeToString salt
    let hashStr := base64.EncodeToString hash
    (hashStr, saltStr, none)

/-- The function `VerifyPassword` of `crypto/password_utils.go`. -/
def VerifyPassword (kdf : KeyDerivation) (password hash salt : GoString) : Bool :=
  match base64.DecodeString salt with
  | none => false
  | some saltBytes =>
    match base64.DecodeString hash with
    | none => false
    | some hashBytes =>
      let testHash := kdf password saltBytes Iterations 32
      hexString testHash == hexString hashBytes

/-- The value of `gcm.NonceSize()` for `cipher.NewGCM`. -/
def gcmNonceSize : Nat := 12

/-- The function `aes.NewCipher`: the key must have 16, 24 or 32 bytes
(otherwise a `KeySizeError`); the block is represented by its key. -/
def aesNewCipher (key : Bytes) : Except Error Bytes :=
  if key.length = 16 ∨ key.length = 24 ∨ key.length = 32 then .ok key
  else .error (lit "crypto/aes: invalid key size")

/-- The error value of a failed `base64.StdEncoding.DecodeString` (the byte
offset that ends the Go text is left out). -/
def CorruptInputError : Error := lit "illegal base64 data"

/-- The primitives of `crypto/rsa` and `crypto/cipher` that `encryption.go`
calls, for keys of types `PublicKey` and `PrivateKey`.

* `EncryptOAEP rnd pub msg` is `rsa.EncryptOAEP(sha256.New(), rand.Reader, pub, msg, nil)`;
* `DecryptOAEP priv ct` is `rsa.DecryptOAEP(sha256.New(), rand.Reader, priv, ct, nil)`;
* `Seal key nonce plaintext` is the part that `gcm.Seal(dst, nonce, plaintext, nil)`
  appends to `dst`;
* `Open key nonce ct` is `gcm.Open(nil, nonce, ct, nil)`. -/
structure Cipher (PublicKey PrivateKey : Type) where
  EncryptOAEP : RandSource → PublicKey → Bytes → Except Error Bytes
  DecryptOAEP : PrivateKey → Bytes → Except Error Bytes
  Seal : Bytes → Bytes → Bytes → Bytes
  Open : Bytes → Bytes → Bytes → Except Error Bytes

/-- The two uses of `encoding/json` in `encryption.go`, on `map[string]string`
(an association list, read with `List.lookup`). -/
structure Json where
  Marshal : List (GoString × GoString) → GoString
  Unmarshal : Bytes → Except Error (List (GoString × GoString))

/-- The struct `KeyManager` with both keys loaded. -/
structure KeyManager (PublicKey PrivateKey : Type) where
  privateKey : PrivateKey
  publicKey : PublicKey

/-- The method `KeyManager.GetPrivateKey`. -/
def KeyManager.GetPrivateKey {PublicKey PrivateKey : Type}
    (km : KeyManager PublicKey PrivateKey) : PrivateKey := km.privateKey

/-- The three reads of `crypto/rand` made by one `EncryptMessage` call. -/
structure EncryptRand where
  aesKey : RandSource
  nonce : RandSource
  oaep : RandSource

/-- The index expression `m[key]` on a `map[string]string`: the zero value
`""` when the key is absent. -/
def mapIndex (m : List (GoString × GoString)) (key : GoString) : GoString :=
  (m.lookup key).getD []

/-- The method `EncryptionManager.encryptAES`. -/
def encryptAES {PublicKey PrivateKey : Type} (C : Cipher PublicKey PrivateKey)
    (rnd : RandSource) (plaintext : GoString) (key : Bytes) : Bytes × Option Error :=
  match aesNewCipher key with
  | .error err => ([], some err)
  | .ok block =>
    match rnd.read gcmNonceSize with
    | .error err => ([], some err)
    | .ok nonce =>
      let ciphertext := nonce ++ C.Seal block nonce plaintext
      (ciphertext, none)

/-- The method `EncryptionManager.decryptAES`. -/
def decryptAES {PublicKey PrivateKey : Type} (C : Cipher PublicKey PrivateKey)
    (ciphertext key : Bytes) : GoString × Option Error :=
  match aesNewCipher key with
  | .error err => ([], some err)
  | .ok block =>
    let nonceSize := gcmNonceSize
    if ciphertext.length < nonceSize then ([], some (lit "ciphertext too short"))
    else
      let nonce := ciphertext.take nonceSize
      let ciphertext := ciphertext.drop nonceSize
      match C.Open block nonce ciphertext with
      | .error err => ([], some err)
      | .ok plaintext => (plaintext, none)

/-- The method `EncryptionManager.EncryptMessage`. -/
def EncryptMessage {PublicKey PrivateKey : Type} (C : Cipher PublicKey PrivateKey) (J : Json)
    (rnd : EncryptRand) (message : GoString) (recipientPublicKey : PublicKey) :
    GoString × Option Error :=
  match rnd.aesKey.read 32 with
  | .error err => ([], some err)
  | .ok aesKey =>
    match encryptAES C rnd.nonce message aesKey with
    | (_, some err) => ([], some err)
    | (encryptedMessage, none) =>
      match C.EncryptOAEP rnd.oaep recipientPublicKey aesKey with
      | .error err => ([], some err)
      | .ok encryptedKey =>
        let result := [(lit "key", base64.EncodeToString encryptedKey),
          (lit "message", base64.EncodeToString encryptedMessage)]
        let data := J.Marshal result
        (base64.EncodeToString data, none)

/-- The method `EncryptionManager.DecryptMessage`. -/
def DecryptMessage {PublicKey PrivateKey : Type} (C : Cipher PublicKey PrivateKey) (J : Json)
    (km : KeyManager PublicKey PrivateKey) (encryptedData : GoString) :
    GoString × Option Error :=
  match base64.DecodeString encryptedData with
  | none => ([], some CorruptInputError)
  | some data =>
    match J.Unmarshal data with
    | .error err => ([], some err)
    | .ok result =>
      match base64.DecodeString (mapIndex result (lit "key")) with
      | none => ([], some CorruptInputError)
      | some encryptedKey =>
        match base64.DecodeString (mapIndex result (lit "message")) with
        | none => ([], some CorruptInputError)
        | some encryptedMessage =>
          match C.DecryptOAEP km.GetPrivateKey encryptedKey with
          | .error err => ([], some err)
          | .ok aesKey => decryptAES C encryptedMessage aesKey

/-- The keypair `(pub, priv)` is one for which RSA-OAEP decryption undoes
encryption, and AES-GCM `Open` undoes `Seal` for 32-byte keys and 12-byte
nonces. -/
def Cipher.Inverts {PublicKey PrivateKey : Type} (C : Cipher PublicKey PrivateKey)
    (pub : PublicKey) (priv : PrivateKey) : Prop :=
  (∀ rnd msg ct, C.EncryptOAEP rnd pub msg = .ok ct → C.DecryptOAEP priv ct = .ok msg) ∧
  (∀ key nonce plaintext, key.length = 32 → nonce.length = gcmNonceSize →
    C.Open key nonce (C.Seal key nonce plaintext) = .ok plaintext)

/-- The function `json.Unmarshal` reads back the two-entry envelope map that
`json.Marshal` wrote. -/
def Json.RoundTrips (J : Json) : Prop :=
  ∀ k v : GoString, J.Unmarshal (J.Marshal [(lit "key", k), (lit "message", v)]) =
    .ok [(lit "key", k), (lit "message", v)]

end crypto

/-- A `time.Time`, as a count of nanoseconds. -/
abbrev Time := Nat

namespace shared

/-- The struct `User` of `shared/types.go`. -/
structure User where
  ID : GoString
  Username : GoString
  Email : GoString
  Created : Time
  deriving DecidableEq, Repr

/-- The struct `Message`. -/
structure Message where
  ID : GoString
  From : GoString
  To : GoString
  ChannelID : GoString
  Content : GoString
  Encrypted : Bool
  Timestamp : Time
  deriving DecidableEq, Repr

/-- The struct `Channel`. -/
structure Channel where
  ID : GoString
  Name : GoString
  Description : GoString
  Members : List GoString
  Created : Time
  CreatedBy : GoString
  deriving DecidableEq, Repr

/-- The struct `LoginRequest`. -/
structure LoginRequest where
  Username : GoString
  Password : GoString
  deriving DecidableEq, Repr

/-- The struct `RegisterRequest`. -/
structure RegisterRequest where
  Username : GoString
  Email : GoString
  Password : GoString
  deriving DecidableEq, Repr

/-- The struct `AuthResponse`; the defaults are Go's zero values. -/
structure AuthResponse where
  Success : Bool := false
  Token : GoString := []
  User : Option User := none
  Error : GoString := []
  deriving DecidableEq, Repr

/-- The struct `MessageRequest`. -/
structure MessageRequest where
  To : GoString
  Content : GoString
  deriving DecidableEq, Repr

/-- The struct `ChannelMessageRequest`. -/
structure ChannelMessageRequest where
  ChannelID : GoString
  Content : GoString
  deriving DecidableEq, Repr

/-- The struct `ChannelRequest`. -/
structure ChannelRequest where
  Name : GoString
  Description : GoString
  Members : List GoString
  deriving DecidableEq, Repr

end shared

/-- A value held in a `map[string]interface{}` of the wire protocol: what
`encoding/json` decodes (`nil`, `bool`, `float64`, `string`, arrays, objects),
the Go `int` a client puts in a request, and the struct pointers and slices the
server puts in a response. A `float64` is represented by a rational. -/
inductive Value where
  | null
  | bool (b : Bool)
  | num (q : Rat)
  | int (n : Int)
  | str (s : GoString)
  | arr (items : List Value)
  | obj (fields : List (GoString × Value))
  | user (u : Option shared.User)
  | message (m : shared.Message)
  | messages (ms : List shared.Message)
  | channel (c : shared.Channel)
  | channels (cs : List shared.Channel)

/-- A `map[string]interface{}`, read with `List.lookup` (first entry wins). -/
abbrev Msg := List (GoString × Value)

/-- The type assertion `msg[key].(string)`; `none` when `ok` is false. -/
def Msg.string (msg : Msg) (key : GoString) : Option GoString :=
  match msg.lookup key with
  | some (.str s) => some s
  | _ => none

/-- The type assertion `msg[key].(float64)`; `none` when `ok` is false. -/
def Msg.float64 (msg : Msg) (key : GoString) : Option Rat :=
  match msg.lookup key with
  | some (.num q) => some q
  | _ => none

/-- The conversion `int(l)` of a `float64`: the fraction is dropped. -/
def truncate (l : Rat) : Int := Int.tdiv l.num l.den

/-- The rendering of the verb `%d`. -/
def decimal (n : Nat) : GoString := lit (Nat.repr n)

namespace storage

/-- A row of the table `users`. -/
structure UserRow where
  id : GoString
  username : GoString
  email : GoString
  password_hash : GoString
  password_salt : GoString
  public_key : Option GoString
  created_at : Time
  deriving DecidableEq, Repr

/-- A row of the table `messages`. -/
structure MessageRow where
  id : GoString
  from_user : GoString
  to_user : GoString
  channel_id : GoString
  content : GoString
  encrypted : Bool
  timestamp : Time
  deriving DecidableEq, Repr

/-- A row of the table `channels`. -/
structure ChannelRow where
  id : GoString
  name : GoString
  description : GoString
  created_by : GoString
  created_at : Time
  deriving DecidableEq, Repr

/-- A row of the table `channel_members`. -/
structure ChannelMemberRow where
  channel_id : GoString
  user_id : GoString
  joined_at : Time
  deriving DecidableEq, Repr

/-- A row of the table `sessions`. -/
structure SessionRow where
  token : GoString
  user_id : GoString
  created_at : Time
  last_seen : Time
  deriving DecidableEq, Repr

/-- The contents of the five tables made by `Database.createTables`, each in
insertion order. The `PRIMARY KEY` and `UNIQUE` constraints of the schema are
enforced by the insert operations below; foreign keys are not enforced (the
connection is opened without the foreign-key pragma). -/
structure Database where
  users : List UserRow := []
  messages : List MessageRow := []
  channels : List ChannelRow := []
  channel_members : List ChannelMemberRow := []
  sessions : List SessionRow := []
  deriving DecidableEq, Repr

/-- The clause `LIMIT ?`: a negative bound means no limit. -/
def limitRows {α : Type} (limit : Int) (rows : List α) : List α :=
  if limit < 0 then rows else rows.take limit.toNat

/-- The clause `ORDER BY key DESC`; rows with equal keys stay in table order. -/
def orderByDesc {α : Type} (key : α → Time) (rows : List α) : List α :=
  rows.insertionSort (fun a b => key b ≤ key a)

/-- The method `UserStore.CreateUser`: one `INSERT INTO users`, refused when
the id, the username or the email is already present. -/
def CreateUser (db : Database) (user : shared.User) (passwordHash passwordSalt : GoString) :
    Except Error Database :=
  if db.users.any (fun r => r.id == user.ID) then
    .error (lit "UNIQUE constraint failed: users.id")
  else if db.users.any (fun r => r.username == user.Username) then
    .error (lit "UNIQUE constraint failed: users.username")
  else if db.users.any (fun r => r.email == user.Email) then
    .error (lit "UNIQUE constraint failed: users.email")
  else
    let row : UserRow :=
      { id := user.ID, username := user.Username, email := user.Email,
        password_hash := passwordHash, password_salt := passwordSalt,
        public_key := none, created_at := user.Created }
    .ok { db with users := db.users ++ [row] }

/-- The columns `id, username, email, created_at` scanned into a `User`. -/
def UserRow.toUser (r : UserRow) : shared.User :=
  { ID := r.id, Username := r.username, Email := r.email, Created := r.created_at }

/-- The method `UserStore.GetUserByUsername`: the user, the password hash and
the password salt. -/
def GetUserByUsername (db : Database) (username : GoString) :
    Except Error (shared.User × GoString × GoString) :=
  match db.users.find? (fun r => r.username == username) with
  | none => .error (lit "user not found")
  | some r => .ok (r.toUser, r.password_hash, r.password_salt)

/-- The method `UserStore.GetUserByID`. -/
def GetUserByID (db : Database) (id : GoString) : Except Error shared.User :=
  match db.users.find? (fun r => r.id == id) with
  | none => .error (lit "user not found")
  | some r => .ok r.toUser

/-- The method `UserStore.GetUserByEmail`. -/
def GetUserByEmail (db : Database) (email : GoString) : Except Error shared.User :=
  match db.users.find? (fun r => r.email == email) with
  | none => .error (lit "user not found")
  | some r => .ok r.toUser

/-- The method `UserStore.CreateSession`; `now` is its `time.Now()`. -/
def CreateSession (db : Database) (now : Time) (token userID : GoString) :
    Except Error Database :=
  if db.sessions.any (fun s => s.token == token) then
    .error (lit "UNIQUE constraint failed: sessions.token")
  else
    let row : SessionRow :=
      { token := token, user_id := userID, created_at := now, last_seen := now }
    .ok { db with sessions := db.sessions ++ [row] }

/-- The method `UserStore.GetSession`: the first row of `users JOIN sessions
ON u.id = s.user_id WHERE s.token = ?`. -/
def GetSession (db : Database) (token : GoString) : Except Error shared.User :=
  match db.sessions.find? (fun s => s.token == token) with
  | none => .error (lit "session not found")
  | some s =>
    match db.users.find? (fun u => u.id == s.user_id) with
    | none => .error (lit "session not found")
    | some u => .ok u.toUser

/-- The method `UserStore.UpdateSessionLastSeen`; `now` is its `time.Now()`. -/
def UpdateSessionLastSeen (db : Database) (now : Time) (token : GoString) :
    Except Error Database :=
  let rows := db.sessions.map
    (fun s => if s.token == token then { s with last_seen := now } else s)
  .ok { db with sessions := rows }

/-- The method `UserStore.DeleteSession`. -/
def DeleteSession (db : Database) (token : GoString) : Except Error Database :=
  .ok { db with sessions := db.sessions.filter (fun s => !(s.token == token)) }

/-- The method `MessageStore.CreateMessage`. -/
def CreateMessage (db : Database) (message : shared.Message) : Except Error Database :=
  if db.messages.any (fun r => r.id == message.ID) then
    .error (lit "UNIQUE constraint failed: messages.id")
  else
    let row : MessageRow :=
      { id := message.ID, from_user := message.From, to_user := message.To,
        channel_id := message.ChannelID, content := message.Content,
        encrypted := message.Encrypted, timestamp := message.Timestamp }
    .ok { db with messages := db.messages ++ [row] }

/-- The columns `id, from_user, to_user, content, encrypted, timestamp`
scanned into a `Message` (the field `ChannelID` keeps its zero value). -/
def MessageRow.toMessage (r : MessageRow) : shared.Message :=
  { ID := r.id, From := r.from_user, To := r.to_user, ChannelID := [], Content := r.content,
    Encrypted := r.encrypted, Timestamp := r.timestamp }

/-- The same with the column `channel_id` scanned as well. -/
def MessageRow.toMessageWithChannel (r : MessageRow) : shared.Message :=
  { ID := r.id, From := r.from_user, To := r.to_user, ChannelID := r.channel_id,
    Content := r.content, Encrypted := r.encrypted, Timestamp := r.timestamp }

/-- The method `MessageStore.GetMessagesBetweenUsers`. -/
def GetMessagesBetweenUsers (db : Database) (user1ID user2ID : GoString) (limit : Int) :
    Except Error (List shared.Message) :=
  let rows := db.messages.filter (fun m =>
    (m.from_user == user1ID && m.to_user == user2ID) ||
    (m.from_user == user2ID && m.to_user == user1ID))
  .ok ((limitRows limit (orderByDesc (fun m => m.timestamp) rows)).map MessageRow.toMessage)

/-- The method `MessageStore.GetChannelMessages`. -/
def GetChannelMessages (db : Database) (channelID : GoString) (limit : Int) :
    Except Error (List shared.Message) :=
  let rows := db.messages.filter (fun m => m.channel_id == channelID)
  .ok ((limitRows limit (orderByDesc (fun m => m.timestamp) rows)).map MessageRow.toMessage)

/-- The loop `for _, memberID := range channel.Members` of `CreateChannel`,
inside the transaction: one `INSERT INTO channel_members` for each member,
stopping at the first refused row. -/
def insertMembers (db : Database) (now : Time) (channelID : GoString) :
    List GoString → Except Error Database
  | [] => .ok db
  | memberID :: rest =>
    if db.channel_members.any (fun r => r.channel_id == channelID && r.user_id == memberID) then
      .error (lit "UNIQUE constraint failed: channel_members.channel_id, channel_members.user_id")
    else
      let row : ChannelMemberRow :=
        { channel_id := channelID, user_id := memberID, joined_at := now }
      insertMembers { db with channel_members := db.channel_members ++ [row] } now channelID rest

/-- The method `MessageStore.CreateChannel`: the channel row and the member
rows are written in one transaction; on an error the deferred `Rollback`
leaves the tables as they were. -/
def CreateChannel (db : Database) (now : Time) (channel : shared.Channel) :
    Except Error Database :=
  if db.channels.any (fun r => r.id == channel.ID) then
    .error (lit "UNIQUE constraint failed: channels.id")
  else
    let row : ChannelRow :=
      { id := channel.ID, name := channel.Name, description := channel.Description,
        created_by := channel.CreatedBy, created_at := channel.Created }
    insertMembers { db with channels := db.channels ++ [row] } now channel.ID channel.Members

/-- The query `SELECT user_id FROM channel_members WHERE channel_id = ?`. -/
def channelMembers (db : Database) (channelID : GoString) : List GoString :=
  (db.channel_members.filter (fun r => r.channel_id == channelID)).map (fun r => r.user_id)

/-- The method `MessageStore.GetUserChannels`: the rows of `channels JOIN
channel_members ON c.id = cm.channel_id WHERE cm.user_id = ?`, newest first,
each with its member list. -/
def GetUserChannels (db : Database) (userID : GoString) : Except Error (List shared.Channel) :=
  let rows := db.channels.flatMap (fun c =>
    (db.channel_members.filter (fun cm => c.id == cm.channel_id && cm.user_id == userID)).map
      (fun _ => c))
  .ok ((orderByDesc (fun c => c.created_at) rows).map (fun c =>
    { ID := c.id, Name := c.name, Description := c.description,
      Members := channelMembers db c.id, Created := c.created_at, CreatedBy := c.created_by }))

/-- The method `MessageStore.AddUserToChannel`; `now` is its `time.Now()`. -/
def AddUserToChannel (db : Database) (now : Time) (channelID userID : GoString) :
    Except Error Database :=
  if db.channel_members.any (fun r => r.channel_id == channelID && r.user_id == userID) then
    .error (lit "UNIQUE constraint failed: channel_members.channel_id, channel_members.user_id")
  else
    let row : ChannelMemberRow :=
      { channel_id := channelID, user_id := userID, joined_at := now }
    .ok { db with channel_members := db.channel_members ++ [row] }

/-- The method `MessageStore.RemoveUserFromChannel`. -/
def RemoveUserFromChannel (db : Database) (channelID userID : GoString) :
    Except Error Database :=
  let rows := db.channel_members.filter
    (fun r => !(r.channel_id == channelID && r.user_id == userID))
  .ok { db with channel_members := rows }

/-- The method `MessageStore.GetRecentMessages`. -/
def GetRecentMessages (db : Database) (userID : GoString) (limit : Int) :
    Except Error (List shared.Message) :=
  let rows := db.messages.filter (fun m =>
    m.from_user == userID || m.to_user == userID ||
    (db.channel_members.any (fun cm => cm.user_id == userID && cm.channel_id == m.channel_id)))
  .ok ((limitRows limit (orderByDesc (fun m => m.timestamp) rows)).map
    MessageRow.toMessageWithChannel)

end storage

namespace server

/-- What the handling of one request reads from outside the program: the
clock (every `time.Now()` made while the request is handled reads `now`) and
the reads of `crypto/rand` made by `HashPassword`, `generateID` and
`generateSessionToken`. -/
structure Env where
  now : Time
  salt : RandSource
  id : RandSource
  token : RandSource

/-- The calls of `json.Unmarshal([]byte(data), &req)` in the handlers, one for
each request struct. -/
structure Json where
  UnmarshalRegisterRequest : GoString → Except Error shared.RegisterRequest
  UnmarshalLoginRequest : GoString → Except Error shared.LoginRequest
  UnmarshalMessageRequest : GoString → Except Error shared.MessageRequest
  UnmarshalChannelMessageRequest : GoString → Except Error shared.ChannelMessageRequest
  UnmarshalChannelRequest : GoString → Except Error shared.ChannelRequest

/-- The library functions the server calls. -/
structure Lib where
  kdf : crypto.KeyDerivation
  json : Json

/-- The buffer after `bytes := make([]byte, n); rand.Read(bytes)` with the
error dropped: zeros when the read failed. -/
def randomBytes (rnd : RandSource) (n : Nat) : Bytes :=
  match rnd.read n with
  | .ok bytes => bytes
  | .error _ => List.replicate n 0

/-- The function `generateID` of `server/auth.go`. -/
def generateID (rnd : RandSource) : GoString := hexString (randomBytes rnd 16)

/-- The function `generateSessionToken`. -/
def generateSessionToken (rnd : RandSource) : GoString := hexString (randomBytes rnd 32)

/-- The function `generateMessageID`: `"msg_%d"` of `time.Now().UnixNano()`. -/
def generateMessageID (now : Time) : GoString := lit "msg_" ++ decimal now

/-- The function `generateChannelID`: `"ch_%d"` of `time.Now().UnixNano()`. -/
def generateChannelID (now : Time) : GoString := lit "ch_" ++ decimal now

/-- The method `AuthManager.Register`. -/
def Register (kdf : crypto.KeyDerivation) (env : Env) (db : storage.Database)
    (req : shared.RegisterRequest) : storage.Database × shared.AuthResponse × Option Error :=
  match storage.GetUserByUsername db req.Username with
  | .ok _ => (db, { Success := false, Error := lit "Username already exists" }, none)
  | .error _ =>
    match storage.GetUserByEmail db req.Email with
    | .ok _ => (db, { Success := false, Error := lit "Email already exists" }, none)
    | .error _ =>
      match crypto.HashPassword kdf env.salt req.Password with
      | (_, _, some _) => (db, { Success := false, Error := lit "Failed to hash password" }, none)
      | (passwordHash, passwordSalt, none) =>
        let user : shared.User :=
          { ID := generateID env.id, Username := req.Username, Email := req.Email,
            Created := env.now }
        match storage.CreateUser db user passwordHash passwordSalt with
        | .error _ => (db, { Success := false, Error := lit "Failed to create user" }, none)
        | .ok db1 =>
          let token := generateSessionToken env.token
          match storage.CreateSession db1 env.now token user.ID with
          | .error _ =>
            (db1, { Success := false, Error := lit "Failed to create session" }, none)
          | .ok db2 => (db2, { Success := true, Token := token, User := some user }, none)

/-- The method `AuthManager.Login`. -/
def Login (kdf : crypto.KeyDerivation) (env : Env) (db : storage.Database)
    (req : shared.LoginRequest) : storage.Database × shared.AuthResponse × Option Error :=
  match storage.GetUserByUsername db req.Username with
  | .error _ => (db, { Success := false, Error := lit "Invalid username or password" }, none)
  | .ok (user, passwordHash, passwordSalt) =>
    if !crypto.VerifyPassword kdf req.Password passwordHash passwordSalt then
      (db, { Success := false, Error := lit "Invalid username or password" }, none)
    else
      let token := generateSessionToken env.token
      match storage.CreateSession db env.now token user.ID with
      | .error _ => (db, { Success := false, Error := lit "Failed to create session" }, none)
      | .ok db1 => (db1, { Success := true, Token := token, User := some user }, none)

/-- The method `AuthManager.ValidateSession`; `now` is the `time.Now()` of
`UpdateSessionLastSeen`, whose error is dropped. -/
def ValidateSession (db : storage.Database) (now : Time) (token : GoString) :
    storage.Database × Except Error shared.User :=
  match storage.GetSession db token with
  | .error err => (db, .error err)
  | .ok user =>
    match storage.UpdateSessionLastSeen db now token with
    | .ok db1 => (db1, .ok user)
    | .error _ => (db, .ok user)

/-- The method `AuthManager.Logout`: the new tables and the returned error. -/
def Logout (db : storage.Database) (token : GoString) : storage.Database × Option Error :=
  match storage.DeleteSession db token with
  | .ok db1 => (db1, none)
  | .error err => (db, some err)

/-- The method `MessageHandler.SendMessage`. -/
def SendMessage (env : Env) (db : storage.Database) (req : shared.MessageRequest)
    (fromUserID : GoString) : storage.Database × Except Error shared.Message :=
  let message : shared.Message :=
    { ID := generateMessageID env.now, From := fromUserID, To := req.To, ChannelID := [],
      Content := req.Content, Encrypted := true, Timestamp := env.now }
  match storage.CreateMessage db message with
  | .error err => (db, .error (lit "failed to save message: " ++ err))
  | .ok db1 => (db1, .ok message)

/-- The method `MessageHandler.SendChannelMessage`. -/
def SendChannelMessage (env : Env) (db : storage.Database) (req : shared.ChannelMessageRequest)
    (fromUserID : GoString) : storage.Database × Except Error shared.Message :=
  match storage.GetUserChannels db fromUserID with
  | .error err => (db, .error (lit "failed to get user channels: " ++ err))
  | .ok channels =>
    let isMember := channels.any (fun channel => channel.ID == req.ChannelID)
    if !isMember then (db, .error (lit "user is not a member of this channel"))
    else
      let message : shared.Message :=
        { ID := generateMessageID env.now, From := fromUserID, To := [],
          ChannelID := req.ChannelID, Content := req.Content, Encrypted := true,
          Timestamp := env.now }
      match storage.CreateMessage db message with
      | .error err => (db, .error (lit "failed to save message: " ++ err))
      | .ok db1 => (db1, .ok message)

/-- The method `MessageHandler.GetMessages`. -/
def GetMessages (db : storage.Database) (userID otherUserID : GoString) (limit : Int) :
    Except Error (List shared.Message) :=
  storage.GetMessagesBetweenUsers db userID otherUserID limit

/-- The method `MessageHandler.GetChannelMessages`. -/
def GetChannelMessages (db : storage.Database) (channelID : GoString) (limit : Int) :
    Except Error (List shared.Message) :=
  storage.GetChannelMessages db channelID limit

/-- The method `MessageHandler.CreateChannel`. -/
def CreateChannel (env : Env) (db : storage.Database) (req : shared.ChannelRequest)
    (creatorID : GoString) : storage.Database × Except Error shared.Channel :=
  let channel : shared.Channel :=
    { ID := generateChannelID env.now, Name := req.Name, Description := req.Description,
      Members := req.Members ++ [creatorID], Created := env.now, CreatedBy := creatorID }
  match storage.CreateChannel db env.now channel with
  | .error err => (db, .error (lit "failed to create channel: " ++ err))
  | .ok db1 => (db1, .ok channel)

/-- The method `MessageHandler.GetUserChannels`. -/
def GetUserChannels (db : storage.Database) (userID : GoString) :
    Except Error (List shared.Channel) :=
  storage.GetUserChannels db userID

/-- The method `MessageHandler.AddUserToChannel`. -/
def AddUserToChannel (env : Env) (db : storage.Database) (channelID userID : GoString) :
    storage.Database × Option Error :=
  match storage.AddUserToChannel db env.now channelID userID with
  | .ok db1 => (db1, none)
  | .error err => (db, some err)

/-- The method `MessageHandler.RemoveUserFromChannel`. -/
def RemoveUserFromChannel (db : storage.Database) (channelID userID : GoString) :
    storage.Database × Option Error :=
  match storage.RemoveUserFromChannel db channelID userID with
  | .ok db1 => (db1, none)
  | .error err => (db, some err)

/-- The method `MessageHandler.GetRecentMessages`. -/
def GetRecentMessages (db : storage.Database) (userID : GoString) (limit : Int) :
    Except Error (List shared.Message) :=
  storage.GetRecentMessages db userID limit

/-- The result `map[string]interface{}{"success": false, "error": text}, nil`
that the handlers return on every failure. -/
def failure (text : GoString) : Option Msg × Option Error :=
  (some [(lit "success", .bool false), (lit "error", .str text)], none)

/-- The statements `limit := 50; if l, ok := msg["limit"].(float64); ok { limit = int(l) }`. -/
def requestLimit (msg : Msg) : Int :=
  match msg.float64 (lit "limit") with
  | some l => truncate l
  | none => 50

/-- The method `Server.handleRegister`. -/
def handleRegister (L : Lib) (env : Env) (db : storage.Database) (msg : Msg) :
    storage.Database × Option Msg × Option Error :=
  match msg.string (lit "data") with
  | none => (db, failure (lit "Invalid request data"))
  | some data =>
    match L.json.UnmarshalRegisterRequest data with
    | .error _ => (db, failure (lit "Invalid request format"))
    | .ok req =>
      match Register L.kdf env db req with
      | (db1, _, some err) => (db1, failure err)
      | (db1, response, none) =>
        (db1, some [(lit "success", .bool response.Success), (lit "token", .str response.Token),
          (lit "user", .user response.User), (lit "error", .str response.Error)], none)

/-- The method `Server.handleLogin`. -/
def handleLogin (L : Lib) (env : Env) (db : storage.Database) (msg : Msg) :
    storage.Database × Option Msg × Option Error :=
  match msg.string (lit "data") with
  | none => (db, failure (lit "Invalid request data"))
  | some data =>
    match L.json.UnmarshalLoginRequest data with
    | .error _ => (db, failure (lit "Invalid request format"))
    | .ok req =>
      match Login L.kdf env db req with
      | (db1, _, some err) => (db1, failure err)
      | (db1, response, none) =>
        (db1, some [(lit "success", .bool response.Success), (lit "token", .str response.Token),
          (lit "user", .user response.User), (lit "error", .str response.Error)], none)

/-- The method `Server.handleSendMessage`. -/
def handleSendMessage (L : Lib) (env : Env) (db : storage.Database) (msg : Msg) :
    storage.Database × Option Msg × Option Error :=
  match msg.string (lit "token") with
  | none => (db, failure (lit "Authentication required"))
  | some token =>
    match ValidateSession db env.now token with
    | (db1, .error _) => (db1, failure (lit "Invalid session"))
    | (db1, .ok user) =>
      match msg.string (lit "data") with
      | none => (db1, failure (lit "Invalid request data"))
      | some data =>
        match L.json.UnmarshalMessageRequest data with
        | .error _ => (db1, failure (lit "Invalid request format"))
        | .ok req =>
          match SendMessage env db1 req user.ID with
          | (db2, .error err) => (db2, failure err)
          | (db2, .ok message) =>
            (db2, some [(lit "success", .bool true), (lit "message", .message message)], none)

/-- The method `Server.handleSendChannelMessage`. -/
def handleSendChannelMessage (L : Lib) (env : Env) (db : storage.Database) (msg : Msg) :
    storage.Database × Option Msg × Option Error :=
  match msg.string (lit "token") with
  | none => (db, failure (lit "Authentication required"))
  | some token =>
    match ValidateSession db env.now token with
    | (db1, .error _) => (db1, failure (lit "Invalid session"))
    | (db1, .ok user) =>
      match msg.string (lit "data") with
      | none => (db1, failure (lit "Invalid request data"))
      | some data =>
        match L.json.UnmarshalChannelMessageRequest data with
        | .error _ => (db1, failure (lit "Invalid request format"))
        | .ok req =>
          match SendChannelMessage env db1 req user.ID with
          | (db2, .error err) => (db2, failure err)
          | (db2, .ok message) =>
            (db2, some [(lit "success", .bool true), (lit "message", .message message)], none)

/-- The method `Server.handleGetMessages`. -/
def handleGetMessages (env : Env) (db : storage.Database) (msg : Msg) :
    storage.Database × Option Msg × Option Error :=
  match msg.string (lit "token") with
  | none => (db, failure (lit "Authentication required"))
  | some token =>
    match ValidateSession db env.now token with
    | (db1, .error _) => (db1, failure (lit "Invalid session"))
    | (db1, .ok user) =>
      match msg.string (lit "other_user_id") with
      | none => (db1, failure (lit "Other user ID required"))
      | some otherUserID =>
        let limit := requestLimit msg
        match GetMessages db1 user.ID otherUserID limit with
        | .error err => (db1, failure err)
        | .ok messages =>
          (db1, some [(lit "success", .bool true), (lit "messages", .messages messages)], none)

/-- The method `Server.handleGetChannelMessages`. -/
def handleGetChannelMessages (env : Env) (db : storage.Database) (msg : Msg) :
    storage.Database × Option Msg × Option Error :=
  match msg.string (lit "token") with
  | none => (db, failure (lit "Authentication required"))
  | some token =>
    match ValidateSession db env.now token with
    | (db1, .error _) => (db1, failure (lit "Invalid session"))
    | (db1, .ok _) =>
      match msg.string (lit "channel_id") with
      | none => (db1, failure (lit "Channel ID required"))
      | some channelID =>
        let limit := requestLimit msg
        match GetChannelMessages db1 channelID limit with
        | .error err => (db1, failure err)
        | .ok messages =>
          (db1, some [(lit "success", .bool true), (lit "messages", .messages messages)], none)

/-- The method `Server.handleCreateChannel`. -/
def handleCreateChannel (L : Lib) (env : Env) (db : storage.Database) (msg : Msg) :
    storage.Database × Option Msg × Option Error :=
  match msg.string (lit "token") with
  | none => (db, failure (lit "Authentication required"))
  | some token =>
    match ValidateSession db env.now token with
    | (db1, .error _) => (db1, failure (lit "Invalid session"))
    | (db1, .ok user) =>
      match msg.string (lit "data") with
      | none => (db1, failure (lit "Invalid request data"))
      | some data =>
        match L.json.UnmarshalChannelRequest data with
        | .error _ => (db1, failure (lit "Invalid request format"))
        | .ok req =>
          match CreateChannel env db1 req user.ID with
          | (db2, .error err) => (db2, failure err)
          | (db2, .ok channel) =>
            (db2, some [(lit "success", .bool true), (lit "channel", .channel channel)], none)

/-- The method `Server.handleGetUserChannels`. -/
def handleGetUserChannels (env : Env) (db : storage.Database) (msg : Msg) :
    storage.Database × Option Msg × Option Error :=
  match msg.string (lit "token") with
  | none => (db, failure (lit "Authentication required"))
  | some token =>
    match ValidateSession db env.now token with
    | (db1, .error _) => (db1, failure (lit "Invalid session"))
    | (db1, .ok user) =>
      match GetUserChannels db1 user.ID with
      | .error err => (db1, failure err)
      | .ok channels =>
        (db1, some [(lit "success", .bool true), (lit "channels", .channels channels)], none)

/-- The method `Server.handleAddUserToChannel`. -/
def handleAddUserToChannel (env : Env) (db : storage.Database) (msg : Msg) :
    storage.Database × Option Msg × Option Error :=
  match msg.string (lit "token") with
  | none => (db, failure (lit "Authentication required"))
  | some token =>
    match ValidateSession db env.now token with
    | (db1, .error _) => (db1, failure (lit "Invalid session"))
    | (db1, .ok _) =>
      match msg.string (lit "channel_id") with
      | none => (db1, failure (lit "Channel ID required"))
      | some channelID =>
        match msg.string (lit "user_id") with
        | none => (db1, failure (lit "User ID required"))
        | some userID =>
          match AddUserToChannel env db1 channelID userID with
          | (db2, some err) => (db2, failure err)
          | (db2, none) => (db2, some [(lit "success", .bool true)], none)

/-- The method `Server.handleRemoveUserFromChannel`. -/
def handleRemoveUserFromChannel (env : Env) (db : storage.Database) (msg : Msg) :
    storage.Database × Option Msg × Option Error :=
  match msg.string (lit "token") with
  | none => (db, failure (lit "Authentication required"))
  | some token =>
    match ValidateSession db env.now token with
    | (db1, .error _) => (db1, failure (lit "Invalid session"))
    | (db1, .ok _) =>
      match msg.string (lit "channel_id") with
      | none => (db1, failure (lit "Channel ID required"))
      | some channelID =>
        match msg.string (lit "user_id") with
        | none => (db1, failure (lit "User ID required"))
        | some userID =>
          match RemoveUserFromChannel db1 channelID userID with
          | (db2, some err) => (db2, failure err)
          | (db2, none) => (db2, some [(lit "success", .bool true)], none)

/-- The method `Server.handleGetRecentMessages`. -/
def handleGetRecentMessages (env : Env) (db : storage.Database) (msg : Msg) :
    storage.Database × Option Msg × Option Error :=
  match msg.string (lit "token") with
  | none => (db, failure (lit "Authentication required"))
  | some token =>
    match ValidateSession db env.now token with
    | (db1, .error _) => (db1, failure (lit "Invalid session"))
    | (db1, .ok user) =>
      let limit := requestLimit msg
      match GetRecentMessages db1 user.ID limit with
      | .error err => (db1, failure err)
      | .ok messages =>
        (db1, some [(lit "success", .bool true), (lit "messages", .messages messages)], none)

/-- The names of the actions that start with a session check. -/
def authActions : List GoString :=
  [lit "send_message", lit "send_channel_message", lit "get_messages",
    lit "get_channel_messages", lit "create_channel", lit "get_user_channels",
    lit "add_user_to_channel", lit "remove_user_from_channel", lit "get_recent_messages"]

/-- The eleven action names of the `switch` in `processMessage`. -/
def knownActions : List GoString := lit "register" :: lit "login" :: authActions

/-- The method `Server.processMessage`: the tables after the request, the
response map and the returned error. -/
def processMessage (L : Lib) (env : Env) (db : storage.Database) (msg : Msg) :
    storage.Database × Option Msg × Option Error :=
  match msg.string (lit "action") with
  | none => (db, failure (lit "Invalid action"))
  | some action =>
    if action = lit "register" then handleRegister L env db msg
    else if action = lit "login" then handleLogin L env db msg
    else if action = lit "send_message" then handleSendMessage L env db msg
    else if action = lit "send_channel_message" then handleSendChannelMessage L env db msg
    else if action = lit "get_messages" then handleGetMessages env db msg
    else if action = lit "get_channel_messages" then handleGetChannelMessages env db msg
    else if action = lit "create_channel" then handleCreateChannel L env db msg
    else if action = lit "get_user_channels" then handleGetUserChannels env db msg
    else if action = lit "add_user_to_channel" then handleAddUserToChannel env db msg
    else if action = lit "remove_user_from_channel" then handleRemoveUserFromChannel env db msg
    else if action = lit "get_recent_messages" then handleGetRecentMessages env db msg
    else (db, failure (lit "Unknown action"))

end server

namespace storage

/-- The `PRIMARY KEY` constraints of the tables `users` and `sessions`: no two
user rows share an id and no two session rows share a token. -/
def Database.Keyed (db : Database) : Prop :=
  (db.users.map (fun u => u.id)).Nodup ∧ (db.sessions.map (fun s => s.token)).Nodup

end storage

namespace storage

/-- The user `userID` is currently a member of the channel `channelID`: the
channel is stored and a membership row joins the two. -/
def Database.IsMember (db : Database) (userID channelID : GoString) : Prop :=
  (∃ c ∈ db.channels, c.id = channelID) ∧
  (∃ m ∈ db.channel_members, m.channel_id = channelID ∧ m.user_id = userID)

/-- Between the tables `db` and `db1` no user, message, channel, membership or
session has been created or deleted: four tables are equal and the session
rows agree, in order, on token, user and creation time. -/
def Database.SameRecords (db db1 : Database) : Prop :=
  db1.users = db.users ∧ db1.messages = db.messages ∧ db1.channels = db.channels ∧
  db1.channel_members = db.channel_members ∧
  db1.sessions.map (fun s => (s.token, s.user_id, s.created_at)) =
    db.sessions.map (fun s => (s.token, s.user_id, s.created_at))

end storage

namespace server

/-- Whether `json.Unmarshal` of the payload text into the request struct of
the action returns a nil error (for the five actions that carry a payload). -/
def payloadDecodes (J : Json) (action data : GoString) : Bool :=
  if action = lit "register" then (J.UnmarshalRegisterRequest data).toBool
  else if action = lit "login" then (J.UnmarshalLoginRequest data).toBool
  else if action = lit "send_message" then (J.UnmarshalMessageRequest data).toBool
  else if action = lit "send_channel_message" then
    (J.UnmarshalChannelMessageRequest data).toBool
  else if action = lit "create_channel" then (J.UnmarshalChannelRequest data).toBool
  else false

/-- The uniform shape of a result of `processMessage`: a response map with a
boolean `success` entry and, when that is false, a non-empty string `error`
entry. -/
def Uniform (r : Option Msg × Option Error) : Prop :=
  ∃ resp, r.1 = some resp ∧ ∃ b, resp.lookup (lit "success") = some (.bool b) ∧
    (b = false → ∃ e, resp.lookup (lit "error") = some (.str e) ∧ e ≠ [])

/-- The five actions whose request carries a JSON payload in `data`. -/
def payloadActions : List GoString :=
  [lit "register", lit "login", lit "send_message", lit "send_channel_message",
    lit "create_channel"]

end server

namespace shared

/-- Exactly one of the recipient and the channel of a message is non-empty. -/
def Message.HasOneTarget (m : Message) : Prop :=
  (m.To ≠ [] ∧ m.ChannelID = []) ∨ (m.To = [] ∧ m.ChannelID ≠ [])

end shared

/-- The inactivity window of the specification, 7 days in nanoseconds
(`7*24*time.Hour`). -/
def inactivityWindow : Nat := 7 * 24 * 3600 * 1000000000

namespace shared

/-- What the scanner of a `json.Decoder` finds in the bytes buffered so far:
a complete first value that ends at offset `n`, a prefix of a value (more
input is needed), or a syntax error. -/
inductive ScanResult where
  | value (n : Nat)
  | more
  | invalid (err : Error)
  deriving DecidableEq, Repr

/-- The uses of `encoding/json` in `shared/protocol.go`: `json.Marshal(msg)`,
the scanner with which `Decoder.Decode` delimits the next value in its buffer,
and the unmarshalling of the delimited bytes into a `map[string]interface{}`. -/
structure Json where
  Marshal : Msg → Except Error GoString
  scan : Bytes → ScanResult
  Unmarshal : Bytes → Except Error Msg

/-- The method `Protocol.SendMessage`; `out` holds the bytes written to the
connection so far, the result is the bytes written after the call and the
returned error (writes on the connection do not fail here). -/
def SendMessage (J : Json) (out : Bytes) (msg : Msg) : Bytes × Option Error :=
  match J.Marshal msg with
  | .error err => (out, some err)
  | .ok data => (out ++ (data ++ [10]), none)

/-- The test `nonSpace(dec.buf)` of the decoder. -/
def nonSpace (buf : Bytes) : Bool :=
  buf.any (fun c => !(c == 32 || c == 9 || c == 13 || c == 10))

/-- The method `Decoder.readValue` on a decoder whose buffer is `buf`. The
receiving end of the connection is the list of the results of its coming
`Read` calls (each one filling free space of the decoder's buffer, at least
512 bytes); when the list is empty the peer has closed and `Read` returns
`io.EOF`. The result is the reads left on the connection and the bytes of the
delimited value. -/
def readValue (J : Json) : Bytes → List Bytes → List Bytes × Except Error Bytes
  | buf, [] =>
    match J.scan buf with
    | .value n => ([], .ok (buf.take n))
    | .invalid err => ([], .error err)
    | .more =>
      match J.scan (buf ++ [32]) with
      | .value n => ([], .ok (buf.take n))
      | _ => ([], .error (if nonSpace buf then lit "unexpected EOF" else lit "EOF"))
  | buf, chunk :: rest =>
    match J.scan buf with
    | .value n => (chunk :: rest, .ok (buf.take n))
    | .invalid err => (chunk :: rest, .error err)
    | .more => readValue J (buf ++ chunk) rest

/-- The method `Protocol.ReadMessage`: a new decoder, so an empty buffer, is
made on every call, and what it has buffered beyond the decoded value goes
away with it. The result is the reads left on the connection, the message
(`none` is the nil map) and the error. -/
def ReadMessage (J : Json) (conn : List Bytes) : List Bytes × Option Msg × Option Error :=
  match readValue J [] conn with
  | (conn1, .error err) => (conn1, none, some err)
  | (conn1, .ok data) =>
    match J.Unmarshal data with
    | .error err => (conn1, none, some err)
    | .ok msg => (conn1, some msg, none)

/-- What the peer decodes from the frame of a map: a Go `int` arrives as a
`float64` and a nil pointer as `nil`; a struct value stands for its JSON
object and is kept. -/
def wireValue : Value → Value
  | .int n => .num n
  | .user none => .null
  | v => v

/-- The frame of a map as the peer decodes it. -/
def wire (msg : Msg) : Msg := msg.map (fun kv => (kv.1, wireValue kv.2))

end shared

namespace server

/-- The loop of `Server.HandleConnection` over the request frames that arrive
on one connection, each decoded by its `ReadMessage`: a request is processed
and, when `processMessage` returns a nil error and a non-nil map, one response
frame is written. `envOf i` is the environment of the `i`-th request; `handled`
counts the requests processed before. The result is the tables and the
response frames written. -/
def HandleConnection (L : Lib) (envOf : Nat → Env) :
    storage.Database → Nat → List Msg → storage.Database × List Msg
  | db, _, [] => (db, [])
  | db, handled, msg :: rest =>
    match processMessage L (envOf handled) db msg with
    | (db1, _, some _) => HandleConnection L envOf db1 (handled + 1) rest
    | (db1, none, none) => HandleConnection L envOf db1 (handled + 1) rest
    | (db1, some response, none) =>
      let r := HandleConnection L envOf db1 (handled + 1) rest
      (r.1, shared.wire response :: r.2)

end server

namespace server

/-- The loop of `Server.HandleConnection` on the bytes of one connection:
`conn` is the list of the results of the coming `Read` calls, `out` the bytes
written so far. Every turn calls `ReadMessage`; an error there is logged and
the method returns, which closes the connection (`defer conn.Close()`).
Otherwise the message is processed (`envOf handled` is its environment); a
non-nil error of `processMessage` or a nil response goes on with the next
turn, a response is written with `SendMessage`, and an error of that write
returns as well. The result, when the method returns within `fuel` turns, is
the tables, the reads never made and the bytes written; `none` means the loop
is still running after `fuel` turns. -/
def HandleConnectionOn (J : shared.Json) (L : Lib) (envOf : Nat → Env) :
    Nat → storage.Database → Nat → List Bytes → Bytes →
      Option (storage.Database × List Bytes × Bytes)
  | 0, _, _, _, _ => none
  | fuel + 1, db, handled, conn, out =>
    match shared.ReadMessage J conn with
    | (conn1, _, some _) => some (db, conn1, out)
    | (conn1, msg, none) =>
      match processMessage L (envOf handled) db (msg.getD []) with
      | (db1, _, some _) => HandleConnectionOn J L envOf fuel db1 (handled + 1) conn1 out
      | (db1, none, none) => HandleConnectionOn J L envOf fuel db1 (handled + 1) conn1 out
      | (db1, some response, none) =>
        match shared.SendMessage J out response with
        | (out1, some _) => some (db1, conn1, out1)
        | (out1, none) => HandleConnectionOn J L envOf fuel db1 (handled + 1) conn1 out1

end server

namespace client

/-- The struct `Session` of `client/network_client.go`. -/
structure Session where
  Token : GoString
  User : Option shared.User
  LastSeen : Time
  deriving DecidableEq, Repr

/-- The struct `NetworkClient`, reduced to its session (`none` is nil). -/
structure NetworkClient where
  Session : Option Session := none
  deriving DecidableEq, Repr

/-- The calls `json.Marshal(req)` of the client, one for each request struct. -/
structure Json where
  MarshalRegisterRequest : shared.RegisterRequest → GoString
  MarshalLoginRequest : shared.LoginRequest → GoString
  MarshalMessageRequest : shared.MessageRequest → GoString
  MarshalChannelMessageRequest : shared.ChannelMessageRequest → GoString
  MarshalChannelRequest : shared.ChannelRequest → GoString

/-- One connection between a client and the server with whole frames in
flight: the tables of the server, the number of requests its loop has
processed, the request frames written and not yet processed, and the response
frames written and not yet read by the client. -/
structure Link where
  db : storage.Database
  handled : Nat := 0
  requests : List Msg := []
  responses : List Msg := []

/-- The client's `nc.protocol.SendMessage(request)`: one frame to the server. -/
def send (link : Link) (request : Msg) : Link :=
  { link with requests := link.requests ++ [shared.wire request] }

/-- The client's `nc.protocol.ReadMessage()`: the server loop first processes
the requests that are waiting, then the oldest unread response frame is
returned; with no frame the read fails. -/
def read (L : server.Lib) (envOf : Nat → server.Env) (link : Link) :
    Link × Except Error Msg :=
  let served := server.HandleConnection L envOf link.db link.handled link.requests
  let responses := link.responses ++ served.2
  let handled := link.handled + link.requests.length
  match responses with
  | [] => ({ db := served.1, handled := handled, requests := [], responses := [] },
      .error (lit "EOF"))
  | msg :: rest => ({ db := served.1, handled := handled, requests := [], responses := rest },
      .ok msg)

/-- The error of `json.Unmarshal` for a JSON value of the wrong type. -/
def typeError : Error := lit "json: cannot unmarshal value into Go struct field"

/-- A `bool` field read by `json.Unmarshal(responseData, &response)`. -/
def fieldBool (msg : Msg) (key : GoString) : Except Error Bool :=
  match msg.lookup key with
  | none => .ok false
  | some .null => .ok false
  | some (.bool b) => .ok b
  | some _ => .error typeError

/-- A `string` field. -/
def fieldString (msg : Msg) (key : GoString) : Except Error GoString :=
  match msg.lookup key with
  | none => .ok []
  | some .null => .ok []
  | some (.str s) => .ok s
  | some _ => .error typeError

/-- A `*shared.User` field. -/
def fieldUser (msg : Msg) (key : GoString) : Except Error (Option shared.User) :=
  match msg.lookup key with
  | none => .ok none
  | some .null => .ok none
  | some (.user u) => .ok u
  | some _ => .error typeError

/-- A `[]*shared.Message` field. -/
def fieldMessages (msg : Msg) (key : GoString) : Except Error (List shared.Message) :=
  match msg.lookup key with
  | none => .ok []
  | some .null => .ok []
  | some (.messages ms) => .ok ms
  | some _ => .error typeError

/-- A `*shared.Channel` field. -/
def fieldChannel (msg : Msg) (key : GoString) : Except Error (Option shared.Channel) :=
  match msg.lookup key with
  | none => .ok none
  | some .null => .ok none
  | some (.channel c) => .ok (some c)
  | some _ => .error typeError

/-- A `[]*shared.Channel` field. -/
def fieldChannels (msg : Msg) (key : GoString) : Except Error (List shared.Channel) :=
  match msg.lookup key with
  | none => .ok []
  | some .null => .ok []
  | some (.channels cs) => .ok cs
  | some _ => .error typeError

/-- The response of `Register` and `Login` decoded into `shared.AuthResponse`. -/
def decodeAuthResponse (msg : Msg) : Except Error shared.AuthResponse :=
  match fieldBool msg (lit "success"), fieldString msg (lit "token"),
    fieldUser msg (lit "user"), fieldString msg (lit "error") with
  | .ok success, .ok token, .ok user, .ok error =>
    .ok { Success := success, Token := token, User := user, Error := error }
  | _, _, _, _ => .error typeError

/-- The method `NetworkClient.Register`; `now` is its `time.Now()`. -/
def Register (J : Json) (L : server.Lib) (envOf : Nat → server.Env) (now : Time)
    (nc : NetworkClient) (link : Link) (username email password : GoString) :
    NetworkClient × Link × Option shared.AuthResponse × Option Error :=
  let req : shared.RegisterRequest :=
    { Username := username, Email := email, Password := password }
  let data := J.MarshalRegisterRequest req
  let request : Msg := [(lit "action", .str (lit "register")), (lit "data", .str data)]
  match read L envOf (send link request) with
  | (link1, .error err) => (nc, link1, none, some err)
  | (link1, .ok msg) =>
    match decodeAuthResponse msg with
    | .error err => (nc, link1, none, some err)
    | .ok response =>
      if response.Success then
        ({ Session := some { Token := response.Token, User := response.User, LastSeen := now } },
          link1, some response, none)
      else (nc, link1, some response, none)

/-- The method `NetworkClient.Login`; `now` is its `time.Now()`. -/
def Login (J : Json) (L : server.Lib) (envOf : Nat → server.Env) (now : Time)
    (nc : NetworkClient) (link : Link) (username password : GoString) :
    NetworkClient × Link × Option shared.AuthResponse × Option Error :=
  let req : shared.LoginRequest := { Username := username, Password := password }
  let data := J.MarshalLoginRequest req
  let request : Msg := [(lit "action", .str (lit "login")), (lit "data", .str data)]
  match read L envOf (send link request) with
  | (link1, .error err) => (nc, link1, none, some err)
  | (link1, .ok msg) =>
    match decodeAuthResponse msg with
    | .error err => (nc, link1, none, some err)
    | .ok response =>
      if response.Success then
        ({ Session := some { Token := response.Token, User := response.User, LastSeen := now } },
          link1, some response, none)
      else (nc, link1, some response, none)

/-- The method `NetworkClient.SendMessage`: the request is written and the
method returns; no response is read. -/
def SendMessage (J : Json) (nc : NetworkClient) (link : Link) (recipient content : GoString) :
    Link × Option Error :=
  match nc.Session with
  | none => (link, some (lit "not authenticated"))
  | some session =>
    let req : shared.MessageRequest := { To := recipient, Content := content }
    let data := J.MarshalMessageRequest req
    let request : Msg := [(lit "action", .str (lit "send_message")),
      (lit "token", .str session.Token), (lit "data", .str data)]
    (send link request, none)

/-- The method `NetworkClient.SendChannelMessage`: the request is written and
the method returns; no response is read. -/
def SendChannelMessage (J : Json) (nc : NetworkClient) (link : Link)
    (channelID content : GoString) : Link × Option Error :=
  match nc.Session with
  | none => (link, some (lit "not authenticated"))
  | some session =>
    let req : shared.ChannelMessageRequest := { ChannelID := channelID, Content := content }
    let data := J.MarshalChannelMessageRequest req
    let request : Msg := [(lit "action", .str (lit "send_channel_message")),
      (lit "token", .str session.Token), (lit "data", .str data)]
    (send link request, none)

/-- The tail shared by `GetMessages` and `GetChannelMessages`: the frame read
is decoded into `{Success, Messages, Error}`. -/
def messagesResult (msg : Msg) : List shared.Message × Option Error :=
  match fieldBool msg (lit "success"), fieldMessages msg (lit "messages"),
    fieldString msg (lit "error") with
  | .ok success, .ok messages, .ok error =>
    if !success then ([], some error) else (messages, none)
  | _, _, _ => ([], some typeError)

/-- The method `NetworkClient.GetMessages`. -/
def GetMessages (L : server.Lib) (envOf : Nat → server.Env) (nc : NetworkClient) (link : Link)
    (otherUserID : GoString) (limit : Int) : Link × List shared.Message × Option Error :=
  match nc.Session with
  | none => (link, [], some (lit "not authenticated"))
  | some session =>
    let request : Msg := [(lit "action", .str (lit "get_messages")),
      (lit "token", .str session.Token), (lit "other_user_id", .str otherUserID),
      (lit "limit", .int limit)]
    match read L envOf (send link request) with
    | (link1, .error err) => (link1, [], some err)
    | (link1, .ok data) => (link1, messagesResult data)

/-- The method `NetworkClient.GetChannelMessages`. -/
def GetChannelMessages (L : server.Lib) (envOf : Nat → server.Env) (nc : NetworkClient)
    (link : Link) (channelID : GoString) (limit : Int) :
    Link × List shared.Message × Option Error :=
  match nc.Session with
  | none => (link, [], some (lit "not authenticated"))
  | some session =>
    let request : Msg := [(lit "action", .str (lit "get_channel_messages")),
      (lit "token", .str session.Token), (lit "channel_id", .str channelID),
      (lit "limit", .int limit)]
    match read L envOf (send link request) with
    | (link1, .error err) => (link1, [], some err)
    | (link1, .ok data) => (link1, messagesResult data)

/-- The method `NetworkClient.CreateChannel`. -/
def CreateChannel (J : Json) (L : server.Lib) (envOf : Nat → server.Env) (nc : NetworkClient)
    (link : Link) (name description : GoString) (members : List GoString) :
    Link × Option shared.Channel × Option Error :=
  match nc.Session with
  | none => (link, none, some (lit "not authenticated"))
  | some session =>
    let req : shared.ChannelRequest :=
      { Name := name, Description := description, Members := members }
    let data := J.MarshalChannelRequest req
    let request : Msg := [(lit "action", .str (lit "create_channel")),
      (lit "token", .str session.Token), (lit "data", .str data)]
    match read L envOf (send link request) with
    | (link1, .error err) => (link1, none, some err)
    | (link1, .ok msg) =>
      match fieldBool msg (lit "success"), fieldChannel msg (lit "channel"),
        fieldString msg (lit "error") with
      | .ok success, .ok channel, .ok error =>
        if !success then (link1, none, some error) else (link1, channel, none)
      | _, _, _ => (link1, none, some typeError)

/-- The method `NetworkClient.GetUserChannels`. -/
def GetUserChannels (L : server.Lib) (envOf : Nat → server.Env) (nc : NetworkClient)
    (link : Link) : Link × List shared.Channel × Option Error :=
  match nc.Session with
  | none => (link, [], some (lit "not authenticated"))
  | some session =>
    let request : Msg := [(lit "action", .str (lit "get_user_channels")),
      (lit "token", .str session.Token)]
    match read L envOf (send link request) with
    | (link1, .error err) => (link1, [], some err)
    | (link1, .ok data) =>
      match fieldBool data (lit "success"), fieldChannels data (lit "channels"),
        fieldString data (lit "error") with
      | .ok success, .ok channels, .ok error =>
        if !success then (link1, [], some error) else (link1, channels, none)
      | _, _, _ => (link1, [], some typeError)

end client

/-! ### Sequences of requests and the invariants of the stored records -/

namespace storage

/-- No two rows of `users` share a username, and no two share an email. -/
def Database.UniqueIdentities (db : Database) : Prop :=
  (db.users.map (fun u => u.username)).Nodup ∧ (db.users.map (fun u => u.email)).Nodup

/-- The creator of every stored channel is a member of that channel: a row
of `channel_members` joins the channel and its `created_by`. -/
def Database.CreatorsAreMembers (db : Database) : Prop :=
  ∀ c ∈ db.channels, ∃ m ∈ db.channel_members,
    m.channel_id = c.id ∧ m.user_id = c.created_by

/-- The tables `db1` have the users, the channels and the memberships of `db`. -/
def Database.SameDirectory (db db1 : Database) : Prop :=
  db1.users = db.users ∧ db1.channels = db.channels ∧
  db1.channel_members = db.channel_members

/-- The users, channels and memberships of `db1` are those of `db`, or those
of `db` and one new user whose username and email no user of `db` has, or
those of `db` and one new channel with new memberships, its creator's among
them, or those of `db` and one new membership. -/
def Database.Grows (db db1 : Database) : Prop :=
  db.SameDirectory db1 ∨
  (db1.channels = db.channels ∧ db1.channel_members = db.channel_members ∧
    ∃ row, db1.users = db.users ++ [row] ∧
      ∀ r ∈ db.users, r.username ≠ row.username ∧ r.email ≠ row.email) ∨
  (db1.users = db.users ∧ ∃ c rows, db1.channels = db.channels ++ [c] ∧
    db1.channel_members = db.channel_members ++ rows ∧
    ∃ m ∈ rows, m.channel_id = c.id ∧ m.user_id = c.created_by) ∨
  (db1.users = db.users ∧ db1.channels = db.channels ∧
    ∃ row, db1.channel_members = db.channel_members ++ [row])

end storage

namespace server

/-- The tables after the requests of `steps`, each with the environment it
is handled in, have gone through `processMessage` one after the other. -/
def run (L : Lib) : storage.Database → List (Env × Msg) → storage.Database
  | db, [] => db
  | db, (env, msg) :: rest => run L (processMessage L env db msg).1 rest

/-- The request `msg` is a remove_user_from_channel request that carries the
token of a session stored in `db` and names a channel stored in `db` together
with the creator of that channel. -/
def RemovesCreator (db : storage.Database) (msg : Msg) : Prop :=
  msg.string (lit "action") = some (lit "remove_user_from_channel") ∧
  (∃ token user, msg.string (lit "token") = some token ∧
    storage.GetSession db token = .ok user) ∧
  ∃ c ∈ db.channels, msg.string (lit "channel_id") = some c.id ∧
    msg.string (lit "user_id") = some c.created_by

/-- No request of `steps` removes the creator of a channel from that channel
in the tables it is handled on. -/
def NoCreatorRemoved (L : Lib) : storage.Database → List (Env × Msg) → Prop
  | _, [] => True
  | db, (env, msg) :: rest =>
    ¬ RemovesCreator db msg ∧ NoCreatorRemoved L (processMessage L env db msg).1 rest

end server

/-! ### The cached session of the client (`client/session_manager.go`) -/

namespace os

/-- The file at one path: `none` when there is no file there, else its
content. A file that exists can be read and removed. -/
abbrev File := Option Bytes

/-- The function `os.ReadFile` at that path. -/
def ReadFile (file : File) : Except Error Bytes :=
  match file with
  | none => .error (lit "open session.json: no such file or directory")
  | some data => .ok data

/-- The function `os.WriteFile` at that path: the file after the call. -/
def WriteFile (_file : File) (data : Bytes) : File × Option Error := (some data, none)

/-- The function `os.Remove` at that path: the file after the call. -/
def Remove (file : File) : File × Option Error :=
  match file with
  | none => (none, some (lit "remove session.json: no such file or directory"))
  | some _ => (none, none)

end os

namespace time

/-- The constant `time.Hour`, a `Duration` in nanoseconds. -/
def Hour : Int := 3600 * 1000000000

/-- The function `time.Since` with the clock at `now`. The saturation of
`Duration` at the bounds of `int64` (more than 292 years) is left out. -/
def Since (now t : Time) : Int := (now : Int) - (t : Int)

end time

namespace client

/-- The functions `json.Marshal` and `json.Unmarshal` at the type `Session`. -/
structure SessionJson where
  Marshal : Session → Except Error Bytes
  Unmarshal : Bytes → Except Error Session

/-- The method `SessionManager.SaveSession`; `file` is the file at
`sm.sessionPath`, and the result holds the file after the call. -/
def SaveSession (J : SessionJson) (file : os.File) (session : Session) :
    os.File × Option Error :=
  match J.Marshal session with
  | .error err => (file, some err)
  | .ok data => os.WriteFile file data

/-- The method `SessionManager.LoadSession`. -/
def LoadSession (J : SessionJson) (file : os.File) : Except Error Session :=
  match os.ReadFile file with
  | .error err => .error err
  | .ok data =>
    match J.Unmarshal data with
    | .error err => .error err
    | .ok session => .ok session

/-- The method `SessionManager.ClearSession`. -/
def ClearSession (file : os.File) : os.File × Option Error := os.Remove file

/-- The method `SessionManager.HasValidSession` with the clock at `now`: the
file after the call and the result. -/
def HasValidSession (J : SessionJson) (now : Time) (file : os.File) : os.File × Bool :=
  match LoadSession J file with
  | .error _ => (file, false)
  | .ok session =>
    if time.Since now session.LastSeen > 7 * 24 * time.Hour then
      ((ClearSession file).1, false)
    else (file, true)

end client

/-! ### Concrete inputs used by the witnesses -/

namespace Sample

/-- A stand-in key derivation: password, then salt, cut or zero-filled to the
requested length. -/
def kdf : crypto.KeyDerivation := fun password salt _ keyLen =>
  ((password ++ salt).take keyLen) ++ List.replicate (keyLen - (password ++ salt).length) 0

/-- A random source that yields `7, 8, 9, ...`. -/
def rnd : RandSource := { fail := none, byte := fun i => UInt8.ofNat (i + 7) }

/-- A stand-in cipher on keys of type `Unit`: the wrapped key is the key
itself, and sealing prefixes a 16-byte tag of zeros that opening checks. -/
def cipher : crypto.Cipher Unit Unit where
  EncryptOAEP := fun _ _ msg => .ok msg
  DecryptOAEP := fun _ ct => .ok ct
  Seal := fun _ _ plaintext => List.replicate 16 0 ++ plaintext
  Open := fun _ _ ct =>
    if ct.take 16 = List.replicate 16 0 then .ok (ct.drop 16)
    else .error (lit "cipher: message authentication failed")

/-- Reads a run of `1` bytes closed by one other byte: its length and the rest. -/
def splitUnary : Bytes → Nat × Bytes
  | [] => (0, [])
  | b :: rest => if b = 1 then ((splitUnary rest).1 + 1, (splitUnary rest).2) else (0, rest)

/-- A stand-in codec for the envelope map: the length of the `"key"` entry in
unary, then the two entries. -/
def json : crypto.Json where
  Marshal := fun m =>
    List.replicate (crypto.mapIndex m (lit "key")).length 1 ++
      0 :: (crypto.mapIndex m (lit "key") ++ crypto.mapIndex m (lit "message"))
  Unmarshal := fun data =>
    if data = [] then .error (lit "unexpected end of JSON input")
    else
      let n := (splitUnary data).1
      let rest := (splitUnary data).2
      .ok [(lit "key", rest.take n), (lit "message", rest.drop n)]

/-- A key manager for the stand-in cipher. -/
def keyManager : crypto.KeyManager Unit Unit := { privateKey := (), publicKey := () }

/-- The random sources of one encryption. -/
def encryptRand : crypto.EncryptRand := { aesKey := rnd, nonce := rnd, oaep := rnd }

/-- The fields of a payload text, separated by the byte `sep`. -/
def splitOn (sep : UInt8) : Bytes → List Bytes
  | [] => [[]]
  | c :: rest =>
    if c = sep then [] :: splitOn sep rest
    else
      match splitOn sep rest with
      | [] => [[c]]
      | field :: fields => (c :: field) :: fields

/-- Stand-in request decoders: the fields of a payload are separated by `|`
(the members of a channel request by `,`); a payload with another number of
fields is refused. -/
def serverJson : server.Json where
  UnmarshalRegisterRequest := fun data =>
    match splitOn 124 data with
    | [username, email, password] =>
      .ok { Username := username, Email := email, Password := password }
    | _ => .error (lit "unexpected end of JSON input")
  UnmarshalLoginRequest := fun data =>
    match splitOn 124 data with
    | [username, password] => .ok { Username := username, Password := password }
    | _ => .error (lit "unexpected end of JSON input")
  UnmarshalMessageRequest := fun data =>
    match splitOn 124 data with
    | [recipient, content] => .ok { To := recipient, Content := content }
    | _ => .error (lit "unexpected end of JSON input")
  UnmarshalChannelMessageRequest := fun data =>
    match splitOn 124 data with
    | [channelID, content] => .ok { ChannelID := channelID, Content := content }
    | _ => .error (lit "unexpected end of JSON input")
  UnmarshalChannelRequest := fun data =>
    match splitOn 124 data with
    | [name, description, members] =>
      .ok { Name := name, Description := description,
            Members := if members = [] then [] else splitOn 44 members }
    | _ => .error (lit "unexpected end of JSON input")

/-- The encoders that go with `serverJson`. -/
def clientJson : client.Json where
  MarshalRegisterRequest := fun req => req.Username ++ 124 :: (req.Email ++ 124 :: req.Password)
  MarshalLoginRequest := fun req => req.Username ++ 124 :: req.Password
  MarshalMessageRequest := fun req => req.To ++ 124 :: req.Content
  MarshalChannelMessageRequest := fun req => req.ChannelID ++ 124 :: req.Content
  MarshalChannelRequest := fun req =>
    req.Name ++ 124 :: (req.Description ++ 124 :: (lit ",").intercalate req.Members)

/-- The server libraries of the witnesses. -/
def lib : server.Lib := { kdf := kdf, json := serverJson }

/-- The environment of a request handled at time `now`. -/
def env (now : Time) : server.Env := { now := now, salt := rnd, id := rnd, token := rnd }

/-- The registration of alice. -/
def registerAlice : shared.RegisterRequest :=
  { Username := lit "alice", Email := lit "alice@x.com", Password := lit "pw1" }

/-- The tables after alice registered at time 5 in an empty database. -/
def dbAlice : storage.Database := (server.Register kdf (env 5) {} registerAlice).1

/-- The token alice received. -/
def tokenAlice : GoString := (server.Register kdf (env 5) {} registerAlice).2.1.Token

/-- A login of alice with her password. -/
def loginAlice : shared.LoginRequest := { Username := lit "alice", Password := lit "pw1" }

/-- A random source that yields `100, 101, ...`. -/
def rnd2 : RandSource := { fail := none, byte := fun i => UInt8.ofNat (i + 100) }

/-- An environment with other random bytes. -/
def env2 (now : Time) : server.Env := { now := now, salt := rnd2, id := rnd2, token := rnd2 }

/-- A time more than seven days after time 5. -/
def lateNow : Time := 5 + inactivityWindow + 1

/-- The identity of alice in `staleDb`. -/
def alice : shared.User :=
  { ID := lit "u1", Username := lit "alice", Email := lit "alice@x.com", Created := 0 }

/-- The session of alice in `staleDb`: created and last seen at time 0. -/
def staleSession : storage.SessionRow :=
  { token := lit "t1", user_id := lit "u1", created_at := 0, last_seen := 0 }

/-- Tables with the one user alice and her one session, last seen at time 0. -/
def staleDb : storage.Database :=
  { users := [storage.UserRow.mk (lit "u1") (lit "alice") (lit "alice@x.com") (lit "aA==")
      (lit "aA==") none 0],
    sessions := [staleSession] }

/-- A request of the given action with a token and a payload. -/
def request (action token data : GoString) : Msg :=
  [(lit "action", .str action), (lit "token", .str token), (lit "data", .str data)]

/-- A string in double quotes (no character is escaped). -/
def quote (s : GoString) : GoString := 34 :: (s ++ [34])

/-- The JSON text of a string or boolean; `null` for every other value. -/
def marshalValue : Value → GoString
  | .str s => quote s
  | .bool true => lit "true"
  | .bool false => lit "false"
  | _ => lit "null"

/-- The members of a JSON object, separated by commas. -/
def marshalEntries : Msg → GoString
  | [] => []
  | kv :: rest =>
    (quote kv.1 ++ 58 :: marshalValue kv.2) ++
      (if rest.isEmpty then [] else 44 :: marshalEntries rest)

/-- The scanner inside a JSON object: `depth` open braces, inside a string or
not, after a backslash or not; the value ends with the brace that closes the
first one. -/
def scanObject : Nat → Bool → Bool → Nat → Bytes → shared.ScanResult
  | _, _, _, _, [] => .more
  | depth, inString, escaped, pos, c :: rest =>
    if inString then
      if escaped then scanObject depth true false (pos + 1) rest
      else if c = 92 then scanObject depth true true (pos + 1) rest
      else if c = 34 then scanObject depth false false (pos + 1) rest
      else scanObject depth true false (pos + 1) rest
    else if c = 34 then scanObject depth true false (pos + 1) rest
    else if c = 123 then scanObject (depth + 1) false false (pos + 1) rest
    else if c = 125 then
      if depth ≤ 1 then .value (pos + 1) else scanObject (depth - 1) false false (pos + 1) rest
    else scanObject depth false false (pos + 1) rest

/-- The scanner before a value: white space is skipped and an object is
delimited; any other first byte is reported as a syntax error. -/
def scanValue : Nat → Bytes → shared.ScanResult
  | _, [] => .more
  | pos, c :: rest =>
    if c = 32 ∨ c = 9 ∨ c = 13 ∨ c = 10 then scanValue (pos + 1) rest
    else if c = 123 then scanObject 1 false false (pos + 1) rest
    else .invalid (lit "invalid character looking for beginning of value")

/-- A string in double quotes and the bytes after it. -/
def parseString (bs : Bytes) : Option (GoString × Bytes) :=
  match bs with
  | [] => none
  | c :: rest =>
    if c = 34 then
      match rest.span (fun x => x != 34) with
      | (s, _ :: after) => some (s, after)
      | (_, []) => none
    else none

/-- The members `"key":"value"` of an object up to its closing brace. -/
def parseEntries : Nat → Bytes → Option Msg
  | 0, _ => none
  | fuel + 1, bs =>
    match parseString bs with
    | none => none
    | some (key, r1) =>
      match r1 with
      | [] => none
      | colon :: r2 =>
        if colon = 58 then
          match parseString r2 with
          | none => none
          | some (value, r3) =>
            match r3 with
            | [] => none
            | c :: r4 =>
              if c = 125 then (if r4 = [] then some [(key, .str value)] else none)
              else if c = 44 then
                match parseEntries fuel r4 with
                | none => none
                | some entries => some ((key, .str value) :: entries)
              else none
        else none

/-- A stand-in for `encoding/json` on the wire: objects whose values are
strings, written and read without escapes. -/
def wireJson : shared.Json where
  Marshal := fun msg => .ok (123 :: (marshalEntries msg ++ [125]))
  scan := scanValue 0
  Unmarshal := fun data =>
    match (data.dropWhile (fun c => c == 32 || c == 9 || c == 13 || c == 10)) with
    | [] => .error (lit "unexpected end of JSON input")
    | c :: rest =>
      if c = 123 then
        if rest = [125] then .ok []
        else
          match parseEntries rest.length rest with
          | some msg => .ok msg
          | none => .error (lit "json: cannot unmarshal")
      else .error (lit "json: cannot unmarshal")

/-- The first message of the framing example. -/
def frameA : Msg := [(lit "a", .str (lit "x"))]

/-- The second message of the framing example. -/
def frameB : Msg := [(lit "b", .str (lit "y"))]

/-- The bytes on the connection after `SendMessage(frameA)` and
`SendMessage(frameB)`. -/
def twoFrames : Bytes :=
  (shared.SendMessage wireJson (shared.SendMessage wireJson [] frameA).1 frameB).1

/-- The identity of bob in `chatDb`. -/
def bob : shared.User :=
  { ID := lit "u2", Username := lit "bob", Email := lit "bob@x.com", Created := 0 }

/-- Tables with the users alice and bob and one session of alice. -/
def chatDb : storage.Database :=
  { users := [storage.UserRow.mk (lit "u1") (lit "alice") (lit "alice@x.com") (lit "aA==")
      (lit "aA==") none 0,
      storage.UserRow.mk (lit "u2") (lit "bob") (lit "bob@x.com") (lit "aA==")
      (lit "aA==") none 0],
    sessions := [staleSession] }

/-- The client of alice, holding her session. -/
def aliceClient : client.NetworkClient :=
  { Session := some { Token := lit "t1", User := some alice, LastSeen := 0 } }

/-- The environment of the `i`-th request of a connection: time `100 + i`. -/
def envOf (i : Nat) : server.Env := env (100 + i)

/-- The connection after alice called `SendMessage("u2", "hi")`. -/
def linkAfterSend : client.Link :=
  (client.SendMessage clientJson aliceClient { db := chatDb } (lit "u2") (lit "hi")).1

/-- The message that the server stores for that call. -/
def hiMessage : shared.Message :=
  { ID := lit "msg_100", From := lit "u1", To := lit "u2", ChannelID := [],
    Content := lit "hi", Encrypted := true, Timestamp := 100 }

/-- The result of the registration of alice at time 5 in an empty database. -/
def registerAliceResult : storage.Database × shared.AuthResponse × Option Error :=
  server.Register kdf (env 5) {} registerAlice

/-- The password hash stored for alice by that registration. -/
def registerAliceHash : GoString := (crypto.HashPassword kdf rnd (lit "pw1")).1

/-- The password salt stored for alice by that registration. -/
def registerAliceSalt : GoString := (crypto.HashPassword kdf rnd (lit "pw1")).2.1

/-- Tables with alice and bob, the session of alice, and the channel `ch_1`
("team") that alice created, with bob and alice as members. -/
def teamDb : storage.Database :=
  { users := chatDb.users,
    sessions := chatDb.sessions,
    channels := [storage.ChannelRow.mk (lit "ch_1") (lit "team") [] (lit "u1") 1],
    channel_members := [storage.ChannelMemberRow.mk (lit "ch_1") (lit "u2") 1,
      storage.ChannelMemberRow.mk (lit "ch_1") (lit "u1") 1] }

/-- A request of alice to send "hi" to the channel `ch_1`. -/
def sendToTeam : Msg := request (lit "send_channel_message") (lit "t1") (lit "ch_1|hi")

/-- The tables after that request was handled with the clock at 100. -/
def teamDbAfterSend : storage.Database := (server.processMessage lib (env 100) teamDb sendToTeam).1

/-- Tables with alice and bob, a session of each, and the message "hi" that
alice sent to bob at time 100. -/
def convDb : storage.Database :=
  { users := chatDb.users,
    sessions := [staleSession, storage.SessionRow.mk (lit "t2") (lit "u2") 0 0],
    messages := [storage.MessageRow.mk (lit "msg_100") (lit "u1") (lit "u2") [] (lit "hi")
      true 100] }

/-- The request of bob for his conversation with alice, without a limit. -/
def bobAsksAlice : Msg :=
  [(lit "action", .str (lit "get_messages")), (lit "token", .str (lit "t2")),
    (lit "other_user_id", .str (lit "u1"))]

/-- A frame that is not JSON. -/
def badFrame : Bytes := lit "oops\n"

/-- A well-formed frame with an action the server does not know. -/
def pingFrame : Bytes := lit "\x7b\"action\":\"ping\"\x7d\n"

/-- The response frame to `pingFrame`. -/
def pingAnswer : Bytes := lit "\x7b\"success\":false,\"error\":\"Unknown action\"\x7d\n"

/-- A create_channel request of alice that names bob twice. -/
def createTeamTwice : Msg := request (lit "create_channel") (lit "t1") (lit "team||u2,u2")

/-- A get_channel_messages request for the channel `ch_1` with the given token. -/
def channelQuery (token : GoString) : Msg :=
  [(lit "action", .str (lit "get_channel_messages")), (lit "token", .str token),
    (lit "channel_id", .str (lit "ch_1"))]

/-- A send_message request of alice whose payload has an empty `to`. -/
def sendToNobody : Msg := request (lit "send_message") (lit "t1") (lit "|hi")

/-- The message that the server stores for `sendToNobody` at time 100. -/
def nobodyMessage : shared.Message :=
  { ID := lit "msg_100", From := lit "u1", To := [], ChannelID := [],
    Content := lit "hi", Encrypted := true, Timestamp := 100 }

/-- A request of alice to add bob, already a member, to the channel `ch_1`. -/
def addBobAgain : Msg :=
  [(lit "action", .str (lit "add_user_to_channel")), (lit "token", .str (lit "t1")),
    (lit "channel_id", .str (lit "ch_1")), (lit "user_id", .str (lit "u2"))]

/-- The error text of SQLite for a second row with one `(channel_id, user_id)`. -/
def memberKeyError : Error :=
  lit "UNIQUE constraint failed: channel_members.channel_id, channel_members.user_id"

/-- A stand-in codec of cached sessions: the token and the decimal digits of
`LastSeen`, separated by `|`; the user is not kept. -/
def sessionJson : client.SessionJson where
  Marshal := fun session => .ok (session.Token ++ 124 :: decimal session.LastSeen)
  Unmarshal := fun data =>
    match splitOn 124 data with
    | [token, seen] =>
      .ok { Token := token, User := none,
            LastSeen := seen.foldl (fun n c => 10 * n + (c.toNat - 48)) 0 }
    | _ => .error (lit "unexpected end of JSON input")

/-- The session file of a client whose session was last seen at time 5. -/
def sessionFile : os.File := some (lit "t1|5")

/-- A request to register alice. -/
def registerAliceMsg : Msg := request (lit "register") [] (lit "alice|alice@x.com|pw1")

/-- A request to register bob under the username of alice. -/
def registerBobAsAlice : Msg := request (lit "register") [] (lit "alice|bob@x.com|pw2")

/-- The ID that the registration of alice gives her. -/
def idAlice : GoString := server.generateID rnd

/-- Alice registers at time 5, creates the channel "team" at time 100, and
at time 101 removes herself from it. -/
def creatorLeaves : List (server.Env × Msg) :=
  [(env 5, registerAliceMsg),
    (env 100, request (lit "create_channel") tokenAlice (lit "team||")),
    (env 101, [(lit "action", .str (lit "remove_user_from_channel")),
      (lit "token", .str tokenAlice), (lit "channel_id", .str (lit "ch_100")),
      (lit "user_id", .str idAlice)])]

/-- Alice registers at time 5, creates the channel "team" at time 100, and
at time 101 asks to remove the user `u2`, who is not a member, from it. -/
def creatorStays : List (server.Env × Msg) :=
  [(env 5, registerAliceMsg),
    (env 100, request (lit "create_channel") tokenAlice (lit "team||")),
    (env 101, [(lit "action", .str (lit "remove_user_from_channel")),
      (lit "token", .str tokenAlice), (lit "channel_id", .str (lit "ch_100")),
      (lit "user_id", .str (lit "u2"))])]

/-- The row of the channel that alice creates at time 100. -/
def teamRow : storage.ChannelRow :=
  storage.ChannelRow.mk (lit "ch_100") (lit "team") [] idAlice 100

end Sample
/-! ## Part II: theorems -/

namespace base64

theorem decodeMap_encodeChar : ∀ n : Fin 64, decodeMap (encodeChar n.val) = some n.val := by
  decide

theorem decodeMap_encodeChar_lt (n : Nat) (h : n < 64) : decodeMap (encodeChar n) = some n :=
  decodeMap_encodeChar ⟨n, h⟩

theorem decodeMap_padChar : decodeMap padChar = none := by decide

theorem isNewline_padChar : isNewline padChar = false := by decide

theorem toNat_lt (a : UInt8) : a.toNat < 256 := by
  have := UInt8.toNat_lt_size a
  simpa [UInt8.size] using this

theorem ofNat_toNat (n : Nat) : (UInt8.ofNat n).toNat = n % 256 := rfl

theorem ofNat_eq (a : UInt8) (n : Nat) (h : n = a.toNat) : UInt8.ofNat n = a := by
  apply UInt8.ext
  rw [ofNat_toNat, h]
  exact Nat.mod_eq_of_lt (toNat_lt a)

/-- Decoding an encoded byte sequence gives the sequence back. -/
theorem decode_encode : ∀ (n : Nat) (bs : Bytes), bs.length ≤ n →
    DecodeString (EncodeToString bs) = some bs := by
  intro n
  induction n using Nat.strong_induction_on with
  | _ n ih =>
    intro bs hlen
    match bs, hlen with
    | [], _ => rfl
    | [a], _ =>
      have ha := toNat_lt a
      simp only [DecodeString, EncodeToString, decodeFrom]
      rw [decodeMap_encodeChar_lt _ (Nat.mod_lt _ (by decide))]
      simp only [List.length_nil, List.nil_append, decodeFrom]
      rw [decodeMap_encodeChar_lt _ (Nat.mod_lt _ (by decide))]
      simp only [decodeFrom, decodeMap_padChar, isNewline_padChar, skipNewlines, quantumBytes]
      simp
      repeat' constructor
      all_goals first | rfl | (apply ofNat_eq; omega)
    | [a, b], _ =>
      have ha := toNat_lt a
      have hb := toNat_lt b
      simp only [DecodeString, EncodeToString, decodeFrom]
      rw [decodeMap_encodeChar_lt _ (Nat.mod_lt _ (by decide))]
      simp only [List.length_nil, List.nil_append, decodeFrom]
      rw [decodeMap_encodeChar_lt _ (Nat.mod_lt _ (by decide))]
      simp only [List.length_cons, List.length_nil, List.cons_append, List.nil_append, decodeFrom]
      rw [decodeMap_encodeChar_lt _ (Nat.mod_lt _ (by decide))]
      simp only [decodeFrom, decodeMap_padChar, isNewline_padChar, skipNewlines, quantumBytes]
      simp
      repeat' constructor
      all_goals first | rfl | (apply ofNat_eq; omega)
    | a :: b :: c :: rest, hlen =>
      have ha := toNat_lt a
      have hb := toNat_lt b
      have hc := toNat_lt c
      have hrest : DecodeString (EncodeToString rest) = some rest :=
        ih rest.length (by simp at hlen; omega) rest (le_refl _)
      simp only [DecodeString] at hrest
      simp only [DecodeString, EncodeToString, decodeFrom]
      rw [decodeMap_encodeChar_lt _ (Nat.mod_lt _ (by decide))]
      simp only [List.length_nil, List.nil_append, decodeFrom]
      rw [decodeMap_encodeChar_lt _ (Nat.mod_lt _ (by decide))]
      simp only [List.length_cons, List.length_nil, List.cons_append, List.nil_append, decodeFrom]
      rw [decodeMap_encodeChar_lt _ (Nat.mod_lt _ (by decide))]
      simp only [List.length_cons, List.length_nil, List.cons_append, List.nil_append, decodeFrom]
      rw [decodeMap_encodeChar_lt _ (Nat.mod_lt _ (by decide))]
      simp only [hrest, quantumBytes]
      simp
      repeat' constructor
      all_goals first | rfl | (apply ofNat_eq; omega)

theorem DecodeString_EncodeToString (bs : Bytes) : DecodeString (EncodeToString bs) = some bs :=
  decode_encode bs.length bs (le_refl _)

end base64

/-! ### Password hashing -/

theorem hexDigit_inj : ∀ a b : Fin 16, hexDigit a.val = hexDigit b.val → a = b := by decide

theorem hexString_inj : ∀ a b : Bytes, hexString a = hexString b → a = b
  | [], [], _ => rfl
  | [], _ :: _, h => by simp [hexString] at h
  | _ :: _, [], h => by simp [hexString] at h
  | x :: xs, y :: ys, h => by
    simp only [hexString, List.cons.injEq] at h
    obtain ⟨h1, h2, h3⟩ := h
    have hx := base64.toNat_lt x
    have hy := base64.toNat_lt y
    have e1 := hexDigit_inj ⟨x.toNat / 16, by omega⟩ ⟨y.toNat / 16, by omega⟩ h1
    have e2 := hexDigit_inj ⟨x.toNat % 16, Nat.mod_lt _ (by decide)⟩
      ⟨y.toNat % 16, Nat.mod_lt _ (by decide)⟩ h2
    simp only [Fin.mk.injEq] at e1 e2
    have hxy : x = y := UInt8.ext (by omega)
    rw [hxy, hexString_inj xs ys h3]

theorem hexString_beq (a b : Bytes) : (hexString a == hexString b) = true ↔ a = b := by
  constructor
  · intro h
    exact hexString_inj a b (by simpa using h)
  · intro h
    simp [h]

/-- C1: for every password `p`, if `HashPassword(p)` returns `(hash, salt)`
with a nil error, then `VerifyPassword(p, hash, salt)` is true. -/
theorem C1_verify_accepts_hashed_password (kdf : crypto.KeyDerivation) (rnd : RandSource)
    (p hash salt : GoString)
    (h : crypto.HashPassword kdf rnd p = (hash, salt, none)) :
    crypto.VerifyPassword kdf p hash salt = true := by
  unfold crypto.HashPassword at h
  cases hr : rnd.read crypto.SaltLength with
  | error e => simp [hr] at h
  | ok saltBytes =>
    simp only [hr, Prod.mk.injEq, and_true] at h
    obtain ⟨h1, h2⟩ := h
    subst h1 h2
    simp [crypto.VerifyPassword, base64.DecodeString_EncodeToString]

theorem C1_witness :
    crypto.VerifyPassword Sample.kdf (lit "pw")
      (crypto.HashPassword Sample.kdf Sample.rnd (lit "pw")).1
      (crypto.HashPassword Sample.kdf Sample.rnd (lit "pw")).2.1 = true :=
  C1_verify_accepts_hashed_password Sample.kdf Sample.rnd (lit "pw") _ _ (by rfl)

/-- C7: `VerifyPassword(p, h, s)` is true exactly when `s` and `h` both decode
as standard base64 and PBKDF2 of `p` with the decoded salt, 100000 iterations
and a 32-byte output equals the decoded `h` byte for byte; it is false (the
function is total, so there is no panic) whenever `s` or `h` does not decode. -/
theorem C7_verify_password_iff (kdf : crypto.KeyDerivation) (p h s : GoString) :
    (crypto.VerifyPassword kdf p h s = true ↔
      ∃ saltBytes hashBytes, base64.DecodeString s = some saltBytes ∧
        base64.DecodeString h = some hashBytes ∧ kdf p saltBytes 100000 32 = hashBytes) ∧
    (base64.DecodeString s = none ∨ base64.DecodeString h = none →
      crypto.VerifyPassword kdf p h s = false) := by
  unfold crypto.VerifyPassword
  cases hs : base64.DecodeString s with
  | none => simp
  | some sb =>
    cases hh : base64.DecodeString h with
    | none => simp
    | some hb =>
      simp only [crypto.Iterations, hexString_beq]
      simp

theorem C7_witness :
    crypto.VerifyPassword Sample.kdf (lit "pw") (lit "not base64!") (lit "AAAA") = false :=
  (C7_verify_password_iff Sample.kdf (lit "pw") (lit "not base64!") (lit "AAAA")).2
    (Or.inr (by decide))

/-! ### Hybrid encryption -/

theorem RandSource.read_length (r : RandSource) (n : Nat) (bs : Bytes)
    (h : r.read n = .ok bs) : bs.length = n := by
  unfold RandSource.read at h
  cases hf : r.fail with
  | some e => simp [hf] at h
  | none =>
    simp only [hf, Except.ok.injEq] at h
    subst h
    simp

theorem crypto.aesNewCipher_ok (key : Bytes) (h : key.length = 32) :
    crypto.aesNewCipher key = .ok key := by
  simp [crypto.aesNewCipher, h]

theorem crypto.mapIndex_key (k v : GoString) :
    crypto.mapIndex [(lit "key", k), (lit "message", v)] (lit "key") = k := by
  simp [crypto.mapIndex, List.lookup]

theorem crypto.mapIndex_message (k v : GoString) :
    crypto.mapIndex [(lit "key", k), (lit "message", v)] (lit "message") = v := by
  have hne : (lit "message" == lit "key") = false := by decide
  simp [crypto.mapIndex, List.lookup, hne]

/-- C2: for every plaintext `m` and keypair held by the key manager, if
`EncryptMessage(m, pub)` returns the envelope `e` with a nil error, then
`DecryptMessage(e)` returns exactly `m` with a nil error, given that RSA-OAEP
and AES-GCM invert their own encryption (and `encoding/json` reads back the
envelope map it wrote). -/
theorem C2_decrypt_inverts_encrypt {PublicKey PrivateKey : Type}
    (C : crypto.Cipher PublicKey PrivateKey) (J : crypto.Json)
    (km : crypto.KeyManager PublicKey PrivateKey) (rnd : crypto.EncryptRand) (m e : GoString)
    (hC : C.Inverts km.publicKey km.privateKey) (hJ : J.RoundTrips)
    (h : crypto.EncryptMessage C J rnd m km.publicKey = (e, none)) :
    crypto.DecryptMessage C J km e = (m, none) := by
  obtain ⟨hrsa, hgcm⟩ := hC
  unfold crypto.EncryptMessage at h
  cases hk : rnd.aesKey.read 32 with
  | error err => simp [hk] at h
  | ok aesKey =>
    have hklen := RandSource.read_length _ _ _ hk
    simp only [hk, crypto.encryptAES, crypto.aesNewCipher_ok aesKey hklen] at h
    cases hn : rnd.nonce.read crypto.gcmNonceSize with
    | error err => simp [hn] at h
    | ok nonce =>
      have hnlen := RandSource.read_length _ _ _ hn
      simp only [hn] at h
      cases hr : C.EncryptOAEP rnd.oaep km.publicKey aesKey with
      | error err => simp [hr] at h
      | ok encryptedKey =>
        simp only [hr, Prod.mk.injEq, and_true] at h
        subst h
        have hopen := hgcm aesKey nonce m hklen hnlen
        have hdec := hrsa rnd.oaep aesKey encryptedKey hr
        have hlt : ¬ (nonce ++ C.Seal aesKey nonce m).length < crypto.gcmNonceSize := by
          simp [hnlen]
        have htake : (nonce ++ C.Seal aesKey nonce m).take crypto.gcmNonceSize = nonce := by
          rw [← hnlen]; simp
        have hdrop : (nonce ++ C.Seal aesKey nonce m).drop crypto.gcmNonceSize =
            C.Seal aesKey nonce m := by
          rw [← hnlen]; simp
        simp only [crypto.DecryptMessage, base64.DecodeString_EncodeToString, hJ _ _,
          crypto.mapIndex_key, crypto.mapIndex_message, crypto.KeyManager.GetPrivateKey, hdec,
          crypto.decryptAES, crypto.aesNewCipher_ok aesKey hklen, hlt, if_false, htake, hdrop,
          hopen]

theorem Sample.splitUnary_replicate (n : Nat) (rest : Bytes) :
    Sample.splitUnary (List.replicate n 1 ++ 0 :: rest) = (n, rest) := by
  induction n with
  | zero => simp [Sample.splitUnary]
  | succ n ih => simp [List.replicate_succ, Sample.splitUnary, ih]

theorem Sample.cipher_inverts : Sample.cipher.Inverts () () := by
  constructor
  · intro rnd msg ct h
    simp only [Sample.cipher, Except.ok.injEq] at h ⊢
    exact h.symm
  · intro key nonce plaintext _ _
    simp [Sample.cipher]

theorem Sample.json_roundTrips : Sample.json.RoundTrips := by
  intro k v
  simp [Sample.json, crypto.mapIndex_key, crypto.mapIndex_message, Sample.splitUnary_replicate]

theorem C2_witness :
    crypto.DecryptMessage Sample.cipher Sample.json Sample.keyManager
      (crypto.EncryptMessage Sample.cipher Sample.json Sample.encryptRand (lit "hello")
        Sample.keyManager.publicKey).1 = (lit "hello", none) :=
  C2_decrypt_inverts_encrypt Sample.cipher Sample.json Sample.keyManager Sample.encryptRand
    (lit "hello") _ Sample.cipher_inverts Sample.json_roundTrips (by rfl)

theorem crypto.decryptAES_no_partial_output {PublicKey PrivateKey : Type}
    (C : crypto.Cipher PublicKey PrivateKey) (ciphertext key : Bytes) :
    (crypto.decryptAES C ciphertext key).2 ≠ none → (crypto.decryptAES C ciphertext key).1 = [] := by
  unfold crypto.decryptAES
  cases crypto.aesNewCipher key with
  | error err => simp
  | ok block =>
    by_cases hlen : ciphertext.length < crypto.gcmNonceSize
    · simp [hlen]
    · simp only [hlen, if_false]
      cases C.Open block (List.take crypto.gcmNonceSize ciphertext)
        (List.drop crypto.gcmNonceSize ciphertext) with
      | error err => simp
      | ok plaintext => simp

/-- C8: `DecryptMessage` never returns partial output: whenever its error is
not nil its plaintext is the empty string; and its error is not nil when the
input is not valid base64, when `json.Unmarshal` rejects the decoded bytes as
a `map[string]string`, when the `"key"` or `"message"` entry is not valid
base64, when the decoded message is shorter than the GCM nonce, and when the
GCM `Open` (the authentication check) fails. -/
theorem C8_decrypt_returns_no_partial_output {PublicKey PrivateKey : Type}
    (C : crypto.Cipher PublicKey PrivateKey) (J : crypto.Json)
    (km : crypto.KeyManager PublicKey PrivateKey) (e : GoString) :
    ((crypto.DecryptMessage C J km e).2 ≠ none → (crypto.DecryptMessage C J km e).1 = []) ∧
    (base64.DecodeString e = none → (crypto.DecryptMessage C J km e).2 ≠ none) ∧
    (∀ data err, base64.DecodeString e = some data → J.Unmarshal data = .error err →
      (crypto.DecryptMessage C J km e).2 ≠ none) ∧
    (∀ data result, base64.DecodeString e = some data → J.Unmarshal data = .ok result →
      (base64.DecodeString (crypto.mapIndex result (lit "key")) = none ∨
        base64.DecodeString (crypto.mapIndex result (lit "message")) = none) →
      (crypto.DecryptMessage C J km e).2 ≠ none) ∧
    (∀ data result encryptedMessage, base64.DecodeString e = some data →
      J.Unmarshal data = .ok result →
      base64.DecodeString (crypto.mapIndex result (lit "message")) = some encryptedMessage →
      encryptedMessage.length < crypto.gcmNonceSize →
      (crypto.DecryptMessage C J km e).2 ≠ none) ∧
    (∀ data result encryptedKey encryptedMessage aesKey block err,
      base64.DecodeString e = some data → J.Unmarshal data = .ok result →
      base64.DecodeString (crypto.mapIndex result (lit "key")) = some encryptedKey →
      base64.DecodeString (crypto.mapIndex result (lit "message")) = some encryptedMessage →
      C.DecryptOAEP km.privateKey encryptedKey = .ok aesKey →
      crypto.aesNewCipher aesKey = .ok block →
      crypto.gcmNonceSize ≤ encryptedMessage.length →
      C.Open block (encryptedMessage.take crypto.gcmNonceSize)
        (encryptedMessage.drop crypto.gcmNonceSize) = .error err →
      crypto.DecryptMessage C J km e = ([], some err)) := by
  refine ⟨?_, ?_, ?_, ?_, ?_, ?_⟩
  · unfold crypto.DecryptMessage
    repeat' split
    all_goals first | (intro _; rfl) | exact crypto.decryptAES_no_partial_output C _ _
  · intro h
    simp [crypto.DecryptMessage, h]
  · intro data err h1 h2
    simp [crypto.DecryptMessage, h1, h2]
  · intro data result h1 h2 h3
    rcases h3 with h3 | h3
    · simp [crypto.DecryptMessage, h1, h2, h3]
    · simp only [crypto.DecryptMessage, h1, h2, h3]
      split <;> simp
  · intro data result encryptedMessage h1 h2 h3 h4
    simp only [crypto.DecryptMessage, h1, h2, h3, crypto.decryptAES, h4, if_true]
    repeat' split
    all_goals simp
  · intro data result encryptedKey encryptedMessage aesKey block err h1 h2 h3 h4 h5 h6 h7 h8
    have hlt : ¬ encryptedMessage.length < crypto.gcmNonceSize := by omega
    simp [crypto.DecryptMessage, h1, h2, h3, h4, crypto.KeyManager.GetPrivateKey, h5,
      crypto.decryptAES, h6, hlt, h8]

theorem C8_witness :
    (crypto.DecryptMessage Sample.cipher Sample.json Sample.keyManager (lit "%%%")).2 ≠ none :=
  (C8_decrypt_returns_no_partial_output Sample.cipher Sample.json Sample.keyManager
    (lit "%%%")).2.1 (by decide)

/-! ### Sessions -/

theorem List.find?_append_singleton_of_all_false {α : Type} (p : α → Bool) (l : List α) (x : α)
    (h : l.any p = false) (hx : p x = true) : (l ++ [x]).find? p = some x := by
  induction l with
  | nil => simp [hx]
  | cons a l ih =>
    simp only [List.any_cons, Bool.or_eq_false_iff] at h
    simp [List.find?, h.1, ih h.2]

theorem List.find?_of_mem_nodup_key {α : Type} (key : α → GoString) (l : List α) (x : α)
    (hx : x ∈ l) (hnd : (l.map key).Nodup) : l.find? (fun y => key y == key x) = some x := by
  induction l with
  | nil => cases hx
  | cons a l ih =>
    simp only [List.map_cons, List.nodup_cons, List.mem_map, not_exists, not_and] at hnd
    rcases List.mem_cons.mp hx with rfl | hmem
    · simp
    · have hne : (key a == key x) = false := by
        simpa using fun h => hnd.1 x hmem h.symm
      simp [List.find?, hne, ih hmem hnd.2]

theorem storage.GetSession_of_CreateSession (db db1 : storage.Database) (now : Time)
    (token userID : GoString) (r : storage.UserRow)
    (h : storage.CreateSession db now token userID = .ok db1)
    (hr : db.users.find? (fun u => u.id == userID) = some r) :
    storage.GetSession db1 token = .ok r.toUser := by
  unfold storage.CreateSession at h
  by_cases hany : db.sessions.any (fun s => s.token == token) = true
  · simp [hany] at h
  · rw [if_neg hany] at h
    injection h with h
    subst h
    have hfind := List.find?_append_singleton_of_all_false (fun s => s.token == token)
      db.sessions { token := token, user_id := userID, created_at := now, last_seen := now }
      (by simpa using hany) (by simp)
    simp only [storage.GetSession, hfind, hr]

theorem server.ValidateSession_of_GetSession (db : storage.Database) (now : Time)
    (token : GoString) (u : shared.User) (h : storage.GetSession db token = .ok u) :
    (server.ValidateSession db now token).2 = .ok u := by
  simp [server.ValidateSession, h, storage.UpdateSessionLastSeen]

theorem storage.find_user_of_GetUserByUsername (db : storage.Database) (username : GoString)
    (user : shared.User) (hash salt : GoString)
    (h : storage.GetUserByUsername db username = .ok (user, hash, salt)) :
    ∃ r, r ∈ db.users ∧ r.toUser = user := by
  unfold storage.GetUserByUsername at h
  cases hf : db.users.find? (fun r => r.username == username) with
  | none => simp [hf] at h
  | some r =>
    simp only [hf, Except.ok.injEq, Prod.mk.injEq] at h
    exact ⟨r, List.mem_of_find?_eq_some hf, h.1⟩

theorem storage.find_user_of_CreateUser (db db1 : storage.Database) (user : shared.User)
    (ph ps : GoString) (h : storage.CreateUser db user ph ps = .ok db1) :
    ∃ r : storage.UserRow, r.toUser = user ∧
      db1.users.find? (fun u => u.id == user.ID) = some r := by
  unfold storage.CreateUser at h
  by_cases ha : db.users.any (fun r => r.id == user.ID) = true
  · rw [if_pos ha] at h
    cases h
  · rw [if_neg ha] at h
    split at h
    · cases h
    · split at h
      · cases h
      · injection h with h
        subst h
        refine ⟨storage.UserRow.mk user.ID user.Username user.Email ph ps none user.Created,
          rfl, ?_⟩
        exact List.find?_append_singleton_of_all_false _ _ _ (by simpa using ha) (by simp)

/-- C3: for every register and every login that answers `Success = true`, the
response carries a user, and `ValidateSession` of the returned token, called
right afterwards (at any time), succeeds and returns that user, so the same
ID, username and email. The users table is assumed to satisfy its primary key
(no two rows with one id), as the schema enforces. -/
theorem C3_token_bound_to_returned_user (kdf : crypto.KeyDerivation) (env : server.Env)
    (db : storage.Database) (hkey : (db.users.map (fun u => u.id)).Nodup) :
    (∀ req : shared.RegisterRequest,
      (server.Register kdf env db req).2.1.Success = true →
      ∃ user, (server.Register kdf env db req).2.1.User = some user ∧
        ∀ now, ∃ u, (server.ValidateSession (server.Register kdf env db req).1 now
          (server.Register kdf env db req).2.1.Token).2 = .ok u ∧
          u.ID = user.ID ∧ u.Username = user.Username ∧ u.Email = user.Email) ∧
    (∀ req : shared.LoginRequest,
      (server.Login kdf env db req).2.1.Success = true →
      ∃ user, (server.Login kdf env db req).2.1.User = some user ∧
        ∀ now, ∃ u, (server.ValidateSession (server.Login kdf env db req).1 now
          (server.Login kdf env db req).2.1.Token).2 = .ok u ∧
          u.ID = user.ID ∧ u.Username = user.Username ∧ u.Email = user.Email) := by
  constructor
  · intro req
    unfold server.Register
    cases h1 : storage.GetUserByUsername db req.Username with
    | ok _ => simp
    | error _ =>
      cases h2 : storage.GetUserByEmail db req.Email with
      | ok _ => simp
      | error _ =>
        rcases h3 : crypto.HashPassword kdf env.salt req.Password with ⟨ph, ps, _ | perr⟩
        · simp only
          cases h4 : storage.CreateUser db _ ph ps with
          | error _ => simp
          | ok db1 =>
            simp only
            cases h5 : storage.CreateSession db1 env.now _ _ with
            | error _ => simp
            | ok db2 =>
              intro _
              obtain ⟨r, hru, hrow⟩ := storage.find_user_of_CreateUser _ _ _ _ _ h4
              refine ⟨_, rfl, fun now => ⟨r.toUser, ?_, ?_, ?_, ?_⟩⟩
              · apply server.ValidateSession_of_GetSession
                exact storage.GetSession_of_CreateSession _ _ _ _ _ _ h5 hrow
              all_goals rw [hru]
        · simp
  · intro req
    unfold server.Login
    cases h1 : storage.GetUserByUsername db req.Username with
    | error _ => simp
    | ok res =>
      obtain ⟨user, ph, ps⟩ := res
      simp only
      by_cases hv : crypto.VerifyPassword kdf req.Password ph ps = true
      · simp only [hv, Bool.not_true, Bool.false_eq_true, if_false]
        cases h5 : storage.CreateSession db env.now _ _ with
        | error _ => simp
        | ok db1 =>
          intro _
          refine ⟨_, rfl, fun now => ⟨_, ?_, rfl, rfl, rfl⟩⟩
          apply server.ValidateSession_of_GetSession
          obtain ⟨r, hmem, hru⟩ := storage.find_user_of_GetUserByUsername _ _ _ _ _ h1
          have hfind := List.find?_of_mem_nodup_key (fun u : storage.UserRow => u.id)
            db.users r hmem hkey
          have hid : user.ID = r.id := by rw [← hru]; rfl
          rw [← hru]
          exact storage.GetSession_of_CreateSession _ _ _ _ _ _ h5 (by rw [hid]; exact hfind)
      · simp [hv]

theorem C3_witness :
    ∃ user, (server.Login Sample.kdf (Sample.env2 9) Sample.dbAlice Sample.loginAlice).2.1.User =
        some user ∧
      ∀ now, ∃ u, (server.ValidateSession
          (server.Login Sample.kdf (Sample.env2 9) Sample.dbAlice Sample.loginAlice).1 now
          (server.Login Sample.kdf (Sample.env2 9) Sample.dbAlice Sample.loginAlice).2.1.Token).2 =
            .ok u ∧
        u.ID = user.ID ∧ u.Username = user.Username ∧ u.Email = user.Email :=
  (C3_token_bound_to_returned_user Sample.kdf (Sample.env2 9) Sample.dbAlice (by decide)).2
    Sample.loginAlice (by decide)

/-! ### Dispatch of the actions that need a session -/

theorem server.ValidateSession_error (db : storage.Database) (now : Time) (token : GoString)
    (err : Error) (h : storage.GetSession db token = .error err) :
    server.ValidateSession db now token = (db, .error err) := by
  simp [server.ValidateSession, h]

theorem storage.GetSession_error_of_no_row (db : storage.Database) (token : GoString)
    (h : ∀ s ∈ db.sessions, s.token ≠ token) :
    storage.GetSession db token = .error (lit "session not found") := by
  have hf : db.sessions.find? (fun s => s.token == token) = none := by
    rw [List.find?_eq_none]
    intro s hs
    simpa using h s hs
  simp [storage.GetSession, hf]

/-- Dispatch of an action name in `authActions` whose request has no string
token: the failure "Authentication required", tables untouched. -/
theorem server.processMessage_no_token (L : server.Lib) (env : server.Env)
    (db : storage.Database) (msg : Msg) (action : GoString)
    (hact : msg.string (lit "action") = some action) (hauth : action ∈ server.authActions)
    (htok : msg.string (lit "token") = none) :
    server.processMessage L env db msg = (db, server.failure (lit "Authentication required")) := by
  simp only [server.authActions, List.mem_cons, List.mem_singleton, List.not_mem_nil,
    or_false] at hauth
  unfold server.processMessage
  rw [hact]
  rcases hauth with h | h | h | h | h | h | h | h | h <;> subst h <;> simp only [] <;>
    repeat (rw [if_neg (by decide)])
  · simp only [server.handleSendMessage, htok, ↓reduceIte]
  · simp only [server.handleSendChannelMessage, htok, ↓reduceIte]
  · simp only [server.handleGetMessages, htok, ↓reduceIte]
  · simp only [server.handleGetChannelMessages, htok, ↓reduceIte]
  · simp only [server.handleCreateChannel, htok, ↓reduceIte]
  · simp only [server.handleGetUserChannels, htok, ↓reduceIte]
  · simp only [server.handleAddUserToChannel, htok, ↓reduceIte]
  · simp only [server.handleRemoveUserFromChannel, htok, ↓reduceIte]
  · simp only [server.handleGetRecentMessages, htok, ↓reduceIte]

/-- Dispatch of an action name in `authActions` whose token has no session:
the failure "Invalid session", tables untouched. -/
theorem server.processMessage_bad_session (L : server.Lib) (env : server.Env)
    (db : storage.Database) (msg : Msg) (action token : GoString) (err : Error)
    (hact : msg.string (lit "action") = some action) (hauth : action ∈ server.authActions)
    (htok : msg.string (lit "token") = some token)
    (hget : storage.GetSession db token = .error err) :
    server.processMessage L env db msg = (db, server.failure (lit "Invalid session")) := by
  have hv := server.ValidateSession_error db env.now token err hget
  simp only [server.authActions, List.mem_cons, List.mem_singleton, List.not_mem_nil,
    or_false] at hauth
  unfold server.processMessage
  rw [hact]
  rcases hauth with h | h | h | h | h | h | h | h | h <;> subst h <;> simp only [] <;>
    repeat (rw [if_neg (by decide)])
  · simp only [server.handleSendMessage, htok, hv, ↓reduceIte]
  · simp only [server.handleSendChannelMessage, htok, hv, ↓reduceIte]
  · simp only [server.handleGetMessages, htok, hv, ↓reduceIte]
  · simp only [server.handleGetChannelMessages, htok, hv, ↓reduceIte]
  · simp only [server.handleCreateChannel, htok, hv, ↓reduceIte]
  · simp only [server.handleGetUserChannels, htok, hv, ↓reduceIte]
  · simp only [server.handleAddUserToChannel, htok, hv, ↓reduceIte]
  · simp only [server.handleRemoveUserFromChannel, htok, hv, ↓reduceIte]
  · simp only [server.handleGetRecentMessages, htok, hv, ↓reduceIte]

/-- C4: for each of the nine actions that need a session and every request
(any payload, any other fields): if the token field is missing or not a
string, `processMessage` answers `success:false`, "Authentication required";
if the token is a string that `GetSession` does not resolve (in particular
when no session row carries it), it answers `success:false`, "Invalid
session"; in both cases the returned error is nil and the tables are the ones
before the call, so no business handler has run. -/
theorem C4_auth_required_actions_reject_bad_token (L : server.Lib) (env : server.Env)
    (db : storage.Database) (msg : Msg) (action : GoString)
    (hact : msg.string (lit "action") = some action) (hauth : action ∈ server.authActions) :
    (msg.string (lit "token") = none →
      server.processMessage L env db msg =
        (db, some [(lit "success", .bool false),
          (lit "error", .str (lit "Authentication required"))], none)) ∧
    (∀ token, msg.string (lit "token") = some token →
      ((∃ err, storage.GetSession db token = .error err) ∨
        ∀ s ∈ db.sessions, s.token ≠ token) →
      server.processMessage L env db msg =
        (db, some [(lit "success", .bool false),
          (lit "error", .str (lit "Invalid session"))], none)) := by
  constructor
  · intro htok
    exact server.processMessage_no_token L env db msg action hact hauth htok
  · intro token htok hbad
    rcases hbad with ⟨err, herr⟩ | hno
    · exact server.processMessage_bad_session L env db msg action token err hact hauth htok herr
    · exact server.processMessage_bad_session L env db msg action token _ hact hauth htok
        (storage.GetSession_error_of_no_row db token hno)

theorem C4_witness :
    server.processMessage Sample.lib (Sample.env 9) Sample.staleDb
        (Sample.request (lit "create_channel") (lit "forged") (lit "team")) =
      (Sample.staleDb, some [(lit "success", .bool false),
        (lit "error", .str (lit "Invalid session"))], none) :=
  (C4_auth_required_actions_reject_bad_token Sample.lib (Sample.env 9) Sample.staleDb
    (Sample.request (lit "create_channel") (lit "forged") (lit "team")) (lit "create_channel")
    (by rfl) (by decide)).2 (lit "forged") (by rfl) (Or.inr (by decide))

theorem storage.GetSession_of_DeleteSession (db db1 : storage.Database) (token : GoString)
    (h : storage.DeleteSession db token = .ok db1) :
    storage.GetSession db1 token = .error (lit "session not found") := by
  unfold storage.DeleteSession at h
  injection h with h
  subst h
  apply storage.GetSession_error_of_no_row
  intro s hs
  simp only [List.mem_filter] at hs
  simpa using hs.2

/-- C5: after `Logout(token)` has returned a nil error, `ValidateSession(token)`
returns an error (and no user) at any later time, and every request for one of
the nine actions that need a session and that carries this token is answered
`success:false`, "Invalid session". -/
theorem C5_logout_invalidates_token (L : server.Lib) (env : server.Env)
    (db db1 : storage.Database) (token : GoString)
    (h : server.Logout db token = (db1, none)) :
    (∀ now, server.ValidateSession db1 now token = (db1, .error (lit "session not found"))) ∧
    (∀ msg action, msg.string (lit "action") = some action → action ∈ server.authActions →
      msg.string (lit "token") = some token →
      server.processMessage L env db1 msg =
        (db1, some [(lit "success", .bool false),
          (lit "error", .str (lit "Invalid session"))], none)) := by
  have hget : storage.GetSession db1 token = .error (lit "session not found") := by
    unfold server.Logout at h
    cases hd : storage.DeleteSession db token with
    | error e => simp [hd] at h
    | ok db2 =>
      simp only [hd, Prod.mk.injEq, and_true] at h
      subst h
      exact storage.GetSession_of_DeleteSession db _ token hd
  constructor
  · intro now
    exact server.ValidateSession_error db1 now token _ hget
  · intro msg action hact hauth htok
    exact server.processMessage_bad_session L env db1 msg action token _ hact hauth htok hget

theorem C5_witness :
    server.ValidateSession (server.Logout Sample.staleDb (lit "t1")).1 9 (lit "t1") =
      ((server.Logout Sample.staleDb (lit "t1")).1, .error (lit "session not found")) :=
  (C5_logout_invalidates_token Sample.lib (Sample.env 9) Sample.staleDb _ (lit "t1")
    (by rfl)).1 9

/-- C6 fails on the code: the session of alice was last seen at time 0, the
call is made more than seven days later, and `ValidateSession` still succeeds
and returns alice. -/
theorem C6_counterexample :
    Sample.staleSession ∈ Sample.staleDb.sessions ∧
    Sample.staleSession.token = lit "t1" ∧
    Sample.staleSession.last_seen + inactivityWindow < inactivityWindow + 1 ∧
    (server.ValidateSession Sample.staleDb (inactivityWindow + 1) (lit "t1")).2 =
      .ok Sample.alice := by
  refine ⟨by decide, by decide, by decide, by rfl⟩

/-- C6 as amended: for every stored session bound to a stored user (tables
satisfying their primary keys), `ValidateSession(token)` succeeds and returns
that identity whatever the session's `last_seen` and the current time are;
the server does not apply the inactivity window. -/
theorem C6_validate_ignores_last_seen (db : storage.Database) (now : Time) (token : GoString)
    (s : storage.SessionRow) (u : storage.UserRow) (hkey : db.Keyed)
    (hs : s ∈ db.sessions) (ht : s.token = token) (hu : u ∈ db.users)
    (hid : u.id = s.user_id) :
    (server.ValidateSession db now token).2 = .ok u.toUser := by
  apply server.ValidateSession_of_GetSession
  have h1 := List.find?_of_mem_nodup_key (fun r : storage.SessionRow => r.token)
    db.sessions s hs hkey.2
  have h2 := List.find?_of_mem_nodup_key (fun r : storage.UserRow => r.id) db.users u hu hkey.1
  simp only [ht, hid] at h1 h2
  simp only [storage.GetSession, h1, h2]

theorem C6_witness :
    (server.ValidateSession Sample.staleDb (inactivityWindow + 1) (lit "t1")).2 =
      .ok (storage.UserRow.mk (lit "u1") (lit "alice") (lit "alice@x.com") (lit "aA==")
        (lit "aA==") none 0).toUser :=
  C6_validate_ignores_last_seen Sample.staleDb (inactivityWindow + 1) (lit "t1")
    Sample.staleSession _ ⟨by decide, by decide⟩ (by decide) (by rfl) (by decide) (by rfl)

/-! ### Framing -/

/-- C9, evaluated on the code: two messages written with `SendMessage` reach
the receiver in a single read. The first `ReadMessage` returns the first
message; its decoder had buffered both frames and is dropped, so the second
`ReadMessage` finds nothing to read and fails with `EOF`: the second message
is lost. When the same bytes arrive as one read for each frame, both messages
are returned in order. -/
theorem C9_coalesced_frames_lose_a_message :
    Sample.twoFrames = lit "\x7b\"a\":\"x\"\x7d\n\x7b\"b\":\"y\"\x7d\n" ∧
    shared.ReadMessage Sample.wireJson [Sample.twoFrames] = ([], some Sample.frameA, none) ∧
    shared.ReadMessage Sample.wireJson [] = ([], none, some (lit "EOF")) ∧
    shared.ReadMessage Sample.wireJson [lit "\x7b\"a\":\"x\"\x7d\n", lit "\x7b\"b\":\"y\"\x7d\n"] =
      ([lit "\x7b\"b\":\"y\"\x7d\n"], some Sample.frameA, none) ∧
    shared.ReadMessage Sample.wireJson [lit "\x7b\"b\":\"y\"\x7d\n"] =
      ([], some Sample.frameB, none) := by
  refine ⟨by decide, by rfl, by rfl, by rfl, by rfl⟩

/-! ### Request and response on the client -/

/-- C10, evaluated on the code: alice calls `SendMessage("u2", "hi")` and then
`GetMessages("u2", 50)`. `SendMessage` returns without reading the response of
the server, so `GetMessages` reads that response (the answer to the send,
which has no `messages` field) and returns an empty list with a nil error,
while the answer of the server to the `get_messages` request, which carries
the stored message, stays unread on the connection. -/
theorem C10_get_messages_returns_reply_to_send :
    (client.SendMessage Sample.clientJson Sample.aliceClient { db := Sample.chatDb }
      (lit "u2") (lit "hi")).2 = none ∧
    (client.GetMessages Sample.lib Sample.envOf Sample.aliceClient Sample.linkAfterSend
      (lit "u2") 50).2 = ([], none) ∧
    (client.GetMessages Sample.lib Sample.envOf Sample.aliceClient Sample.linkAfterSend
      (lit "u2") 50).1.responses =
      [[(lit "success", .bool true), (lit "messages", .messages [Sample.hiMessage])]] := by
  refine ⟨by rfl, by rfl, by rfl⟩

/-! ### Dispatch, action by action -/

theorem server.processMessage_register (L : server.Lib) (env : server.Env)
    (db : storage.Database) (msg : Msg) (h : msg.string (lit "action") = some (lit "register")) :
    server.processMessage L env db msg = server.handleRegister L env db msg := by
  unfold server.processMessage
  rw [h]
  simp only [↓reduceIte]

theorem server.processMessage_login (L : server.Lib) (env : server.Env)
    (db : storage.Database) (msg : Msg) (h : msg.string (lit "action") = some (lit "login")) :
    server.processMessage L env db msg = server.handleLogin L env db msg := by
  unfold server.processMessage
  rw [h]
  simp only []
  repeat (rw [if_neg (by decide)])
  simp only [↓reduceIte]

theorem server.processMessage_send_message (L : server.Lib) (env : server.Env)
    (db : storage.Database) (msg : Msg)
    (h : msg.string (lit "action") = some (lit "send_message")) :
    server.processMessage L env db msg = server.handleSendMessage L env db msg := by
  unfold server.processMessage
  rw [h]
  simp only []
  repeat (rw [if_neg (by decide)])
  simp only [↓reduceIte]

theorem server.processMessage_send_channel_message (L : server.Lib) (env : server.Env)
    (db : storage.Database) (msg : Msg)
    (h : msg.string (lit "action") = some (lit "send_channel_message")) :
    server.processMessage L env db msg = server.handleSendChannelMessage L env db msg := by
  unfold server.processMessage
  rw [h]
  simp only []
  repeat (rw [if_neg (by decide)])
  simp only [↓reduceIte]

theorem server.processMessage_get_messages (L : server.Lib) (env : server.Env)
    (db : storage.Database) (msg : Msg)
    (h : msg.string (lit "action") = some (lit "get_messages")) :
    server.processMessage L env db msg = server.handleGetMessages env db msg := by
  unfold server.processMessage
  rw [h]
  simp only []
  repeat (rw [if_neg (by decide)])
  simp only [↓reduceIte]

theorem server.processMessage_get_channel_messages (L : server.Lib) (env : server.Env)
    (db : storage.Database) (msg : Msg)
    (h : msg.string (lit "action") = some (lit "get_channel_messages")) :
    server.processMessage L env db msg = server.handleGetChannelMessages env db msg := by
  unfold server.processMessage
  rw [h]
  simp only []
  repeat (rw [if_neg (by decide)])
  simp only [↓reduceIte]

theorem server.processMessage_create_channel (L : server.Lib) (env : server.Env)
    (db : storage.Database) (msg : Msg)
    (h : msg.string (lit "action") = some (lit "create_channel")) :
    server.processMessage L env db msg = server.handleCreateChannel L env db msg := by
  unfold server.processMessage
  rw [h]
  simp only []
  repeat (rw [if_neg (by decide)])
  simp only [↓reduceIte]

theorem server.processMessage_get_user_channels (L : server.Lib) (env : server.Env)
    (db : storage.Database) (msg : Msg)
    (h : msg.string (lit "action") = some (lit "get_user_channels")) :
    server.processMessage L env db msg = server.handleGetUserChannels env db msg := by
  unfold server.processMessage
  rw [h]
  simp only []
  repeat (rw [if_neg (by decide)])
  simp only [↓reduceIte]

theorem server.processMessage_add_user_to_channel (L : server.Lib) (env : server.Env)
    (db : storage.Database) (msg : Msg)
    (h : msg.string (lit "action") = some (lit "add_user_to_channel")) :
    server.processMessage L env db msg = server.handleAddUserToChannel env db msg := by
  unfold server.processMessage
  rw [h]
  simp only []
  repeat (rw [if_neg (by decide)])
  simp only [↓reduceIte]

theorem server.processMessage_remove_user_from_channel (L : server.Lib) (env : server.Env)
    (db : storage.Database) (msg : Msg)
    (h : msg.string (lit "action") = some (lit "remove_user_from_channel")) :
    server.processMessage L env db msg = server.handleRemoveUserFromChannel env db msg := by
  unfold server.processMessage
  rw [h]
  simp only []
  repeat (rw [if_neg (by decide)])
  simp only [↓reduceIte]

theorem server.processMessage_get_recent_messages (L : server.Lib) (env : server.Env)
    (db : storage.Database) (msg : Msg)
    (h : msg.string (lit "action") = some (lit "get_recent_messages")) :
    server.processMessage L env db msg = server.handleGetRecentMessages env db msg := by
  unfold server.processMessage
  rw [h]
  simp only []
  repeat (rw [if_neg (by decide)])
  simp only [↓reduceIte]

/-- C18: for every request whose action field is a string that is none of the
eleven action names, `processMessage` returns exactly the map
`success:false, error:"Unknown action"` with a nil error; the function is
total (no panic), and the tables are returned as they were given, whatever
they hold. -/
theorem C18_unknown_action (L : server.Lib) (env : server.Env) (db : storage.Database)
    (msg : Msg) (action : GoString) (hact : msg.string (lit "action") = some action)
    (hunknown : action ∉ server.knownActions) :
    server.processMessage L env db msg =
      (db, some [(lit "success", .bool false), (lit "error", .str (lit "Unknown action"))],
        none) := by
  simp only [server.knownActions, server.authActions, List.mem_cons, List.mem_singleton,
    List.not_mem_nil, or_false, not_or] at hunknown
  obtain ⟨h1, h2, h3, h4, h5, h6, h7, h8, h9, h10, h11⟩ := hunknown
  unfold server.processMessage
  rw [hact]
  simp only [h1, h2, h3, h4, h5, h6, h7, h8, h9, h10, h11, ↓reduceIte, server.failure]

theorem C18_witness :
    server.processMessage Sample.lib (Sample.env 9) Sample.staleDb
        (Sample.request (lit "logout") (lit "t1") []) =
      (Sample.staleDb, some [(lit "success", .bool false),
        (lit "error", .str (lit "Unknown action"))], none) :=
  C18_unknown_action Sample.lib (Sample.env 9) Sample.staleDb
    (Sample.request (lit "logout") (lit "t1") []) (lit "logout") (by rfl) (by decide)

/-! ### Registration and login failures -/

theorem storage.GetUserByUsername_ok_of_mem (db : storage.Database) (username : GoString)
    (h : ∃ r ∈ db.users, r.username = username) :
    ∃ res, storage.GetUserByUsername db username = .ok res := by
  unfold storage.GetUserByUsername
  cases hf : db.users.find? (fun r => r.username == username) with
  | some r => exact ⟨_, rfl⟩
  | none =>
    rw [List.find?_eq_none] at hf
    obtain ⟨r, hr, hru⟩ := h
    exact absurd (by simpa using hru) (hf r hr)

theorem storage.GetUserByUsername_error_of_not_mem (db : storage.Database) (username : GoString)
    (h : ∀ r ∈ db.users, r.username ≠ username) :
    storage.GetUserByUsername db username = .error (lit "user not found") := by
  have hf : db.users.find? (fun r => r.username == username) = none := by
    rw [List.find?_eq_none]
    intro r hr
    simpa using h r hr
  simp [storage.GetUserByUsername, hf]

/-- C15: if a user with username `u` is stored, every register request whose
payload decodes to username `u` (any email, any password) is answered
`success:false`, error "Username already exists", with an empty token and no
user, a nil error, and the tables as they were (no user and no session is
created). -/
theorem C15_register_existing_username (L : server.Lib) (env : server.Env)
    (db : storage.Database) (msg : Msg) (data : GoString) (req : shared.RegisterRequest)
    (hact : msg.string (lit "action") = some (lit "register"))
    (hdata : msg.string (lit "data") = some data)
    (hreq : L.json.UnmarshalRegisterRequest data = .ok req)
    (hexists : ∃ r ∈ db.users, r.username = req.Username) :
    server.processMessage L env db msg =
      (db, some [(lit "success", .bool false), (lit "token", .str []),
        (lit "user", .user none), (lit "error", .str (lit "Username already exists"))],
        none) := by
  obtain ⟨res, hres⟩ := storage.GetUserByUsername_ok_of_mem db req.Username hexists
  rw [server.processMessage_register L env db msg hact]
  simp only [server.handleRegister, hdata, hreq, server.Register, hres]

theorem C15_witness :
    server.processMessage Sample.lib (Sample.env 9) Sample.staleDb
        (Sample.request (lit "register") [] (lit "alice|other@x.com|pw2")) =
      (Sample.staleDb, some [(lit "success", .bool false), (lit "token", .str []),
        (lit "user", .user none), (lit "error", .str (lit "Username already exists"))],
        none) :=
  C15_register_existing_username Sample.lib (Sample.env 9) Sample.staleDb
    (Sample.request (lit "register") [] (lit "alice|other@x.com|pw2"))
    (lit "alice|other@x.com|pw2")
    { Username := lit "alice", Email := lit "other@x.com", Password := lit "pw2" }
    (by rfl) (by rfl) (by rfl) (by decide)

/-- C16: a login whose username is not stored and a login whose username is
stored but whose password does not verify get the same response:
`success:false`, error "Invalid username or password", an empty token and no
user, with a nil error; in both cases the tables are as they were (no session
is created). -/
theorem C16_login_failures_indistinguishable (L : server.Lib) (env1 env2 : server.Env)
    (db1 db2 : storage.Database) (msg1 msg2 : Msg) (data1 data2 : GoString)
    (req1 req2 : shared.LoginRequest) (user : shared.User) (hash salt : GoString)
    (hact1 : msg1.string (lit "action") = some (lit "login"))
    (hdata1 : msg1.string (lit "data") = some data1)
    (hreq1 : L.json.UnmarshalLoginRequest data1 = .ok req1)
    (hunknown : ∀ r ∈ db1.users, r.username ≠ req1.Username)
    (hact2 : msg2.string (lit "action") = some (lit "login"))
    (hdata2 : msg2.string (lit "data") = some data2)
    (hreq2 : L.json.UnmarshalLoginRequest data2 = .ok req2)
    (hknown : storage.GetUserByUsername db2 req2.Username = .ok (user, hash, salt))
    (hwrong : crypto.VerifyPassword L.kdf req2.Password hash salt = false) :
    server.processMessage L env1 db1 msg1 =
      (db1, some [(lit "success", .bool false), (lit "token", .str []),
        (lit "user", .user none), (lit "error", .str (lit "Invalid username or password"))],
        none) ∧
    server.processMessage L env2 db2 msg2 =
      (db2, some [(lit "success", .bool false), (lit "token", .str []),
        (lit "user", .user none), (lit "error", .str (lit "Invalid username or password"))],
        none) ∧
    (server.processMessage L env1 db1 msg1).2 = (server.processMessage L env2 db2 msg2).2 := by
  have h1 : server.processMessage L env1 db1 msg1 =
      (db1, some [(lit "success", .bool false), (lit "token", .str []),
        (lit "user", .user none), (lit "error", .str (lit "Invalid username or password"))],
        none) := by
    rw [server.processMessage_login L env1 db1 msg1 hact1]
    simp only [server.handleLogin, hdata1, hreq1, server.Login,
      storage.GetUserByUsername_error_of_not_mem db1 req1.Username hunknown]
  have h2 : server.processMessage L env2 db2 msg2 =
      (db2, some [(lit "success", .bool false), (lit "token", .str []),
        (lit "user", .user none), (lit "error", .str (lit "Invalid username or password"))],
        none) := by
    rw [server.processMessage_login L env2 db2 msg2 hact2]
    simp only [server.handleLogin, hdata2, hreq2, server.Login, hknown, hwrong, Bool.not_false,
      ↓reduceIte]
  exact ⟨h1, h2, by rw [h1, h2]⟩

theorem C16_witness :
    (server.processMessage Sample.lib (Sample.env 9) Sample.dbAlice
        (Sample.request (lit "login") [] (lit "mallory|pw1"))).2 =
      (server.processMessage Sample.lib (Sample.env 9) Sample.dbAlice
        (Sample.request (lit "login") [] (lit "alice|wrongpw"))).2 :=
  (C16_login_failures_indistinguishable Sample.lib (Sample.env 9) (Sample.env 9)
    Sample.dbAlice Sample.dbAlice
    (Sample.request (lit "login") [] (lit "mallory|pw1"))
    (Sample.request (lit "login") [] (lit "alice|wrongpw"))
    (lit "mallory|pw1") (lit "alice|wrongpw")
    { Username := lit "mallory", Password := lit "pw1" }
    { Username := lit "alice", Password := lit "wrongpw" }
    (Sample.registerAliceResult.2.1.User.getD Sample.alice)
    Sample.registerAliceHash Sample.registerAliceSalt
    (by rfl) (by rfl) (by rfl) (by decide) (by rfl) (by rfl) (by rfl) (by rfl) (by decide)).2.2

/-! ### The effect of a session check on the tables -/

theorem server.ValidateSession_ok_tables (db : storage.Database) (now : Time) (token : GoString)
    (user : shared.User) (h : (server.ValidateSession db now token).2 = .ok user) :
    storage.GetSession db token = .ok user ∧
    (server.ValidateSession db now token).1.sessions = db.sessions.map
      (fun s => if s.token == token then { s with last_seen := now } else s) := by
  unfold server.ValidateSession at h ⊢
  cases hg : storage.GetSession db token with
  | error e => simp [hg] at h
  | ok u =>
    simp only [hg, storage.UpdateSessionLastSeen] at h ⊢
    simp only [Except.ok.injEq] at h
    subst h
    constructor <;> first | rfl | trivial

theorem server.ValidateSession_sameRecords (db : storage.Database) (now : Time)
    (token : GoString) : db.SameRecords (server.ValidateSession db now token).1 := by
  unfold server.ValidateSession
  cases hg : storage.GetSession db token with
  | error e => exact ⟨rfl, rfl, rfl, rfl, rfl⟩
  | ok u =>
    simp only [storage.UpdateSessionLastSeen]
    refine ⟨rfl, rfl, rfl, rfl, ?_⟩
    simp only [List.map_map]
    apply List.map_congr_left
    intro s _
    simp only [Function.comp]
    split <;> rfl

/-- C20: a successful `ValidateSession(token)` returns the identity that
`GetSession` finds, leaves the tables of users, messages, channels and
memberships as they were, and changes the session rows only in this way: the
rows stay in place with their token, user and creation time, every row with
another token is unchanged, and every row with this token gets `last_seen`
set to the current time; the identity bound to the token is the same
afterwards. A failed `ValidateSession` returns the tables unchanged. -/
theorem C20_validate_session_frame (db : storage.Database) (now : Time) (token : GoString) :
    (∀ user, (server.ValidateSession db now token).2 = .ok user →
      (server.ValidateSession db now token).1.users = db.users ∧
      (server.ValidateSession db now token).1.messages = db.messages ∧
      (server.ValidateSession db now token).1.channels = db.channels ∧
      (server.ValidateSession db now token).1.channel_members = db.channel_members ∧
      List.Forall₂ (fun s s1 : storage.SessionRow =>
          s1.token = s.token ∧ s1.user_id = s.user_id ∧ s1.created_at = s.created_at ∧
          (s.token ≠ token → s1 = s) ∧ (s.token = token → s1.last_seen = now))
        db.sessions (server.ValidateSession db now token).1.sessions ∧
      storage.GetSession (server.ValidateSession db now token).1 token = .ok user) ∧
    (∀ err, (server.ValidateSession db now token).2 = .error err →
      (server.ValidateSession db now token).1 = db) := by
  constructor
  · intro user h
    obtain ⟨hg, hv⟩ := server.ValidateSession_ok_tables db now token user h
    obtain ⟨h1, h2, h3, h4, _⟩ := server.ValidateSession_sameRecords db now token
    refine ⟨h1, h2, h3, h4, ?_, ?_⟩
    · rw [hv, List.forall₂_map_right_iff, List.forall₂_same]
      intro s _
      by_cases hs : s.token = token
      · simp [hs]
      · simp [hs]
    · unfold storage.GetSession at hg ⊢
      rw [h1, hv, List.find?_map]
      cases hf : db.sessions.find? (fun s => s.token == token) with
      | none => simp [hf] at hg
      | some s =>
        have hcomp : ((fun s => s.token == token) ∘
            fun s : storage.SessionRow =>
              if (s.token == token) = true then { s with last_seen := now } else s) =
            (fun s => s.token == token) := by
          funext x
          simp only [Function.comp]
          split <;> simp_all
        simp only [hf] at hg
        simp only [hcomp, hf, Option.map_some']
        have hst : (s.token == token) = true := by
          have := List.find?_some hf
          simpa using this
        simp only [hst, ↓reduceIte]
        exact hg
  · intro err h
    unfold server.ValidateSession at h ⊢
    cases hg : storage.GetSession db token with
    | error e => rfl
    | ok u => simp [hg, storage.UpdateSessionLastSeen] at h

theorem C20_witness :
    (server.ValidateSession Sample.staleDb 9 (lit "t1")).1.users = Sample.staleDb.users ∧
    (server.ValidateSession Sample.staleDb 9 (lit "t1")).1.messages = Sample.staleDb.messages ∧
    (server.ValidateSession Sample.staleDb 9 (lit "t1")).1.channels = Sample.staleDb.channels ∧
    (server.ValidateSession Sample.staleDb 9 (lit "t1")).1.channel_members =
      Sample.staleDb.channel_members ∧
    List.Forall₂ (fun s s1 : storage.SessionRow =>
        s1.token = s.token ∧ s1.user_id = s.user_id ∧ s1.created_at = s.created_at ∧
        (s.token ≠ lit "t1" → s1 = s) ∧ (s.token = lit "t1" → s1.last_seen = 9))
      Sample.staleDb.sessions (server.ValidateSession Sample.staleDb 9 (lit "t1")).1.sessions ∧
    storage.GetSession (server.ValidateSession Sample.staleDb 9 (lit "t1")).1 (lit "t1") =
      .ok Sample.alice :=
  (C20_validate_session_frame Sample.staleDb 9 (lit "t1")).1 Sample.alice (by rfl)

/-! ### Malformed payloads -/

theorem server.ValidateSession_eq_of_GetSession (db : storage.Database) (now : Time)
    (token : GoString) (user : shared.User) (h : storage.GetSession db token = .ok user) :
    ∃ db1, server.ValidateSession db now token = (db1, .ok user) ∧ db.SameRecords db1 := by
  refine ⟨(server.ValidateSession db now token).1, ?_,
    server.ValidateSession_sameRecords db now token⟩
  have h2 := server.ValidateSession_of_GetSession db now token user h
  rw [← h2]

theorem Except.error_of_toBool_false {ε α : Type} (x : Except ε α) (h : x.toBool = false) :
    ∃ e, x = .error e := by
  cases x with
  | error e => exact ⟨e, rfl⟩
  | ok a => simp [Except.toBool] at h

theorem storage.Database.sameRecords_refl (db : storage.Database) : db.SameRecords db :=
  ⟨rfl, rfl, rfl, rfl, rfl⟩

/-- C17: for register, login, send_message, send_channel_message and
create_channel (for the last three, with a token that resolves to a session):
if the `data` field is missing or not a string the response is
`success:false`, "Invalid request data"; if it is a string that `json.Unmarshal`
does not decode into the request struct of the action the response is
`success:false`, "Invalid request format". In both cases the error is nil and
no user, session, message, channel or membership is created or deleted (the
only change to the tables is the `last_seen` refresh of the session check). -/
theorem C17_malformed_payload_rejected (L : server.Lib) (env : server.Env)
    (db : storage.Database) (msg : Msg) (action : GoString)
    (hact : msg.string (lit "action") = some action)
    (hmem : action ∈ server.payloadActions)
    (hauth : action ∈ server.authActions →
      ∃ token user, msg.string (lit "token") = some token ∧
        storage.GetSession db token = .ok user) :
    (msg.string (lit "data") = none →
      (server.processMessage L env db msg).2 =
        (some [(lit "success", .bool false), (lit "error", .str (lit "Invalid request data"))],
          none) ∧
      db.SameRecords (server.processMessage L env db msg).1) ∧
    (∀ data, msg.string (lit "data") = some data →
      server.payloadDecodes L.json action data = false →
      (server.processMessage L env db msg).2 =
        (some [(lit "success", .bool false),
          (lit "error", .str (lit "Invalid request format"))], none) ∧
      db.SameRecords (server.processMessage L env db msg).1) := by
  simp only [server.payloadActions, List.mem_cons, List.mem_singleton, List.not_mem_nil,
    or_false] at hmem
  rcases hmem with h | h | h | h | h <;> subst h
  · rw [server.processMessage_register L env db msg hact]
    constructor
    · intro hd
      simp only [server.handleRegister, hd, server.failure]
      exact ⟨trivial, db.sameRecords_refl⟩
    · intro data hd hdec
      simp only [server.payloadDecodes, ↓reduceIte] at hdec
      obtain ⟨e, he⟩ := Except.error_of_toBool_false _ hdec
      simp only [server.handleRegister, hd, he, server.failure]
      exact ⟨trivial, db.sameRecords_refl⟩
  · rw [server.processMessage_login L env db msg hact]
    constructor
    · intro hd
      simp only [server.handleLogin, hd, server.failure]
      exact ⟨trivial, db.sameRecords_refl⟩
    · intro data hd hdec
      have hne : ¬ (lit "login" = lit "register") := by decide
      simp only [server.payloadDecodes, hne, ↓reduceIte] at hdec
      obtain ⟨e, he⟩ := Except.error_of_toBool_false _ hdec
      simp only [server.handleLogin, hd, he, server.failure]
      exact ⟨trivial, db.sameRecords_refl⟩
  · obtain ⟨token, user, htok, hget⟩ := hauth (by decide)
    obtain ⟨db1, hv, hsame⟩ := server.ValidateSession_eq_of_GetSession db env.now token user hget
    rw [server.processMessage_send_message L env db msg hact]
    constructor
    · intro hd
      simp only [server.handleSendMessage, htok, hv, hd, server.failure]
      exact ⟨trivial, hsame⟩
    · intro data hd hdec
      have hne1 : ¬ (lit "send_message" = lit "register") := by decide
      have hne2 : ¬ (lit "send_message" = lit "login") := by decide
      simp only [server.payloadDecodes, hne1, hne2, ↓reduceIte] at hdec
      obtain ⟨e, he⟩ := Except.error_of_toBool_false _ hdec
      simp only [server.handleSendMessage, htok, hv, hd, he, server.failure]
      exact ⟨trivial, hsame⟩
  · obtain ⟨token, user, htok, hget⟩ := hauth (by decide)
    obtain ⟨db1, hv, hsame⟩ := server.ValidateSession_eq_of_GetSession db env.now token user hget
    rw [server.processMessage_send_channel_message L env db msg hact]
    constructor
    · intro hd
      simp only [server.handleSendChannelMessage, htok, hv, hd, server.failure]
      exact ⟨trivial, hsame⟩
    · intro data hd hdec
      have hne1 : ¬ (lit "send_channel_message" = lit "register") := by decide
      have hne2 : ¬ (lit "send_channel_message" = lit "login") := by decide
      have hne3 : ¬ (lit "send_channel_message" = lit "send_message") := by decide
      simp only [server.payloadDecodes, hne1, hne2, hne3, ↓reduceIte] at hdec
      obtain ⟨e, he⟩ := Except.error_of_toBool_false _ hdec
      simp only [server.handleSendChannelMessage, htok, hv, hd, he, server.failure]
      exact ⟨trivial, hsame⟩
  · obtain ⟨token, user, htok, hget⟩ := hauth (by decide)
    obtain ⟨db1, hv, hsame⟩ := server.ValidateSession_eq_of_GetSession db env.now token user hget
    rw [server.processMessage_create_channel L env db msg hact]
    constructor
    · intro hd
      simp only [server.handleCreateChannel, htok, hv, hd, server.failure]
      exact ⟨trivial, hsame⟩
    · intro data hd hdec
      have hne1 : ¬ (lit "create_channel" = lit "register") := by decide
      have hne2 : ¬ (lit "create_channel" = lit "login") := by decide
      have hne3 : ¬ (lit "create_channel" = lit "send_message") := by decide
      have hne4 : ¬ (lit "create_channel" = lit "send_channel_message") := by decide
      simp only [server.payloadDecodes, hne1, hne2, hne3, hne4, ↓reduceIte] at hdec
      obtain ⟨e, he⟩ := Except.error_of_toBool_false _ hdec
      simp only [server.handleCreateChannel, htok, hv, hd, he, server.failure]
      exact ⟨trivial, hsame⟩

theorem C17_witness :
    (server.processMessage Sample.lib (Sample.env 9) Sample.staleDb
        (Sample.request (lit "send_message") (lit "t1") (lit "no separator"))).2 =
      (some [(lit "success", .bool false),
        (lit "error", .str (lit "Invalid request format"))], none) ∧
    Sample.staleDb.SameRecords (server.processMessage Sample.lib (Sample.env 9) Sample.staleDb
        (Sample.request (lit "send_message") (lit "t1") (lit "no separator"))).1 :=
  (C17_malformed_payload_rejected Sample.lib (Sample.env 9) Sample.staleDb
    (Sample.request (lit "send_message") (lit "t1") (lit "no separator"))
    (lit "send_message") (by rfl) (by decide)
    (fun _ => ⟨lit "t1", Sample.alice, by rfl, by rfl⟩)).2
    (lit "no separator") (by rfl) (by rfl)

/-! ### The shape of every response -/

theorem server.uniform_failure (text : GoString) (h : text ≠ []) :
    server.Uniform (server.failure text) :=
  ⟨_, rfl, false, rfl, fun _ => ⟨text, rfl, h⟩⟩

theorem server.uniform_failure_prefix (s : String) (err : GoString) (h : lit s ≠ []) :
    server.Uniform (server.failure (lit s ++ err)) := by
  apply server.uniform_failure
  intro hnil
  exact h (List.append_eq_nil.mp hnil).1

theorem server.uniform_success (key : GoString) (v : Value) :
    server.Uniform (some [(lit "success", .bool true), (key, v)], none) :=
  ⟨_, rfl, true, rfl, fun hb => by cases hb⟩

theorem server.Register_shape (kdf : crypto.KeyDerivation) (env : server.Env)
    (db : storage.Database) (req : shared.RegisterRequest) :
    (server.Register kdf env db req).2.2 = none ∧
    ((server.Register kdf env db req).2.1.Success = false →
      (server.Register kdf env db req).2.1.Error ≠ []) := by
  unfold server.Register
  cases storage.GetUserByUsername db req.Username with
  | ok _ => exact ⟨rfl, fun _ => by dsimp only; decide⟩
  | error _ =>
    cases storage.GetUserByEmail db req.Email with
    | ok _ => exact ⟨rfl, fun _ => by dsimp only; decide⟩
    | error _ =>
      rcases crypto.HashPassword kdf env.salt req.Password with ⟨ph, ps, _ | perr⟩
      · simp only
        cases storage.CreateUser db _ ph ps with
        | error _ => exact ⟨rfl, fun _ => by dsimp only; decide⟩
        | ok db1 =>
          simp only
          cases storage.CreateSession db1 env.now _ _ with
          | error _ => exact ⟨rfl, fun _ => by dsimp only; decide⟩
          | ok db2 => exact ⟨rfl, fun h => by cases h⟩
      · exact ⟨rfl, fun _ => by dsimp only; decide⟩

theorem server.Login_shape (kdf : crypto.KeyDerivation) (env : server.Env)
    (db : storage.Database) (req : shared.LoginRequest) :
    (server.Login kdf env db req).2.2 = none ∧
    ((server.Login kdf env db req).2.1.Success = false →
      (server.Login kdf env db req).2.1.Error ≠ []) := by
  unfold server.Login
  cases storage.GetUserByUsername db req.Username with
  | error _ => exact ⟨rfl, fun _ => by dsimp only; decide⟩
  | ok res =>
    obtain ⟨user, ph, ps⟩ := res
    simp only
    by_cases hv : crypto.VerifyPassword kdf req.Password ph ps = true
    · simp only [hv, Bool.not_true, Bool.false_eq_true, if_false]
      cases storage.CreateSession db env.now _ _ with
      | error _ => exact ⟨rfl, fun _ => by dsimp only; decide⟩
      | ok db1 => exact ⟨rfl, fun h => by cases h⟩
    · simp only [Bool.not_eq_true] at hv
      rw [hv]
      exact ⟨rfl, fun _ => (by decide : lit "Invalid username or password" ≠ [])⟩

theorem server.uniform_auth (response : shared.AuthResponse)
    (h : response.Success = false → response.Error ≠ []) :
    server.Uniform (some [(lit "success", .bool response.Success),
      (lit "token", .str response.Token), (lit "user", .user response.User),
      (lit "error", .str response.Error)], none) :=
  ⟨_, rfl, response.Success, rfl, fun hb => ⟨response.Error, rfl, h hb⟩⟩

theorem lit_append_ne_nil (s : String) (err : GoString) (h : lit s ≠ []) : lit s ++ err ≠ [] :=
  fun hnil => h (List.append_eq_nil.mp hnil).1

theorem server.SendMessage_error_ne (env : server.Env) (db db2 : storage.Database)
    (req : shared.MessageRequest) (u err : GoString)
    (h : server.SendMessage env db req u = (db2, .error err)) : err ≠ [] := by
  unfold server.SendMessage at h
  simp only at h
  split at h
  · simp only [Prod.mk.injEq, Except.error.injEq] at h
    rw [← h.2]
    exact lit_append_ne_nil _ _ (by decide)
  · simp at h

theorem server.SendChannelMessage_error_ne (env : server.Env) (db db2 : storage.Database)
    (req : shared.ChannelMessageRequest) (u err : GoString)
    (h : server.SendChannelMessage env db req u = (db2, .error err)) : err ≠ [] := by
  unfold server.SendChannelMessage at h
  split at h
  · simp only [Prod.mk.injEq, Except.error.injEq] at h
    rw [← h.2]
    exact lit_append_ne_nil _ _ (by decide)
  · simp only at h
    split at h
    · simp only [Prod.mk.injEq, Except.error.injEq] at h
      rw [← h.2]
      decide
    · split at h
      · simp only [Prod.mk.injEq, Except.error.injEq] at h
        rw [← h.2]
        exact lit_append_ne_nil _ _ (by decide)
      · simp at h

theorem server.CreateChannel_error_ne (env : server.Env) (db db2 : storage.Database)
    (req : shared.ChannelRequest) (u err : GoString)
    (h : server.CreateChannel env db req u = (db2, .error err)) : err ≠ [] := by
  unfold server.CreateChannel at h
  simp only at h
  split at h
  · simp only [Prod.mk.injEq, Except.error.injEq] at h
    rw [← h.2]
    exact lit_append_ne_nil _ _ (by decide)
  · simp at h

theorem server.AddUserToChannel_error_ne (env : server.Env) (db db2 : storage.Database)
    (channelID userID err : GoString)
    (h : server.AddUserToChannel env db channelID userID = (db2, some err)) : err ≠ [] := by
  unfold server.AddUserToChannel storage.AddUserToChannel at h
  split at h
  · simp at h
  · rename_i heq
    simp only [Prod.mk.injEq, Option.some.injEq] at h
    rw [← h.2]
    split at heq
    · simp only [Except.error.injEq] at heq
      rw [← heq]
      decide
    · simp at heq

theorem server.RemoveUserFromChannel_no_error (db db2 : storage.Database)
    (channelID userID err : GoString)
    (h : server.RemoveUserFromChannel db channelID userID = (db2, some err)) : False := by
  simp [server.RemoveUserFromChannel, storage.RemoveUserFromChannel] at h

theorem server.handleRegister_uniform (L : server.Lib) (env : server.Env)
    (db : storage.Database) (msg : Msg) : server.Uniform (server.handleRegister L env db msg).2 := by
  unfold server.handleRegister
  split
  · exact server.uniform_failure _ (by decide)
  · split
    · exact server.uniform_failure _ (by decide)
    · rename_i req _
      have hs := server.Register_shape L.kdf env db req
      split
      · rename_i heq
        rw [heq] at hs
        exact absurd hs.1 (by simp)
      · rename_i heq
        rw [heq] at hs
        exact server.uniform_auth _ hs.2

theorem server.handleLogin_uniform (L : server.Lib) (env : server.Env)
    (db : storage.Database) (msg : Msg) : server.Uniform (server.handleLogin L env db msg).2 := by
  unfold server.handleLogin
  split
  · exact server.uniform_failure _ (by decide)
  · split
    · exact server.uniform_failure _ (by decide)
    · rename_i req _
      have hs := server.Login_shape L.kdf env db req
      split
      · rename_i heq
        rw [heq] at hs
        exact absurd hs.1 (by simp)
      · rename_i heq
        rw [heq] at hs
        exact server.uniform_auth _ hs.2

theorem server.handleSendMessage_uniform (L : server.Lib) (env : server.Env)
    (db : storage.Database) (msg : Msg) :
    server.Uniform (server.handleSendMessage L env db msg).2 := by
  unfold server.handleSendMessage
  repeat' split
  all_goals first
    | exact server.uniform_failure _ (by decide)
    | exact server.uniform_success _ _
    | exact server.uniform_failure _ (server.SendMessage_error_ne _ _ _ _ _ _ (by assumption))

theorem server.handleSendChannelMessage_uniform (L : server.Lib) (env : server.Env)
    (db : storage.Database) (msg : Msg) :
    server.Uniform (server.handleSendChannelMessage L env db msg).2 := by
  unfold server.handleSendChannelMessage
  repeat' split
  all_goals first
    | exact server.uniform_failure _ (by decide)
    | exact server.uniform_success _ _
    | exact server.uniform_failure _
        (server.SendChannelMessage_error_ne _ _ _ _ _ _ (by assumption))

theorem server.handleCreateChannel_uniform (L : server.Lib) (env : server.Env)
    (db : storage.Database) (msg : Msg) :
    server.Uniform (server.handleCreateChannel L env db msg).2 := by
  unfold server.handleCreateChannel
  repeat' split
  all_goals first
    | exact server.uniform_failure _ (by decide)
    | exact server.uniform_success _ _
    | exact server.uniform_failure _ (server.CreateChannel_error_ne _ _ _ _ _ _ (by assumption))

theorem server.handleGetMessages_uniform (env : server.Env)
    (db : storage.Database) (msg : Msg) :
    server.Uniform (server.handleGetMessages env db msg).2 := by
  unfold server.handleGetMessages
  repeat' split
  all_goals first
    | exact server.uniform_failure _ (by decide)
    | exact server.uniform_success _ _

theorem server.handleGetChannelMessages_uniform (env : server.Env)
    (db : storage.Database) (msg : Msg) :
    server.Uniform (server.handleGetChannelMessages env db msg).2 := by
  unfold server.handleGetChannelMessages
  repeat' split
  all_goals first
    | exact server.uniform_failure _ (by decide)
    | exact server.uniform_success _ _

theorem server.handleGetUserChannels_uniform (env : server.Env)
    (db : storage.Database) (msg : Msg) :
    server.Uniform (server.handleGetUserChannels env db msg).2 := by
  unfold server.handleGetUserChannels
  repeat' split
  all_goals first
    | exact server.uniform_failure _ (by decide)
    | exact server.uniform_success _ _
    | (rename_i heq; simp [server.GetUserChannels, storage.GetUserChannels] at heq)

theorem server.handleGetRecentMessages_uniform (env : server.Env)
    (db : storage.Database) (msg : Msg) :
    server.Uniform (server.handleGetRecentMessages env db msg).2 := by
  unfold server.handleGetRecentMessages
  repeat' split
  all_goals first
    | exact server.uniform_failure _ (by decide)
    | exact server.uniform_success _ _

theorem server.uniform_bare_success :
    server.Uniform (some [(lit "success", .bool true)], none) :=
  ⟨_, rfl, true, rfl, fun hb => by cases hb⟩

theorem server.handleAddUserToChannel_uniform (env : server.Env)
    (db : storage.Database) (msg : Msg) :
    server.Uniform (server.handleAddUserToChannel env db msg).2 := by
  unfold server.handleAddUserToChannel
  repeat' split
  all_goals first
    | exact server.uniform_failure _ (by decide)
    | exact server.uniform_bare_success
    | exact server.uniform_failure _ (server.AddUserToChannel_error_ne _ _ _ _ _ _ (by assumption))

theorem server.handleRemoveUserFromChannel_uniform (env : server.Env)
    (db : storage.Database) (msg : Msg) :
    server.Uniform (server.handleRemoveUserFromChannel env db msg).2 := by
  unfold server.handleRemoveUserFromChannel
  repeat' split
  all_goals first
    | exact server.uniform_failure _ (by decide)
    | exact server.uniform_bare_success
    | exact (server.RemoveUserFromChannel_no_error _ _ _ _ _ (by assumption)).elim

theorem server.processMessage_unknown (L : server.Lib) (env : server.Env)
    (db : storage.Database) (msg : Msg) (action : GoString)
    (hact : msg.string (lit "action") = some action)
    (hunknown : action ∉ server.knownActions) :
    server.processMessage L env db msg = (db, server.failure (lit "Unknown action")) := by
  simp only [server.knownActions, server.authActions, List.mem_cons, List.mem_singleton,
    List.not_mem_nil, or_false, not_or] at hunknown
  obtain ⟨h1, h2, h3, h4, h5, h6, h7, h8, h9, h10, h11⟩ := hunknown
  unfold server.processMessage
  rw [hact]
  simp only [h1, h2, h3, h4, h5, h6, h7, h8, h9, h10, h11, ↓reduceIte]

/-- C19: for every request and every state of the tables, `processMessage`
returns a response map that has a boolean `success` entry, and whenever that
entry is false the map also has a string `error` entry, which is not empty. -/
theorem C19_uniform_response_shape (L : server.Lib) (env : server.Env)
    (db : storage.Database) (msg : Msg) :
    ∃ resp, (server.processMessage L env db msg).2.1 = some resp ∧
      ∃ b, resp.lookup (lit "success") = some (.bool b) ∧
        (b = false → ∃ e, resp.lookup (lit "error") = some (.str e) ∧ e ≠ []) := by
  show server.Uniform (server.processMessage L env db msg).2
  cases hact : msg.string (lit "action") with
  | none =>
    unfold server.processMessage
    rw [hact]
    exact server.uniform_failure _ (by decide)
  | some action =>
    by_cases hk : action ∈ server.knownActions
    · simp only [server.knownActions, server.authActions, List.mem_cons, List.mem_singleton,
        List.not_mem_nil, or_false] at hk
      rcases hk with h | h | h | h | h | h | h | h | h | h | h <;> subst h
      · rw [server.processMessage_register L env db msg hact]
        exact server.handleRegister_uniform L env db msg
      · rw [server.processMessage_login L env db msg hact]
        exact server.handleLogin_uniform L env db msg
      · rw [server.processMessage_send_message L env db msg hact]
        exact server.handleSendMessage_uniform L env db msg
      · rw [server.processMessage_send_channel_message L env db msg hact]
        exact server.handleSendChannelMessage_uniform L env db msg
      · rw [server.processMessage_get_messages L env db msg hact]
        exact server.handleGetMessages_uniform env db msg
      · rw [server.processMessage_get_channel_messages L env db msg hact]
        exact server.handleGetChannelMessages_uniform env db msg
      · rw [server.processMessage_create_channel L env db msg hact]
        exact server.handleCreateChannel_uniform L env db msg
      · rw [server.processMessage_get_user_channels L env db msg hact]
        exact server.handleGetUserChannels_uniform env db msg
      · rw [server.processMessage_add_user_to_channel L env db msg hact]
        exact server.handleAddUserToChannel_uniform env db msg
      · rw [server.processMessage_remove_user_from_channel L env db msg hact]
        exact server.handleRemoveUserFromChannel_uniform env db msg
      · rw [server.processMessage_get_recent_messages L env db msg hact]
        exact server.handleGetRecentMessages_uniform env db msg
    · rw [server.processMessage_unknown L env db msg action hact hk]
      exact server.uniform_failure _ (by decide)

/-! ### Channel messages -/

theorem storage.mem_orderByDesc {α : Type} (key : α → Time) (rows : List α) (x : α) :
    x ∈ storage.orderByDesc key rows ↔ x ∈ rows :=
  (List.perm_insertionSort _ rows).mem_iff

theorem storage.GetUserChannels_any_iff (db : storage.Database) (userID channelID : GoString) :
    ∃ channels, storage.GetUserChannels db userID = .ok channels ∧
      (channels.any (fun channel => channel.ID == channelID) = true ↔
        db.IsMember userID channelID) := by
  refine ⟨_, rfl, ?_⟩
  simp only [List.any_eq_true, List.mem_map, storage.mem_orderByDesc, List.mem_flatMap,
    List.mem_filter, Bool.and_eq_true, beq_iff_eq, storage.Database.IsMember]
  constructor
  · rintro ⟨ch, ⟨c, ⟨c0, hc0, ⟨cm, ⟨hcm, hid, hu⟩, rfl⟩⟩, rfl⟩, hch⟩
    simp only at hch
    exact ⟨⟨c0, hc0, hch⟩, ⟨cm, hcm, by rw [← hid, hch], hu⟩⟩
  · rintro ⟨⟨c, hc, hcid⟩, ⟨cm, hcm, hcmid, hu⟩⟩
    exact ⟨_, ⟨c, ⟨c, hc, ⟨cm, ⟨hcm, by rw [hcid, hcmid], hu⟩, rfl⟩⟩, rfl⟩, hcid⟩

theorem storage.CreateMessage_ok_iff (db : storage.Database) (message : shared.Message) :
    (∃ db1, storage.CreateMessage db message = .ok db1) ↔
      ∀ m ∈ db.messages, m.id ≠ message.ID := by
  unfold storage.CreateMessage
  by_cases h : db.messages.any (fun r => r.id == message.ID) = true
  · rw [if_pos h]
    simp only [List.any_eq_true, beq_iff_eq] at h
    obtain ⟨m, hm, hid⟩ := h
    constructor
    · rintro ⟨_, h2⟩
      cases h2
    · intro h2
      exact absurd hid (h2 m hm)
  · rw [if_neg h]
    simp only [List.any_eq_true, beq_iff_eq, not_exists, not_and] at h
    exact ⟨fun _ => h, fun _ => ⟨_, rfl⟩⟩

theorem server.SendChannelMessage_cases (env : server.Env) (db : storage.Database)
    (req : shared.ChannelMessageRequest) (u : GoString) :
    (¬ db.IsMember u req.ChannelID →
      server.SendChannelMessage env db req u =
        (db, .error (lit "user is not a member of this channel"))) ∧
    (db.IsMember u req.ChannelID → (∀ m ∈ db.messages, m.id ≠ server.generateMessageID env.now) →
      ∃ db2 message, server.SendChannelMessage env db req u = (db2, .ok message)) ∧
    (db.IsMember u req.ChannelID → ¬ (∀ m ∈ db.messages, m.id ≠ server.generateMessageID env.now) →
      ∃ err, server.SendChannelMessage env db req u = (db, .error err)) := by
  obtain ⟨channels, hch, hiff⟩ := storage.GetUserChannels_any_iff db u req.ChannelID
  unfold server.SendChannelMessage
  rw [hch]
  simp only
  refine ⟨?_, ?_, ?_⟩
  · intro hn
    have hf : channels.any (fun channel => channel.ID == req.ChannelID) = false := by
      cases hb : channels.any (fun channel => channel.ID == req.ChannelID) with
      | false => rfl
      | true => exact absurd (hiff.mp hb) hn
    rw [hf]
    rfl
  · intro hm hfresh
    rw [hiff.mpr hm]
    simp only [Bool.not_true, Bool.false_eq_true, ↓reduceIte]
    obtain ⟨db2, hdb2⟩ := (storage.CreateMessage_ok_iff db
      { ID := server.generateMessageID env.now, From := u, To := [],
        ChannelID := req.ChannelID, Content := req.Content, Encrypted := true,
        Timestamp := env.now }).mpr hfresh
    rw [hdb2]
    exact ⟨_, _, rfl⟩
  · intro hm hstale
    rw [hiff.mpr hm]
    simp only [Bool.not_true, Bool.false_eq_true, ↓reduceIte]
    cases hc : storage.CreateMessage db
      { ID := server.generateMessageID env.now, From := u, To := [],
        ChannelID := req.ChannelID, Content := req.Content, Encrypted := true,
        Timestamp := env.now } with
    | error e => exact ⟨_, rfl⟩
    | ok db2 => exact absurd ((storage.CreateMessage_ok_iff db _).mp ⟨db2, hc⟩) hstale

theorem storage.Database.isMember_of_sameRecords (db db1 : storage.Database)
    (h : db.SameRecords db1) (u ch : GoString) : db1.IsMember u ch ↔ db.IsMember u ch := by
  obtain ⟨_, _, h3, h4, _⟩ := h
  simp only [storage.Database.IsMember, h3, h4]

/-- C12 fails on the code as stated: alice is a member of the channel `ch_1`
and her first send_channel_message, handled with the clock at 100, succeeds;
a second one handled at the same clock reading gets the same message id
`msg_100`, the insert is refused, and the answer is `success:false` although
alice is still a member. -/
theorem C12_counterexample :
    (∃ message, (server.processMessage Sample.lib (Sample.env 100) Sample.teamDb
        Sample.sendToTeam).2 =
      (some [(lit "success", .bool true), (lit "message", .message message)], none)) ∧
    Sample.teamDbAfterSend.IsMember (lit "u1") (lit "ch_1") ∧
    (server.processMessage Sample.lib (Sample.env 100) Sample.teamDbAfterSend
        Sample.sendToTeam).2 =
      (some [(lit "success", .bool false), (lit "error",
        .str (lit "failed to save message: UNIQUE constraint failed: messages.id"))], none) := by
  refine ⟨⟨_, by rfl⟩, ⟨⟨_, List.mem_cons_self _ _, by rfl⟩,
    ⟨_, List.mem_cons_of_mem _ (List.mem_cons_self _ _), by rfl, by rfl⟩⟩, by rfl⟩

/-- C12 as amended: for every authenticated user `u` and every
send_channel_message request for channel `ch`, the answer is `success:true`
if and only if `u` is currently a member of `ch` and the insert of the message
is not refused (no stored message carries the generated id `msg_<clock>`);
when `u` is not a member, also when `ch` does not exist, the answer is
`success:false` with the error exactly "user is not a member of this channel"
and the table of messages is unchanged. -/
theorem C12_channel_message_requires_membership (L : server.Lib) (env : server.Env)
    (db : storage.Database) (msg : Msg) (token data : GoString) (user : shared.User)
    (req : shared.ChannelMessageRequest)
    (hact : msg.string (lit "action") = some (lit "send_channel_message"))
    (htok : msg.string (lit "token") = some token)
    (hget : storage.GetSession db token = .ok user)
    (hdata : msg.string (lit "data") = some data)
    (hreq : L.json.UnmarshalChannelMessageRequest data = .ok req) :
    ((∃ resp, (server.processMessage L env db msg).2.1 = some resp ∧
        resp.lookup (lit "success") = some (.bool true)) ↔
      (db.IsMember user.ID req.ChannelID ∧
        ∀ m ∈ db.messages, m.id ≠ server.generateMessageID env.now)) ∧
    (¬ db.IsMember user.ID req.ChannelID →
      (server.processMessage L env db msg).2 =
        (some [(lit "success", .bool false),
          (lit "error", .str (lit "user is not a member of this channel"))], none) ∧
      (server.processMessage L env db msg).1.messages = db.messages) := by
  obtain ⟨db1, hv, hsame⟩ := server.ValidateSession_eq_of_GetSession db env.now token user hget
  have hmemiff := storage.Database.isMember_of_sameRecords db db1 hsame user.ID req.ChannelID
  have hmsgs : db1.messages = db.messages := hsame.2.1
  obtain ⟨hno, hyes, hstale⟩ := server.SendChannelMessage_cases env db1 req user.ID
  rw [hmsgs] at hyes hstale
  rw [server.processMessage_send_channel_message L env db msg hact]
  simp only [server.handleSendChannelMessage, htok, hv, hdata, hreq]
  by_cases hm : db.IsMember user.ID req.ChannelID
  · by_cases hfresh : ∀ m ∈ db.messages, m.id ≠ server.generateMessageID env.now
    · obtain ⟨db2, message, hs⟩ := hyes (hmemiff.mpr hm) hfresh
      rw [hs]
      exact ⟨⟨fun _ => ⟨hm, hfresh⟩, fun _ => ⟨_, rfl, rfl⟩⟩, fun hn => absurd hm hn⟩
    · obtain ⟨err, hs⟩ := hstale (hmemiff.mpr hm) hfresh
      rw [hs]
      refine ⟨⟨?_, fun h => absurd h.2 hfresh⟩, fun hn => absurd hm hn⟩
      rintro ⟨resp, hr, hl⟩
      simp only [server.failure, Option.some.injEq] at hr
      subst hr
      have hl2 : List.lookup (lit "success")
          [(lit "success", Value.bool false), (lit "error", Value.str err)] =
          some (Value.bool false) := rfl
      rw [hl2] at hl
      simp at hl
  · have hs := hno (fun h => hm (hmemiff.mp h))
    rw [hs]
    refine ⟨⟨?_, fun h => absurd h.1 hm⟩, fun _ => ⟨rfl, hmsgs⟩⟩
    rintro ⟨resp, hr, hl⟩
    simp only [server.failure, Option.some.injEq] at hr
    subst hr
    have hl2 : List.lookup (lit "success")
        [(lit "success", Value.bool false),
          (lit "error", Value.str (lit "user is not a member of this channel"))] =
        some (Value.bool false) := rfl
    rw [hl2] at hl
    simp at hl

theorem C12_witness :
    (server.processMessage Sample.lib (Sample.env 100) Sample.chatDb Sample.sendToTeam).2 =
      (some [(lit "success", .bool false),
        (lit "error", .str (lit "user is not a member of this channel"))], none) ∧
    (server.processMessage Sample.lib (Sample.env 100) Sample.chatDb Sample.sendToTeam).1.messages
      = Sample.chatDb.messages :=
  (C12_channel_message_requires_membership Sample.lib (Sample.env 100) Sample.chatDb
    Sample.sendToTeam (lit "t1") (lit "ch_1|hi") Sample.alice
    { ChannelID := lit "ch_1", Content := lit "hi" }
    (by rfl) (by rfl) (by rfl) (by rfl) (by rfl)).2
    (fun h => by obtain ⟨⟨c, hc, _⟩, _⟩ := h; cases hc)

/-! ### Channel creation -/

theorem storage.insertMembers_ok (now : Time) (channelID : GoString) :
    ∀ (members : List GoString) (db db1 : storage.Database),
      storage.insertMembers db now channelID members = .ok db1 →
      db1.users = db.users ∧ db1.messages = db.messages ∧ db1.channels = db.channels ∧
      db1.sessions = db.sessions ∧
      db1.channel_members = db.channel_members ++
        members.map (fun m => storage.ChannelMemberRow.mk channelID m now)
  | [], db, db1, h => by
    simp only [storage.insertMembers, Except.ok.injEq] at h
    subst h
    simp
  | m :: rest, db, db1, h => by
    unfold storage.insertMembers at h
    split at h
    · cases h
    · obtain ⟨h1, h2, h3, h4, h5⟩ := storage.insertMembers_ok now channelID rest _ db1 h
      refine ⟨h1, h2, h3, h4, ?_⟩
      rw [h5]
      simp

theorem storage.CreateChannel_ok (db db1 : storage.Database) (now : Time)
    (channel : shared.Channel) (h : storage.CreateChannel db now channel = .ok db1) :
    (∃ c ∈ db1.channels, c.id = channel.ID) ∧
    ∀ u ∈ channel.Members, ∃ m ∈ db1.channel_members,
      m.channel_id = channel.ID ∧ m.user_id = u := by
  unfold storage.CreateChannel at h
  split at h
  · cases h
  · obtain ⟨_, _, h3, _, h5⟩ := storage.insertMembers_ok now channel.ID channel.Members _ db1 h
    constructor
    · rw [h3]
      exact ⟨_, List.mem_append_right _ (List.mem_singleton_self _), rfl⟩
    · intro u hu
      rw [h5]
      exact ⟨storage.ChannelMemberRow.mk channel.ID u now,
        List.mem_append_right _ (List.mem_map.mpr ⟨u, hu, rfl⟩), rfl, rfl⟩

/-- C13: for every create_channel request of an authenticated creator `c` with
member list `ms` that is answered `success:true`: the returned channel has
`Members` equal to `ms` followed by `c` and `CreatedBy` equal to `c`, and in
the tables after the request `c` and every element of `ms` are members of that
channel, which `GetUserChannels` lists for each of them. -/
theorem C13_created_channel_has_creator_and_members (L : server.Lib) (env : server.Env)
    (db : storage.Database) (msg : Msg) (token data : GoString) (user : shared.User)
    (req : shared.ChannelRequest) (resp : Msg)
    (hact : msg.string (lit "action") = some (lit "create_channel"))
    (htok : msg.string (lit "token") = some token)
    (hget : storage.GetSession db token = .ok user)
    (hdata : msg.string (lit "data") = some data)
    (hreq : L.json.UnmarshalChannelRequest data = .ok req)
    (hresp : (server.processMessage L env db msg).2.1 = some resp)
    (hsuccess : resp.lookup (lit "success") = some (.bool true)) :
    ∃ channel, resp.lookup (lit "channel") = some (.channel channel) ∧
      channel.Members = req.Members ++ [user.ID] ∧ channel.CreatedBy = user.ID ∧
      ∀ u ∈ channel.Members,
        (server.processMessage L env db msg).1.IsMember u channel.ID ∧
        ∃ channels, storage.GetUserChannels (server.processMessage L env db msg).1 u =
            .ok channels ∧
          ∃ c ∈ channels, c.ID = channel.ID := by
  obtain ⟨db1, hv, _⟩ := server.ValidateSession_eq_of_GetSession db env.now token user hget
  rw [server.processMessage_create_channel L env db msg hact] at hresp ⊢
  simp only [server.handleCreateChannel, htok, hv, hdata, hreq] at hresp ⊢
  unfold server.CreateChannel at hresp ⊢
  simp only at hresp ⊢
  cases hc : storage.CreateChannel db1 env.now
      { ID := server.generateChannelID env.now, Name := req.Name,
        Description := req.Description, Members := req.Members ++ [user.ID],
        Created := env.now, CreatedBy := user.ID } with
  | error e =>
    rw [hc] at hresp
    simp only [server.failure, Option.some.injEq] at hresp
    subst hresp
    have hl2 : List.lookup (lit "success")
        [(lit "success", Value.bool false),
          (lit "error", Value.str (lit "failed to create channel: " ++ e))] =
        some (Value.bool false) := rfl
    rw [hl2] at hsuccess
    simp at hsuccess
  | ok db2 =>
    rw [hc] at hresp
    simp only [Option.some.injEq] at hresp ⊢
    subst hresp
    obtain ⟨hch, hmem⟩ := storage.CreateChannel_ok db1 db2 env.now _ hc
    refine ⟨_, rfl, rfl, rfl, ?_⟩
    intro u hu
    have hismem : db2.IsMember u (server.generateChannelID env.now) := ⟨hch, hmem u hu⟩
    refine ⟨hismem, ?_⟩
    obtain ⟨channels, hcs, hiff⟩ :=
      storage.GetUserChannels_any_iff db2 u (server.generateChannelID env.now)
    refine ⟨channels, hcs, ?_⟩
    have hany := hiff.mpr hismem
    simp only [List.any_eq_true, beq_iff_eq] at hany
    exact hany

theorem C13_witness :
    ∃ channel, ((server.processMessage Sample.lib (Sample.env 100) Sample.chatDb
          (Sample.request (lit "create_channel") (lit "t1") (lit "team||u2"))).2.1.getD []).lookup
          (lit "channel") = some (.channel channel) ∧
      channel.Members = [lit "u2"] ++ [lit "u1"] ∧ channel.CreatedBy = lit "u1" ∧
      ∀ u ∈ channel.Members,
        (server.processMessage Sample.lib (Sample.env 100) Sample.chatDb
          (Sample.request (lit "create_channel") (lit "t1") (lit "team||u2"))).1.IsMember u
            channel.ID ∧
        ∃ channels, storage.GetUserChannels (server.processMessage Sample.lib (Sample.env 100)
            Sample.chatDb (Sample.request (lit "create_channel") (lit "t1")
              (lit "team||u2"))).1 u = .ok channels ∧
          ∃ c ∈ channels, c.ID = channel.ID :=
  C13_created_channel_has_creator_and_members Sample.lib (Sample.env 100) Sample.chatDb
    (Sample.request (lit "create_channel") (lit "t1") (lit "team||u2")) (lit "t1")
    (lit "team||u2") Sample.alice
    { Name := lit "team", Description := [], Members := [lit "u2"] } _
    (by rfl) (by rfl) (by rfl) (by rfl) (by rfl) (by rfl) (by rfl)

/-! ### Reading a conversation -/

theorem truncate_natCast (k : Nat) : truncate (k : Rat) = (k : Int) := by
  simp [truncate]

theorem storage.limitRows_nonneg {α : Type} (limit : Int) (rows : List α) (h : 0 ≤ limit) :
    storage.limitRows limit rows = rows.take limit.toNat := by
  unfold storage.limitRows
  rw [if_neg (by omega)]

theorem storage.orderByDesc_sorted {α : Type} (key : α → Time) (rows : List α) :
    (storage.orderByDesc key rows).Sorted (fun a b => key b ≤ key a) := by
  haveI : IsTotal α (fun a b => key b ≤ key a) := ⟨fun a b => le_total (key b) (key a)⟩
  haveI : IsTrans α (fun a b => key b ≤ key a) := ⟨fun _ _ _ h1 h2 => le_trans h2 h1⟩
  exact List.sorted_insertionSort _ rows

/-- C14: get_messages of the authenticated caller `u` with `other_user_id` `o`
and a limit `n ≥ 0` (50 when the limit field is absent, the number itself when
it is a natural number) is answered `success:true` with the stored messages
whose (from, to) is (u, o) or (o, u), newest first, cut to the first `n`: the
list returned is the first `n` rows of a rearrangement of exactly those rows
that is sorted by descending timestamp, each row read as a message (id, from,
to, content, encrypted, timestamp). Hence every message returned has (from, to)
equal to (u, o) or (o, u), so a message of alice to bob is never returned to a
third user, and when at most `n` such rows are stored each of them is returned,
so bob querying alice gets it. -/
theorem C14_get_messages_returns_conversation (L : server.Lib) (env : server.Env)
    (db : storage.Database) (msg : Msg) (token o : GoString) (user : shared.User)
    (hact : msg.string (lit "action") = some (lit "get_messages"))
    (htok : msg.string (lit "token") = some token)
    (hget : storage.GetSession db token = .ok user)
    (hother : msg.string (lit "other_user_id") = some o)
    (hlimit : 0 ≤ server.requestLimit msg) :
    (msg.lookup (lit "limit") = none → server.requestLimit msg = 50) ∧
    (∀ k : Nat, msg.lookup (lit "limit") = some (.num k) → server.requestLimit msg = k) ∧
    ∃ (rows : List storage.MessageRow) (messages : List shared.Message),
      rows.Perm (db.messages.filter (fun m =>
        (m.from_user == user.ID && m.to_user == o) ||
        (m.from_user == o && m.to_user == user.ID))) ∧
      rows.Sorted (fun a b => b.timestamp ≤ a.timestamp) ∧
      messages = (rows.take (server.requestLimit msg).toNat).map storage.MessageRow.toMessage ∧
      (server.processMessage L env db msg).2 =
        (some [(lit "success", .bool true), (lit "messages", .messages messages)], none) ∧
      (∀ m ∈ messages, (m.From = user.ID ∧ m.To = o) ∨ (m.From = o ∧ m.To = user.ID)) ∧
      (rows.length ≤ (server.requestLimit msg).toNat →
        ∀ r ∈ db.messages, ((r.from_user = user.ID ∧ r.to_user = o) ∨
          (r.from_user = o ∧ r.to_user = user.ID)) → r.toMessage ∈ messages) := by
  refine ⟨?_, ?_, ?_⟩
  · intro h
    simp [server.requestLimit, Msg.float64, h]
  · intro k h
    simp [server.requestLimit, Msg.float64, h, truncate_natCast]
  · obtain ⟨db1, hv, hsame⟩ := server.ValidateSession_eq_of_GetSession db env.now token user hget
    have hmsgs : db1.messages = db.messages := hsame.2.1
    have hperm := List.perm_insertionSort (fun a b : storage.MessageRow => b.timestamp ≤ a.timestamp)
      (db.messages.filter (fun m =>
        (m.from_user == user.ID && m.to_user == o) ||
        (m.from_user == o && m.to_user == user.ID)))
    refine ⟨storage.orderByDesc (fun m => m.timestamp) (db.messages.filter (fun m =>
        (m.from_user == user.ID && m.to_user == o) ||
        (m.from_user == o && m.to_user == user.ID))), _, hperm,
      storage.orderByDesc_sorted _ _, rfl, ?_, ?_, ?_⟩
    · rw [server.processMessage_get_messages L env db msg hact]
      simp only [server.handleGetMessages, htok, hv, hother, server.GetMessages,
        storage.GetMessagesBetweenUsers, hmsgs, storage.limitRows_nonneg _ _ hlimit]
    · intro m hm
      simp only [List.mem_map] at hm
      obtain ⟨r, hr, rfl⟩ := hm
      have hr2 := (storage.mem_orderByDesc _ _ r).mp (List.mem_of_mem_take hr)
      simp only [List.mem_filter, Bool.or_eq_true, Bool.and_eq_true, beq_iff_eq] at hr2
      exact hr2.2
    · intro hlen r hr hmatch
      rw [List.take_of_length_le hlen]
      apply List.mem_map_of_mem
      apply (storage.mem_orderByDesc _ _ r).mpr
      simp only [List.mem_filter, Bool.or_eq_true, Bool.and_eq_true, beq_iff_eq]
      exact ⟨hr, hmatch⟩

theorem C14_witness :
    ∃ messages, (server.processMessage Sample.lib (Sample.env 200) Sample.convDb
        Sample.bobAsksAlice).2 =
        (some [(lit "success", .bool true), (lit "messages", .messages messages)], none) ∧
      Sample.hiMessage ∈ messages := by
  obtain ⟨_, _, rows, messages, hperm, _, _, hresp, _, hall⟩ :=
    C14_get_messages_returns_conversation Sample.lib (Sample.env 200) Sample.convDb
      Sample.bobAsksAlice (lit "t2") (lit "u1") Sample.bob (by rfl) (by rfl) (by rfl) (by rfl)
      (by decide)
  refine ⟨messages, hresp, ?_⟩
  have hlen : rows.length ≤ (server.requestLimit Sample.bobAsksAlice).toNat := by
    rw [hperm.length_eq]
    decide
  exact hall hlen (storage.MessageRow.mk (lit "msg_100") (lit "u1") (lit "u2") [] (lit "hi")
    true 100) (by decide) (Or.inr ⟨by rfl, by rfl⟩)

/-! ### A malformed frame on a connection -/

/-- C11 fails on the code: the first read of the connection delivers a frame
that is not JSON and the second a well-formed frame. `HandleConnection`
returns at the read error: nothing is written and the second frame is never
read, although the same frame alone on a connection is answered. -/
theorem C11_counterexample :
    server.HandleConnectionOn Sample.wireJson Sample.lib Sample.envOf 5 Sample.chatDb 0
        [Sample.badFrame, Sample.pingFrame] [] =
      some (Sample.chatDb, [Sample.pingFrame], []) ∧
    server.HandleConnectionOn Sample.wireJson Sample.lib Sample.envOf 5 Sample.chatDb 0
        [Sample.pingFrame] [] =
      some (Sample.chatDb, [], Sample.pingAnswer) := by
  refine ⟨by rfl, by rfl⟩

/-- C11 as amended: when the server reads a malformed frame, that is when
`ReadMessage` returns an error, `HandleConnection` returns at once, which
closes the connection: the tables are untouched, nothing is written, and the
frames still to come on that connection are never read, dispatched or
answered. Only a frame that decodes, whatever its action, is dispatched and
answered, and the loop then goes on with the next read. -/
theorem C11_read_error_ends_connection (J : shared.Json) (L : server.Lib)
    (envOf : Nat → server.Env) (fuel : Nat) (db : storage.Database) (handled : Nat)
    (conn : List Bytes) (out : Bytes) :
    (∀ err, (shared.ReadMessage J conn).2.2 = some err →
      server.HandleConnectionOn J L envOf (fuel + 1) db handled conn out =
        some (db, (shared.ReadMessage J conn).1, out)) ∧
    (∀ conn1 msg db1 response data,
      shared.ReadMessage J conn = (conn1, some msg, none) →
      server.processMessage L (envOf handled) db msg = (db1, some response, none) →
      J.Marshal response = .ok data →
      server.HandleConnectionOn J L envOf (fuel + 1) db handled conn out =
        server.HandleConnectionOn J L envOf fuel db1 (handled + 1) conn1
          (out ++ (data ++ [10]))) := by
  constructor
  · intro err h
    rcases hr : shared.ReadMessage J conn with ⟨conn1, msg, e⟩
    rw [hr] at h
    simp only at h
    subst h
    simp only [server.HandleConnectionOn, hr]
  · intro conn1 msg db1 response data hr hp hm
    simp only [server.HandleConnectionOn, hr, Option.getD_some, hp, shared.SendMessage, hm]

theorem C11_witness :
    server.HandleConnectionOn Sample.wireJson Sample.lib Sample.envOf (4 + 1) Sample.chatDb 0
        [Sample.badFrame, Sample.pingFrame] [] =
      some (Sample.chatDb,
        (shared.ReadMessage Sample.wireJson [Sample.badFrame, Sample.pingFrame]).1, []) :=
  (C11_read_error_ends_connection Sample.wireJson Sample.lib Sample.envOf 4 Sample.chatDb 0
    [Sample.badFrame, Sample.pingFrame] []).1
    (lit "invalid character looking for beginning of value") (by rfl)

/-! ### Logout of an absent token -/

theorem storage.Database.eq_of_sessions (db : storage.Database) (sessions : List storage.SessionRow)
    (h : sessions = db.sessions) : { db with sessions := sessions } = db := by
  subst h
  rfl

/-- C21: `Logout(token)` for a token that no session row carries returns a nil
error and the tables as they were; and, for every state of the tables, a
second `Logout(token)` returns what the first one returned: the same tables
and the same nil error. -/
theorem C21_logout_absent_token_is_noop (db : storage.Database) (token : GoString) :
    ((∀ s ∈ db.sessions, s.token ≠ token) → server.Logout db token = (db, none)) ∧
    server.Logout (server.Logout db token).1 token = server.Logout db token := by
  constructor
  · intro h
    simp only [server.Logout, storage.DeleteSession, Prod.mk.injEq, and_true]
    apply storage.Database.eq_of_sessions
    rw [List.filter_eq_self]
    intro s hs
    simpa using h s hs
  · simp only [server.Logout, storage.DeleteSession, List.filter_filter, Bool.and_self]

theorem C21_witness : server.Logout Sample.staleDb (lit "nobody") = (Sample.staleDb, none) :=
  (C21_logout_absent_token_is_noop Sample.staleDb (lit "nobody")).1 (by decide)

/-! ### The transaction of channel creation -/

theorem storage.insertMembers_ok_iff (now : Time) (channelID : GoString) :
    ∀ (members : List GoString) (db : storage.Database),
      (∃ db1, storage.insertMembers db now channelID members = .ok db1) ↔
        (members.Nodup ∧ ∀ u ∈ members, ∀ r ∈ db.channel_members,
          ¬ (r.channel_id = channelID ∧ r.user_id = u))
  | [], db => by simp [storage.insertMembers]
  | m :: rest, db => by
    unfold storage.insertMembers
    by_cases hany : db.channel_members.any
        (fun r => r.channel_id == channelID && r.user_id == m) = true
    · rw [if_pos hany]
      simp only [List.any_eq_true, Bool.and_eq_true, beq_iff_eq] at hany
      obtain ⟨r, hr, hrc⟩ := hany
      constructor
      · rintro ⟨_, h⟩
        cases h
      · rintro ⟨_, h⟩
        exact absurd hrc (h m (List.mem_cons_self _ _) r hr)
    · rw [if_neg hany]
      simp only [List.any_eq_true, Bool.and_eq_true, beq_iff_eq, not_exists, not_and] at hany
      rw [storage.insertMembers_ok_iff now channelID rest]
      simp only [List.nodup_cons, List.mem_cons, List.mem_append, List.mem_singleton,
        List.not_mem_nil, or_false]
      constructor
      · rintro ⟨hnd, hfree⟩
        refine ⟨⟨?_, hnd⟩, ?_⟩
        · intro hm
          exact hfree m hm ⟨channelID, m, now⟩ (Or.inr rfl) ⟨rfl, rfl⟩
        · rintro u (rfl | hu) r hr
          · exact fun h => hany r hr h.1 h.2
          · exact hfree u hu r (Or.inl hr)
      · rintro ⟨⟨hm, hnd⟩, hfree⟩
        refine ⟨hnd, ?_⟩
        rintro u hu r (hr | rfl)
        · exact hfree u (Or.inr hu) r hr
        · rintro ⟨_, h2⟩
          simp only at h2
          exact hm (h2 ▸ hu)

theorem storage.CreateChannel_ok_iff (db : storage.Database) (now : Time)
    (channel : shared.Channel) :
    (∃ db1, storage.CreateChannel db now channel = .ok db1) ↔
      ((∀ c ∈ db.channels, c.id ≠ channel.ID) ∧ channel.Members.Nodup ∧
        ∀ u ∈ channel.Members, ∀ r ∈ db.channel_members,
          ¬ (r.channel_id = channel.ID ∧ r.user_id = u)) := by
  unfold storage.CreateChannel
  by_cases hany : db.channels.any (fun r => r.id == channel.ID) = true
  · rw [if_pos hany]
    simp only [List.any_eq_true, beq_iff_eq] at hany
    obtain ⟨c, hc, hid⟩ := hany
    constructor
    · rintro ⟨_, h⟩
      cases h
    · rintro ⟨h, _⟩
      exact absurd hid (h c hc)
  · rw [if_neg hany]
    simp only [List.any_eq_true, beq_iff_eq, not_exists, not_and] at hany
    rw [storage.insertMembers_ok_iff now channel.ID channel.Members]
    exact ⟨fun h => ⟨hany, h⟩, fun h => h.2⟩

theorem server.CreateChannel_cases (env : server.Env) (db : storage.Database)
    (req : shared.ChannelRequest) (creatorID : GoString) :
    (∃ db1 channel, server.CreateChannel env db req creatorID = (db1, .ok channel) ∧
      channel.Members = req.Members ++ [creatorID] ∧ channel.Members.Nodup) ∨
    (∃ err, server.CreateChannel env db req creatorID =
      (db, .error (lit "failed to create channel: " ++ err))) := by
  unfold server.CreateChannel
  simp only
  cases hc : storage.CreateChannel db env.now
      { ID := server.generateChannelID env.now, Name := req.Name,
        Description := req.Description, Members := req.Members ++ [creatorID],
        Created := env.now, CreatedBy := creatorID } with
  | error e => exact Or.inr ⟨e, rfl⟩
  | ok db1 =>
    have h := (storage.CreateChannel_ok_iff db env.now _).mp ⟨db1, hc⟩
    exact Or.inl ⟨db1, _, rfl, rfl, h.2.1⟩

/-- C22: channel creation is atomic. Whenever `CreateChannel` returns an error
the tables are exactly the ones before the call, so neither the channel row
nor any membership row written inside the transaction is visible. It returns
an error when the insert of the channel row is refused (the id is already
stored) and when the insert of any one of the member rows is refused (the
member already has a row for this channel id, or occurs twice in the list). -/
theorem C22_channel_creation_is_atomic (env : server.Env) (db : storage.Database)
    (req : shared.ChannelRequest) (creatorID : GoString) :
    (∀ err, (server.CreateChannel env db req creatorID).2 = .error err →
      (server.CreateChannel env db req creatorID).1 = db) ∧
    ((∃ c ∈ db.channels, c.id = server.generateChannelID env.now) →
      ∃ err, server.CreateChannel env db req creatorID = (db, .error err)) ∧
    ((¬ (req.Members ++ [creatorID]).Nodup ∨
        ∃ u ∈ req.Members ++ [creatorID], ∃ r ∈ db.channel_members,
          r.channel_id = server.generateChannelID env.now ∧ r.user_id = u) →
      ∃ err, server.CreateChannel env db req creatorID = (db, .error err)) := by
  have hiff := storage.CreateChannel_ok_iff db env.now
    { ID := server.generateChannelID env.now, Name := req.Name,
      Description := req.Description, Members := req.Members ++ [creatorID],
      Created := env.now, CreatedBy := creatorID }
  have hfail : (¬ ∃ db1, storage.CreateChannel db env.now
      { ID := server.generateChannelID env.now, Name := req.Name,
        Description := req.Description, Members := req.Members ++ [creatorID],
        Created := env.now, CreatedBy := creatorID } = .ok db1) →
      ∃ err, server.CreateChannel env db req creatorID = (db, .error err) := by
    intro hno
    unfold server.CreateChannel
    simp only
    cases hc : storage.CreateChannel db env.now
        { ID := server.generateChannelID env.now, Name := req.Name,
          Description := req.Description, Members := req.Members ++ [creatorID],
          Created := env.now, CreatedBy := creatorID } with
    | error e => exact ⟨_, rfl⟩
    | ok db1 => exact absurd ⟨db1, hc⟩ hno
  refine ⟨?_, ?_, ?_⟩
  · intro err h
    rcases server.CreateChannel_cases env db req creatorID with ⟨db1, ch, hs, _⟩ | ⟨e, hs⟩
    · rw [hs] at h
      cases h
    · rw [hs]
  · rintro ⟨c, hc, hid⟩
    apply hfail
    rw [hiff]
    rintro ⟨h, _⟩
    exact h c hc hid
  · intro h
    apply hfail
    rw [hiff]
    rintro ⟨_, hnd, hfree⟩
    rcases h with h | ⟨u, hu, r, hr, hrc⟩
    · exact h hnd
    · exact hfree u hu r hr hrc

theorem C22_witness :
    (server.CreateChannel (Sample.env 100) Sample.chatDb
      { Name := lit "team", Description := [], Members := [lit "u2", lit "u2"] } (lit "u1")).1 =
      Sample.chatDb :=
  (C22_channel_creation_is_atomic (Sample.env 100) Sample.chatDb
    { Name := lit "team", Description := [], Members := [lit "u2", lit "u2"] } (lit "u1")).1
    (lit "failed to create channel: " ++
      lit "UNIQUE constraint failed: channel_members.channel_id, channel_members.user_id")
    (by rfl)

/-- C30: for every create_channel request of an authenticated creator whose
member list contains the creator's own ID or contains an ID more than once,
the answer is `success:false` (error "failed to create channel: ...") and no
channel or membership is stored (the tables keep all their records); and the
channel of every request answered `success:true` has a duplicate-free member
list. -/
theorem C30_duplicate_members_fail (L : server.Lib) (env : server.Env)
    (db : storage.Database) (msg : Msg) (token data : GoString) (user : shared.User)
    (req : shared.ChannelRequest)
    (hact : msg.string (lit "action") = some (lit "create_channel"))
    (htok : msg.string (lit "token") = some token)
    (hget : storage.GetSession db token = .ok user)
    (hdata : msg.string (lit "data") = some data)
    (hreq : L.json.UnmarshalChannelRequest data = .ok req) :
    ((user.ID ∈ req.Members ∨ ¬ req.Members.Nodup) →
      (∃ err, (server.processMessage L env db msg).2 =
        (some [(lit "success", .bool false),
          (lit "error", .str (lit "failed to create channel: " ++ err))], none)) ∧
      db.SameRecords (server.processMessage L env db msg).1) ∧
    (∀ resp channel, (server.processMessage L env db msg).2.1 = some resp →
      resp.lookup (lit "success") = some (.bool true) →
      resp.lookup (lit "channel") = some (.channel channel) →
      channel.Members.Nodup) := by
  obtain ⟨db1, hv, hsame⟩ := server.ValidateSession_eq_of_GetSession db env.now token user hget
  rw [server.processMessage_create_channel L env db msg hact]
  simp only [server.handleCreateChannel, htok, hv, hdata, hreq]
  rcases server.CreateChannel_cases env db1 req user.ID with ⟨db2, ch, hs, hmem, hnd⟩ | ⟨e, hs⟩
  · rw [hs]
    constructor
    · intro hdup
      exfalso
      rw [hmem, List.nodup_append] at hnd
      rcases hdup with hin | hnn
      · exact hnd.2.2 hin (List.mem_singleton_self _)
      · exact hnn hnd.1
    · intro resp channel hresp _ hchan
      simp only [Option.some.injEq] at hresp
      subst hresp
      have hl : List.lookup (lit "channel")
          [(lit "success", Value.bool true), (lit "channel", Value.channel ch)] =
          some (Value.channel ch) := rfl
      rw [hl] at hchan
      simp only [Option.some.injEq, Value.channel.injEq] at hchan
      rw [← hchan]
      exact hnd
  · rw [hs]
    constructor
    · intro _
      exact ⟨⟨e, rfl⟩, hsame⟩
    · intro resp channel hresp hsucc _
      simp only [server.failure, Option.some.injEq] at hresp
      subst hresp
      have hl : List.lookup (lit "success")
          [(lit "success", Value.bool false),
            (lit "error", Value.str (lit "failed to create channel: " ++ e))] =
          some (Value.bool false) := rfl
      rw [hl] at hsucc
      simp at hsucc

theorem C30_witness :
    (∃ err, (server.processMessage Sample.lib (Sample.env 100) Sample.chatDb
        Sample.createTeamTwice).2 =
      (some [(lit "success", .bool false),
        (lit "error", .str (lit "failed to create channel: " ++ err))], none)) ∧
    Sample.chatDb.SameRecords
      (server.processMessage Sample.lib (Sample.env 100) Sample.chatDb Sample.createTeamTwice).1 :=
  (C30_duplicate_members_fail Sample.lib (Sample.env 100) Sample.chatDb Sample.createTeamTwice
    (lit "t1") (lit "team||u2,u2") Sample.alice
    { Name := lit "team", Description := [], Members := [lit "u2", lit "u2"] }
    (by rfl) (by rfl) (by rfl) (by rfl) (by rfl)).1 (Or.inr (by decide))

/-! ### Reading a channel -/

/-- C29: the answer to get_channel_messages depends only on `channel_id` and
the limit, not on the caller: two requests with the same `channel_id` and the
same limit, each carrying a token that resolves to a session (of any user,
member of the channel or not), get the same response, `success:true` with the
messages of the channel. -/
theorem C29_channel_messages_ignore_caller (L : server.Lib) (env1 env2 : server.Env)
    (db : storage.Database) (msg1 msg2 : Msg) (token1 token2 channelID : GoString)
    (user1 user2 : shared.User)
    (hact1 : msg1.string (lit "action") = some (lit "get_channel_messages"))
    (hact2 : msg2.string (lit "action") = some (lit "get_channel_messages"))
    (htok1 : msg1.string (lit "token") = some token1)
    (htok2 : msg2.string (lit "token") = some token2)
    (hget1 : storage.GetSession db token1 = .ok user1)
    (hget2 : storage.GetSession db token2 = .ok user2)
    (hch1 : msg1.string (lit "channel_id") = some channelID)
    (hch2 : msg2.string (lit "channel_id") = some channelID)
    (hlimit : server.requestLimit msg1 = server.requestLimit msg2) :
    (server.processMessage L env1 db msg1).2 = (server.processMessage L env2 db msg2).2 ∧
    ∃ messages, storage.GetChannelMessages db channelID (server.requestLimit msg1) =
        .ok messages ∧
      (server.processMessage L env1 db msg1).2 =
        (some [(lit "success", .bool true), (lit "messages", .messages messages)], none) := by
  obtain ⟨db1, hv1, hsame1⟩ :=
    server.ValidateSession_eq_of_GetSession db env1.now token1 user1 hget1
  obtain ⟨db2, hv2, hsame2⟩ :=
    server.ValidateSession_eq_of_GetSession db env2.now token2 user2 hget2
  have hm1 : db1.messages = db.messages := hsame1.2.1
  have hm2 : db2.messages = db.messages := hsame2.2.1
  rw [server.processMessage_get_channel_messages L env1 db msg1 hact1,
    server.processMessage_get_channel_messages L env2 db msg2 hact2]
  simp only [server.handleGetChannelMessages, htok1, htok2, hv1, hv2, hch1, hch2,
    server.GetChannelMessages, storage.GetChannelMessages, hm1, hm2, hlimit]
  exact ⟨trivial, _, rfl, rfl⟩

theorem C29_witness :
    (server.processMessage Sample.lib (Sample.env 200) Sample.convDb
        (Sample.channelQuery (lit "t1"))).2 =
      (server.processMessage Sample.lib (Sample.env 201) Sample.convDb
        (Sample.channelQuery (lit "t2"))).2 :=
  (C29_channel_messages_ignore_caller Sample.lib (Sample.env 200) (Sample.env 201)
    Sample.convDb (Sample.channelQuery (lit "t1")) (Sample.channelQuery (lit "t2"))
    (lit "t1") (lit "t2") (lit "ch_1") Sample.alice Sample.bob
    (by rfl) (by rfl) (by rfl) (by rfl) (by rfl) (by rfl) (by rfl) (by rfl) (by rfl)).1

/-! ### One response for each request -/

theorem server.handleRegister_nil_error (L : server.Lib) (env : server.Env)
    (db : storage.Database) (msg : Msg) : (server.handleRegister L env db msg).2.2 = none := by
  unfold server.handleRegister
  repeat' split
  all_goals rfl

theorem server.handleLogin_nil_error (L : server.Lib) (env : server.Env)
    (db : storage.Database) (msg : Msg) : (server.handleLogin L env db msg).2.2 = none := by
  unfold server.handleLogin
  repeat' split
  all_goals rfl

theorem server.handleSendMessage_nil_error (L : server.Lib) (env : server.Env)
    (db : storage.Database) (msg : Msg) : (server.handleSendMessage L env db msg).2.2 = none := by
  unfold server.handleSendMessage
  repeat' split
  all_goals rfl

theorem server.handleSendChannelMessage_nil_error (L : server.Lib) (env : server.Env)
    (db : storage.Database) (msg : Msg) :
    (server.handleSendChannelMessage L env db msg).2.2 = none := by
  unfold server.handleSendChannelMessage
  repeat' split
  all_goals rfl

theorem server.handleGetMessages_nil_error (env : server.Env)
    (db : storage.Database) (msg : Msg) : (server.handleGetMessages env db msg).2.2 = none := by
  unfold server.handleGetMessages
  repeat' split
  all_goals rfl

theorem server.handleGetChannelMessages_nil_error (env : server.Env)
    (db : storage.Database) (msg : Msg) :
    (server.handleGetChannelMessages env db msg).2.2 = none := by
  unfold server.handleGetChannelMessages
  repeat' split
  all_goals rfl

theorem server.handleCreateChannel_nil_error (L : server.Lib) (env : server.Env)
    (db : storage.Database) (msg : Msg) :
    (server.handleCreateChannel L env db msg).2.2 = none := by
  unfold server.handleCreateChannel
  repeat' split
  all_goals rfl

theorem server.handleGetUserChannels_nil_error (env : server.Env)
    (db : storage.Database) (msg : Msg) :
    (server.handleGetUserChannels env db msg).2.2 = none := by
  unfold server.handleGetUserChannels
  repeat' split
  all_goals rfl

theorem server.handleAddUserToChannel_nil_error (env : server.Env)
    (db : storage.Database) (msg : Msg) :
    (server.handleAddUserToChannel env db msg).2.2 = none := by
  unfold server.handleAddUserToChannel
  repeat' split
  all_goals rfl

theorem server.handleRemoveUserFromChannel_nil_error (env : server.Env)
    (db : storage.Database) (msg : Msg) :
    (server.handleRemoveUserFromChannel env db msg).2.2 = none := by
  unfold server.handleRemoveUserFromChannel
  repeat' split
  all_goals rfl

theorem server.handleGetRecentMessages_nil_error (env : server.Env)
    (db : storage.Database) (msg : Msg) :
    (server.handleGetRecentMessages env db msg).2.2 = none := by
  unfold server.handleGetRecentMessages
  repeat' split
  all_goals rfl

theorem server.processMessage_nil_error (L : server.Lib) (env : server.Env)
    (db : storage.Database) (msg : Msg) : (server.processMessage L env db msg).2.2 = none := by
  cases hact : msg.string (lit "action") with
  | none =>
    unfold server.processMessage
    rw [hact]
    rfl
  | some action =>
    by_cases hk : action ∈ server.knownActions
    · simp only [server.knownActions, server.authActions, List.mem_cons, List.mem_singleton,
        List.not_mem_nil, or_false] at hk
      rcases hk with h | h | h | h | h | h | h | h | h | h | h <;> subst h
      · rw [server.processMessage_register L env db msg hact]
        exact server.handleRegister_nil_error L env db msg
      · rw [server.processMessage_login L env db msg hact]
        exact server.handleLogin_nil_error L env db msg
      · rw [server.processMessage_send_message L env db msg hact]
        exact server.handleSendMessage_nil_error L env db msg
      · rw [server.processMessage_send_channel_message L env db msg hact]
        exact server.handleSendChannelMessage_nil_error L env db msg
      · rw [server.processMessage_get_messages L env db msg hact]
        exact server.handleGetMessages_nil_error env db msg
      · rw [server.processMessage_get_channel_messages L env db msg hact]
        exact server.handleGetChannelMessages_nil_error env db msg
      · rw [server.processMessage_create_channel L env db msg hact]
        exact server.handleCreateChannel_nil_error L env db msg
      · rw [server.processMessage_get_user_channels L env db msg hact]
        exact server.handleGetUserChannels_nil_error env db msg
      · rw [server.processMessage_add_user_to_channel L env db msg hact]
        exact server.handleAddUserToChannel_nil_error env db msg
      · rw [server.processMessage_remove_user_from_channel L env db msg hact]
        exact server.handleRemoveUserFromChannel_nil_error env db msg
      · rw [server.processMessage_get_recent_messages L env db msg hact]
        exact server.handleGetRecentMessages_nil_error env db msg
    · rw [server.processMessage_unknown L env db msg action hact hk]
      rfl

theorem server.processMessage_uniform (L : server.Lib) (env : server.Env)
    (db : storage.Database) (msg : Msg) : server.Uniform (server.processMessage L env db msg).2 := by
  cases hact : msg.string (lit "action") with
  | none =>
    unfold server.processMessage
    rw [hact]
    exact server.uniform_failure _ (by decide)
  | some action =>
    by_cases hk : action ∈ server.knownActions
    · simp only [server.knownActions, server.authActions, List.mem_cons, List.mem_singleton,
        List.not_mem_nil, or_false] at hk
      rcases hk with h | h | h | h | h | h | h | h | h | h | h <;> subst h
      · rw [server.processMessage_register L env db msg hact]
        exact server.handleRegister_uniform L env db msg
      · rw [server.processMessage_login L env db msg hact]
        exact server.handleLogin_uniform L env db msg
      · rw [server.processMessage_send_message L env db msg hact]
        exact server.handleSendMessage_uniform L env db msg
      · rw [server.processMessage_send_channel_message L env db msg hact]
        exact server.handleSendChannelMessage_uniform L env db msg
      · rw [server.processMessage_get_messages L env db msg hact]
        exact server.handleGetMessages_uniform env db msg
      · rw [server.processMessage_get_channel_messages L env db msg hact]
        exact server.handleGetChannelMessages_uniform env db msg
      · rw [server.processMessage_create_channel L env db msg hact]
        exact server.handleCreateChannel_uniform L env db msg
      · rw [server.processMessage_get_user_channels L env db msg hact]
        exact server.handleGetUserChannels_uniform env db msg
      · rw [server.processMessage_add_user_to_channel L env db msg hact]
        exact server.handleAddUserToChannel_uniform env db msg
      · rw [server.processMessage_remove_user_from_channel L env db msg hact]
        exact server.handleRemoveUserFromChannel_uniform env db msg
      · rw [server.processMessage_get_recent_messages L env db msg hact]
        exact server.handleGetRecentMessages_uniform env db msg
    · rw [server.processMessage_unknown L env db msg action hact hk]
      exact server.uniform_failure _ (by decide)

theorem server.processMessage_returns (L : server.Lib) (env : server.Env)
    (db : storage.Database) (msg : Msg) :
    ∃ db1 response, server.processMessage L env db msg = (db1, some response, none) := by
  obtain ⟨resp, hresp, _⟩ := server.processMessage_uniform L env db msg
  have herr := server.processMessage_nil_error L env db msg
  refine ⟨(server.processMessage L env db msg).1, resp, ?_⟩
  rw [← hresp, ← herr]

theorem server.HandleConnection_length (L : server.Lib) (envOf : Nat → server.Env) :
    ∀ (requests : List Msg) (db : storage.Database) (handled : Nat),
      (server.HandleConnection L envOf db handled requests).2.length = requests.length
  | [], _, _ => rfl
  | msg :: rest, db, handled => by
    obtain ⟨db1, response, h⟩ := server.processMessage_returns L (envOf handled) db msg
    simp only [server.HandleConnection, h, List.length_cons,
      server.HandleConnection_length L envOf rest db1 (handled + 1)]

/-- C27: for every decoded request map and every state of the tables,
`processMessage` returns a non-nil response map and a nil error. Hence the
connection loop takes neither its log-and-continue branch nor its
no-response branch: on every request it reads it goes on to `SendMessage`
with the response, and over whole frames it writes exactly one response frame
for each request frame. -/
theorem C27_one_response_per_request (J : shared.Json) (L : server.Lib)
    (envOf : Nat → server.Env) (env : server.Env) (db : storage.Database) (msg : Msg) :
    (∃ response, (server.processMessage L env db msg).2 = (some response, none)) ∧
    (∀ requests handled,
      (server.HandleConnection L envOf db handled requests).2.length = requests.length) ∧
    (∀ fuel handled conn conn1 out, shared.ReadMessage J conn = (conn1, some msg, none) →
      ∃ db1 response,
        server.processMessage L (envOf handled) db msg = (db1, some response, none) ∧
        server.HandleConnectionOn J L envOf (fuel + 1) db handled conn out =
          match shared.SendMessage J out response with
          | (out1, some _) => some (db1, conn1, out1)
          | (out1, none) =>
            server.HandleConnectionOn J L envOf fuel db1 (handled + 1) conn1 out1) := by
  refine ⟨?_, ?_, ?_⟩
  · obtain ⟨db1, response, h⟩ := server.processMessage_returns L env db msg
    exact ⟨response, by rw [h]⟩
  · intro requests handled
    exact server.HandleConnection_length L envOf requests db handled
  · intro fuel handled conn conn1 out hr
    obtain ⟨db1, response, h⟩ := server.processMessage_returns L (envOf handled) db msg
    refine ⟨db1, response, h, ?_⟩
    simp only [server.HandleConnectionOn, hr, Option.getD_some, h]

theorem C27_witness :
    ∃ db1 response,
      server.processMessage Sample.lib (Sample.envOf 0) Sample.chatDb
        [(lit "action", .str (lit "ping"))] = (db1, some response, none) ∧
      server.HandleConnectionOn Sample.wireJson Sample.lib Sample.envOf (4 + 1) Sample.chatDb 0
          [Sample.pingFrame] [] =
        match shared.SendMessage Sample.wireJson [] response with
        | (out1, some _) => some (db1, [], out1)
        | (out1, none) =>
          server.HandleConnectionOn Sample.wireJson Sample.lib Sample.envOf 4 db1 (0 + 1) [] out1 :=
  (C27_one_response_per_request Sample.wireJson Sample.lib Sample.envOf (Sample.envOf 0)
    Sample.chatDb [(lit "action", .str (lit "ping"))]).2.2 4 0 [Sample.pingFrame] [] []
    (by rfl)

/-! ### The target of a stored message -/

theorem storage.CreateMessage_stored (db db1 : storage.Database) (message : shared.Message)
    (h : storage.CreateMessage db message = .ok db1) :
    ∃ r ∈ db1.messages, r.id = message.ID ∧ r.to_user = message.To ∧
      r.channel_id = message.ChannelID := by
  unfold storage.CreateMessage at h
  split at h
  · cases h
  · injection h with h
    subst h
    exact ⟨_, List.mem_append_right _ (List.mem_singleton_self _), rfl, rfl, rfl⟩

theorem server.SendMessage_ok (env : server.Env) (db db1 : storage.Database)
    (req : shared.MessageRequest) (u : GoString) (message : shared.Message)
    (h : server.SendMessage env db req u = (db1, .ok message)) :
    message.ChannelID = [] ∧ message.To = req.To ∧
    ∃ r ∈ db1.messages, r.id = message.ID ∧ r.to_user = message.To ∧
      r.channel_id = message.ChannelID := by
  unfold server.SendMessage at h
  simp only at h
  split at h
  · simp at h
  · rename_i db2 hc
    simp only [Prod.mk.injEq, Except.ok.injEq] at h
    obtain ⟨h1, h2⟩ := h
    subst h1 h2
    exact ⟨rfl, rfl, storage.CreateMessage_stored _ _ _ hc⟩

theorem server.SendChannelMessage_ok (env : server.Env) (db db1 : storage.Database)
    (req : shared.ChannelMessageRequest) (u : GoString) (message : shared.Message)
    (h : server.SendChannelMessage env db req u = (db1, .ok message)) :
    message.To = [] ∧ message.ChannelID = req.ChannelID ∧
    ∃ r ∈ db1.messages, r.id = message.ID ∧ r.to_user = message.To ∧
      r.channel_id = message.ChannelID := by
  unfold server.SendChannelMessage at h
  split at h
  · simp at h
  · simp only at h
    split at h
    · simp at h
    · split at h
      · simp at h
      · rename_i db2 hc
        simp only [Prod.mk.injEq, Except.ok.injEq] at h
        obtain ⟨h1, h2⟩ := h
        subst h1 h2
        exact ⟨rfl, rfl, storage.CreateMessage_stored _ _ _ hc⟩

/-- C24 fails on the code: alice's send_message whose payload has an empty
`to` is accepted (`success:true`) and the stored message has neither a
recipient nor a channel. -/
theorem C24_counterexample :
    (server.processMessage Sample.lib (Sample.env 100) Sample.chatDb Sample.sendToNobody).2 =
      (some [(lit "success", .bool true), (lit "message", .message Sample.nobodyMessage)],
        none) ∧
    (server.processMessage Sample.lib (Sample.env 100) Sample.chatDb
      Sample.sendToNobody).1.messages =
      [storage.MessageRow.mk (lit "msg_100") (lit "u1") [] [] (lit "hi") true 100] ∧
    ¬ Sample.nobodyMessage.HasOneTarget := by
  refine ⟨by rfl, by rfl, ?_⟩
  rintro (⟨h, _⟩ | ⟨_, h⟩) <;> exact h rfl

/-- C24, amended: for a caller with a valid session, a message that
send_message answers with has an empty ChannelID, has the `to` of the request
as its To, and is stored with these values, so exactly one of the two is
non-empty exactly when the request's `to` is non-empty; a message that
send_channel_message answers with has an empty To, has the `channel_id` of the
request as its ChannelID, and is stored with these values, so exactly one of
the two is non-empty exactly when the request's `channel_id` is non-empty.
Never are both non-empty. -/
theorem C24_message_target_follows_request (L : server.Lib) (env : server.Env)
    (db : storage.Database) (msg : Msg) (token data : GoString) (user : shared.User)
    (resp : Msg) (message : shared.Message)
    (htok : msg.string (lit "token") = some token)
    (hget : storage.GetSession db token = .ok user)
    (hdata : msg.string (lit "data") = some data)
    (hresp : (server.processMessage L env db msg).2.1 = some resp)
    (hmsg : resp.lookup (lit "message") = some (.message message)) :
    (∀ req, msg.string (lit "action") = some (lit "send_message") →
      L.json.UnmarshalMessageRequest data = .ok req →
      message.ChannelID = [] ∧ message.To = req.To ∧
      (message.HasOneTarget ↔ req.To ≠ []) ∧
      ∃ r ∈ (server.processMessage L env db msg).1.messages,
        r.id = message.ID ∧ r.to_user = message.To ∧ r.channel_id = message.ChannelID) ∧
    (∀ req, msg.string (lit "action") = some (lit "send_channel_message") →
      L.json.UnmarshalChannelMessageRequest data = .ok req →
      message.To = [] ∧ message.ChannelID = req.ChannelID ∧
      (message.HasOneTarget ↔ req.ChannelID ≠ []) ∧
      ∃ r ∈ (server.processMessage L env db msg).1.messages,
        r.id = message.ID ∧ r.to_user = message.To ∧ r.channel_id = message.ChannelID) := by
  obtain ⟨db1, hv, -⟩ := server.ValidateSession_eq_of_GetSession db env.now token user hget
  constructor
  · intro req hact hreq
    rw [server.processMessage_send_message L env db msg hact] at hresp ⊢
    simp only [server.handleSendMessage, htok, hv, hdata, hreq] at hresp ⊢
    rcases hs : server.SendMessage env db1 req user.ID with ⟨db2, _ | m⟩
    · rw [hs] at hresp
      simp only [server.failure, Option.some.injEq] at hresp
      subst hresp
      cases hmsg
    · rw [hs] at hresp
      simp only [Option.some.injEq] at hresp
      subst hresp
      have hm : m = message := by
        have h2 : List.lookup (lit "message")
            [(lit "success", Value.bool true), (lit "message", Value.message m)] =
            some (Value.message m) := rfl
        rw [h2] at hmsg
        injection hmsg with hmsg
        injection hmsg
      subst hm
      obtain ⟨h1, h2, h3⟩ := server.SendMessage_ok env db1 db2 req user.ID m hs
      refine ⟨h1, h2, ?_, h3⟩
      unfold shared.Message.HasOneTarget
      rw [h1, h2]
      constructor
      · rintro (⟨h, _⟩ | ⟨_, h⟩)
        · exact h
        · exact absurd rfl h
      · exact fun h => Or.inl ⟨h, rfl⟩
  · intro req hact hreq
    rw [server.processMessage_send_channel_message L env db msg hact] at hresp ⊢
    simp only [server.handleSendChannelMessage, htok, hv, hdata, hreq] at hresp ⊢
    rcases hs : server.SendChannelMessage env db1 req user.ID with ⟨db2, _ | m⟩
    · rw [hs] at hresp
      simp only [server.failure, Option.some.injEq] at hresp
      subst hresp
      cases hmsg
    · rw [hs] at hresp
      simp only [Option.some.injEq] at hresp
      subst hresp
      have hm : m = message := by
        have h2 : List.lookup (lit "message")
            [(lit "success", Value.bool true), (lit "message", Value.message m)] =
            some (Value.message m) := rfl
        rw [h2] at hmsg
        injection hmsg with hmsg
        injection hmsg
      subst hm
      obtain ⟨h1, h2, h3⟩ := server.SendChannelMessage_ok env db1 db2 req user.ID m hs
      refine ⟨h1, h2, ?_, h3⟩
      unfold shared.Message.HasOneTarget
      rw [h1, h2]
      constructor
      · rintro (⟨h, _⟩ | ⟨_, h⟩)
        · exact absurd rfl h
        · exact h
      · exact fun h => Or.inr ⟨rfl, h⟩

theorem C24_witness :
    Sample.hiMessage.ChannelID = [] ∧ Sample.hiMessage.To = lit "u2" ∧
    (Sample.hiMessage.HasOneTarget ↔ lit "u2" ≠ []) ∧
    ∃ r ∈ (server.processMessage Sample.lib (Sample.env 100) Sample.chatDb
        (Sample.request (lit "send_message") (lit "t1") (lit "u2|hi"))).1.messages,
      r.id = Sample.hiMessage.ID ∧ r.to_user = Sample.hiMessage.To ∧
        r.channel_id = Sample.hiMessage.ChannelID :=
  (C24_message_target_follows_request Sample.lib (Sample.env 100) Sample.chatDb
    (Sample.request (lit "send_message") (lit "t1") (lit "u2|hi")) (lit "t1") (lit "u2|hi")
    Sample.alice [(lit "success", .bool true), (lit "message", .message Sample.hiMessage)]
    Sample.hiMessage rfl rfl rfl rfl rfl).1
    { To := lit "u2", Content := lit "hi" } rfl rfl

/-! ### Storage error text in responses -/

/-- C26 fails on the code: alice asks to add bob, who is already a member, to
the channel `ch_1`; the insert into `channel_members` fails with the SQLite
text of the violated key, and the `error` field of the response is exactly
that text. -/
theorem C26_storage_error_text_is_forwarded :
    storage.AddUserToChannel Sample.teamDb 100 (lit "ch_1") (lit "u2") =
      .error Sample.memberKeyError ∧
    (server.processMessage Sample.lib (Sample.env 100) Sample.teamDb Sample.addBobAgain).2 =
      (some [(lit "success", .bool false), (lit "error", .str Sample.memberKeyError)],
        none) := by
  constructor <;> rfl

/-! ### The cached session of the client -/

theorem time.Since_gt_iff (now t w : Nat) :
    ((now : Int) - (t : Int) > (w : Int)) ↔ t + w < now := by
  omega

/-- C28: `HasValidSession` returns true exactly when the cached session loads
and its `LastSeen` is at most seven days before the current time, and then
the file is left as it was; when the session loads and is older, the result
is false and the file is removed; when loading fails, the result is false and
the file is left as it was. -/
theorem C28_has_valid_session (J : client.SessionJson) (now : Time) (file : os.File) :
    ((client.HasValidSession J now file).2 = true ↔
      ∃ session, client.LoadSession J file = .ok session ∧
        now ≤ session.LastSeen + inactivityWindow) ∧
    ((client.HasValidSession J now file).2 = true →
      (client.HasValidSession J now file).1 = file) ∧
    (∀ session, client.LoadSession J file = .ok session →
      session.LastSeen + inactivityWindow < now →
      client.HasValidSession J now file = (none, false)) ∧
    (∀ err, client.LoadSession J file = .error err →
      client.HasValidSession J now file = (file, false)) := by
  have hwin : (7 * 24 * time.Hour : Int) = (inactivityWindow : Int) := by
    simp only [time.Hour, inactivityWindow]
    norm_num
  unfold client.HasValidSession
  cases hl : client.LoadSession J file with
  | error err =>
    simp
  | ok session =>
    have hrem : (client.ClearSession file).1 = none := by
      unfold client.ClearSession os.Remove
      cases file <;> rfl
    simp only [hwin, time.Since, hrem]
    clear hwin
    generalize inactivityWindow = w
    by_cases h : session.LastSeen + w < now
    · have h2 : ((now : Int) - (session.LastSeen : Int) > (w : Int)) :=
        (time.Since_gt_iff now session.LastSeen w).mpr h
      rw [if_pos h2]
      refine ⟨⟨fun hf => by simp at hf, ?_⟩, fun hf => by simp at hf, ?_, ?_⟩
      · rintro ⟨s, hs, hle⟩
        injection hs with hs
        subst hs
        exact absurd h (Nat.not_lt.mpr hle)
      · intro s _ _
        rfl
      · intro err he
        cases he
    · have h2 : ¬ ((now : Int) - (session.LastSeen : Int) > (w : Int)) :=
        fun hgt => h ((time.Since_gt_iff now session.LastSeen w).mp hgt)
      rw [if_neg h2]
      refine ⟨⟨fun _ => ⟨session, rfl, Nat.le_of_not_lt h⟩, fun _ => rfl⟩, fun _ => rfl, ?_, ?_⟩
      · intro s hs hlt
        injection hs with hs
        subst hs
        exact absurd hlt h
      · intro err he
        cases he

theorem C28_witness :
    (client.HasValidSession Sample.sessionJson (5 + inactivityWindow) Sample.sessionFile =
      (Sample.sessionFile, true)) ∧
    client.HasValidSession Sample.sessionJson Sample.lateNow Sample.sessionFile =
      (none, false) ∧
    client.HasValidSession Sample.sessionJson Sample.lateNow (some (lit "oops")) =
      (some (lit "oops"), false) :=
  ⟨Prod.ext
    ((C28_has_valid_session Sample.sessionJson (5 + inactivityWindow) Sample.sessionFile).2.1
      (by decide))
    (by decide),
   (C28_has_valid_session Sample.sessionJson Sample.lateNow Sample.sessionFile).2.2.1
      { Token := lit "t1", User := none, LastSeen := 5 } (by rfl) (by decide),
   (C28_has_valid_session Sample.sessionJson Sample.lateNow (some (lit "oops"))).2.2.2
      (lit "unexpected end of JSON input") (by rfl)⟩

/-! ### Invariants of the stored records -/

theorem storage.Database.sameDirectory_refl (db : storage.Database) : db.SameDirectory db :=
  ⟨rfl, rfl, rfl⟩

theorem storage.Database.sameDirectory_trans {db db1 db2 : storage.Database}
    (h1 : db.SameDirectory db1) (h2 : db1.SameDirectory db2) : db.SameDirectory db2 :=
  ⟨h2.1.trans h1.1, h2.2.1.trans h1.2.1, h2.2.2.trans h1.2.2⟩

theorem server.sameDirectory_of_ValidateSession {db db1 : storage.Database} {now : Time}
    {token : GoString} {r : Except Error shared.User}
    (h : server.ValidateSession db now token = (db1, r)) : db.SameDirectory db1 := by
  have hs := server.ValidateSession_sameRecords db now token
  rw [h] at hs
  exact ⟨hs.1, hs.2.2.1, hs.2.2.2.1⟩

theorem storage.sameDirectory_of_CreateMessage {db db1 : storage.Database}
    {message : shared.Message} (h : storage.CreateMessage db message = .ok db1) :
    db.SameDirectory db1 := by
  unfold storage.CreateMessage at h
  split at h
  · cases h
  · injection h with h
    subst h
    exact ⟨rfl, rfl, rfl⟩

theorem server.sameDirectory_of_SendMessage {env : server.Env} {db db1 : storage.Database}
    {req : shared.MessageRequest} {u : GoString} {r : Except Error shared.Message}
    (h : server.SendMessage env db req u = (db1, r)) : db.SameDirectory db1 := by
  unfold server.SendMessage at h
  simp only at h
  split at h
  · simp only [Prod.mk.injEq] at h
    rw [← h.1]
    exact storage.Database.sameDirectory_refl db
  · rename_i db2 hc
    simp only [Prod.mk.injEq] at h
    rw [← h.1]
    exact storage.sameDirectory_of_CreateMessage hc

theorem server.sameDirectory_of_SendChannelMessage {env : server.Env}
    {db db1 : storage.Database} {req : shared.ChannelMessageRequest} {u : GoString}
    {r : Except Error shared.Message}
    (h : server.SendChannelMessage env db req u = (db1, r)) : db.SameDirectory db1 := by
  unfold server.SendChannelMessage at h
  split at h
  · simp only [Prod.mk.injEq] at h
    rw [← h.1]
    exact storage.Database.sameDirectory_refl db
  · simp only at h
    split at h
    · simp only [Prod.mk.injEq] at h
      rw [← h.1]
      exact storage.Database.sameDirectory_refl db
    · split at h
      · simp only [Prod.mk.injEq] at h
        rw [← h.1]
        exact storage.Database.sameDirectory_refl db
      · rename_i db2 hc
        simp only [Prod.mk.injEq] at h
        rw [← h.1]
        exact storage.sameDirectory_of_CreateMessage hc

theorem storage.sameDirectory_of_CreateSession {db db1 : storage.Database} {now : Time}
    {token userID : GoString} (h : storage.CreateSession db now token userID = .ok db1) :
    db.SameDirectory db1 := by
  unfold storage.CreateSession at h
  split at h
  · cases h
  · injection h with h
    subst h
    exact ⟨rfl, rfl, rfl⟩

theorem server.sameDirectory_of_Login {kdf : crypto.KeyDerivation} {env : server.Env}
    {db db1 : storage.Database} {req : shared.LoginRequest}
    {r : shared.AuthResponse × Option Error}
    (h : server.Login kdf env db req = (db1, r)) : db.SameDirectory db1 := by
  unfold server.Login at h
  split at h
  · simp only [Prod.mk.injEq] at h
    rw [← h.1]
    exact storage.Database.sameDirectory_refl db
  · split at h
    · simp only [Prod.mk.injEq] at h
      rw [← h.1]
      exact storage.Database.sameDirectory_refl db
    · simp only at h
      split at h
      · simp only [Prod.mk.injEq] at h
        rw [← h.1]
        exact storage.Database.sameDirectory_refl db
      · rename_i db2 hc
        simp only [Prod.mk.injEq] at h
        rw [← h.1]
        exact storage.sameDirectory_of_CreateSession hc

theorem server.handleLogin_sameDirectory (L : server.Lib) (env : server.Env)
    (db : storage.Database) (msg : Msg) :
    db.SameDirectory (server.handleLogin L env db msg).1 := by
  unfold server.handleLogin
  repeat' split
  all_goals first
    | exact storage.Database.sameDirectory_refl db
    | exact server.sameDirectory_of_Login (by assumption)

theorem server.handleSendMessage_sameDirectory (L : server.Lib) (env : server.Env)
    (db : storage.Database) (msg : Msg) :
    db.SameDirectory (server.handleSendMessage L env db msg).1 := by
  unfold server.handleSendMessage
  repeat' split
  all_goals first
    | exact storage.Database.sameDirectory_refl db
    | exact server.sameDirectory_of_ValidateSession (by assumption)
    | exact storage.Database.sameDirectory_trans
        (server.sameDirectory_of_ValidateSession (by assumption))
        (server.sameDirectory_of_SendMessage (by assumption))

theorem server.handleSendChannelMessage_sameDirectory (L : server.Lib) (env : server.Env)
    (db : storage.Database) (msg : Msg) :
    db.SameDirectory (server.handleSendChannelMessage L env db msg).1 := by
  unfold server.handleSendChannelMessage
  repeat' split
  all_goals first
    | exact storage.Database.sameDirectory_refl db
    | exact server.sameDirectory_of_ValidateSession (by assumption)
    | exact storage.Database.sameDirectory_trans
        (server.sameDirectory_of_ValidateSession (by assumption))
        (server.sameDirectory_of_SendChannelMessage (by assumption))

theorem server.handleGetMessages_sameDirectory (env : server.Env)
    (db : storage.Database) (msg : Msg) :
    db.SameDirectory (server.handleGetMessages env db msg).1 := by
  unfold server.handleGetMessages
  repeat' split
  all_goals first
    | exact storage.Database.sameDirectory_refl db
    | exact server.sameDirectory_of_ValidateSession (by assumption)

theorem server.handleGetChannelMessages_sameDirectory (env : server.Env)
    (db : storage.Database) (msg : Msg) :
    db.SameDirectory (server.handleGetChannelMessages env db msg).1 := by
  unfold server.handleGetChannelMessages
  repeat' split
  all_goals first
    | exact storage.Database.sameDirectory_refl db
    | exact server.sameDirectory_of_ValidateSession (by assumption)

theorem server.handleGetUserChannels_sameDirectory (env : server.Env)
    (db : storage.Database) (msg : Msg) :
    db.SameDirectory (server.handleGetUserChannels env db msg).1 := by
  unfold server.handleGetUserChannels
  repeat' split
  all_goals first
    | exact storage.Database.sameDirectory_refl db
    | exact server.sameDirectory_of_ValidateSession (by assumption)

theorem server.handleGetRecentMessages_sameDirectory (env : server.Env)
    (db : storage.Database) (msg : Msg) :
    db.SameDirectory (server.handleGetRecentMessages env db msg).1 := by
  unfold server.handleGetRecentMessages
  repeat' split
  all_goals first
    | exact storage.Database.sameDirectory_refl db
    | exact server.sameDirectory_of_ValidateSession (by assumption)

theorem storage.CreateUser_grows {db db1 : storage.Database} {user : shared.User}
    {hash salt : GoString} (h : storage.CreateUser db user hash salt = .ok db1) :
    db1.channels = db.channels ∧ db1.channel_members = db.channel_members ∧
    ∃ row, db1.users = db.users ++ [row] ∧
      ∀ r ∈ db.users, r.username ≠ row.username ∧ r.email ≠ row.email := by
  unfold storage.CreateUser at h
  split at h
  · cases h
  · split at h
    · cases h
    · split at h
      · cases h
      · rename_i hid hname hmail
        injection h with h
        subst h
        refine ⟨rfl, rfl, _, rfl, ?_⟩
        intro r hr
        simp only [List.any_eq_true, beq_iff_eq, not_exists, not_and] at hname hmail
        exact ⟨hname r hr, hmail r hr⟩

theorem server.Register_grows (kdf : crypto.KeyDerivation) (env : server.Env)
    (db : storage.Database) (req : shared.RegisterRequest) :
    db.Grows (server.Register kdf env db req).1 := by
  unfold server.Register
  split
  · exact Or.inl (storage.Database.sameDirectory_refl db)
  · split
    · exact Or.inl (storage.Database.sameDirectory_refl db)
    · split
      · exact Or.inl (storage.Database.sameDirectory_refl db)
      · simp only
        split
        · exact Or.inl (storage.Database.sameDirectory_refl db)
        · rename_i db1 hu
          obtain ⟨h1, h2, row, h3, h4⟩ := storage.CreateUser_grows hu
          split
          · exact Or.inr (Or.inl ⟨h1, h2, row, h3, h4⟩)
          · rename_i db2 hs
            obtain ⟨g1, g2, g3⟩ := storage.sameDirectory_of_CreateSession hs
            exact Or.inr (Or.inl ⟨g2.trans h1, g3.trans h2, row, g1.trans h3, h4⟩)

theorem server.handleRegister_grows (L : server.Lib) (env : server.Env)
    (db : storage.Database) (msg : Msg) :
    db.Grows (server.handleRegister L env db msg).1 := by
  unfold server.handleRegister
  split
  · exact Or.inl (storage.Database.sameDirectory_refl db)
  · split
    · exact Or.inl (storage.Database.sameDirectory_refl db)
    · rename_i req _
      have hg := server.Register_grows L.kdf env db req
      split
      all_goals
        rename_i heq
        rw [heq] at hg
        exact hg

theorem storage.Database.grows_of_sameDirectory {db db1 db2 : storage.Database}
    (h1 : db.SameDirectory db1) (h2 : db1.Grows db2) : db.Grows db2 := by
  obtain ⟨hu, hc, hm⟩ := h1
  unfold storage.Database.Grows storage.Database.SameDirectory at *
  rw [hu, hc, hm] at h2
  exact h2

theorem server.CreateChannel_grows {env : server.Env} {db db1 : storage.Database}
    {req : shared.ChannelRequest} {creatorID : GoString}
    {r : Except Error shared.Channel}
    (h : server.CreateChannel env db req creatorID = (db1, r)) : db.Grows db1 := by
  unfold server.CreateChannel at h
  simp only at h
  split at h
  · simp only [Prod.mk.injEq] at h
    rw [← h.1]
    exact Or.inl (storage.Database.sameDirectory_refl db)
  · rename_i db2 hc
    simp only [Prod.mk.injEq] at h
    rw [← h.1]
    unfold storage.CreateChannel at hc
    split at hc
    · cases hc
    · obtain ⟨h1, _, h3, _, h5⟩ := storage.insertMembers_ok _ _ _ _ db2 hc
      refine Or.inr (Or.inr (Or.inl ⟨h1, _, _, h3, h5, ?_⟩))
      exact ⟨storage.ChannelMemberRow.mk (server.generateChannelID env.now) creatorID env.now,
        by simp, rfl, rfl⟩

theorem server.AddUserToChannel_grows {env : server.Env} {db db1 : storage.Database}
    {channelID userID : GoString} {r : Option Error}
    (h : server.AddUserToChannel env db channelID userID = (db1, r)) : db.Grows db1 := by
  unfold server.AddUserToChannel storage.AddUserToChannel at h
  split at h
  · rename_i db2 hc
    simp only [Prod.mk.injEq] at h
    rw [← h.1]
    split at hc
    · cases hc
    · injection hc with hc
      subst hc
      exact Or.inr (Or.inr (Or.inr ⟨rfl, rfl, _, rfl⟩))
  · simp only [Prod.mk.injEq] at h
    rw [← h.1]
    exact Or.inl (storage.Database.sameDirectory_refl db)

theorem server.handleCreateChannel_grows (L : server.Lib) (env : server.Env)
    (db : storage.Database) (msg : Msg) :
    db.Grows (server.handleCreateChannel L env db msg).1 := by
  unfold server.handleCreateChannel
  repeat' split
  all_goals first
    | exact Or.inl (storage.Database.sameDirectory_refl db)
    | exact Or.inl (server.sameDirectory_of_ValidateSession (by assumption))
    | exact storage.Database.grows_of_sameDirectory
        (server.sameDirectory_of_ValidateSession (by assumption))
        (server.CreateChannel_grows (by assumption))

theorem server.handleAddUserToChannel_grows (env : server.Env)
    (db : storage.Database) (msg : Msg) :
    db.Grows (server.handleAddUserToChannel env db msg).1 := by
  unfold server.handleAddUserToChannel
  repeat' split
  all_goals first
    | exact Or.inl (storage.Database.sameDirectory_refl db)
    | exact Or.inl (server.sameDirectory_of_ValidateSession (by assumption))
    | exact storage.Database.grows_of_sameDirectory
        (server.sameDirectory_of_ValidateSession (by assumption))
        (server.AddUserToChannel_grows (by assumption))

theorem server.RemoveUserFromChannel_tables {db db1 : storage.Database}
    {channelID userID : GoString} {r : Option Error}
    (h : server.RemoveUserFromChannel db channelID userID = (db1, r)) :
    db1.users = db.users ∧ db1.channels = db.channels ∧
    db1.channel_members = db.channel_members.filter
      (fun m => !(m.channel_id == channelID && m.user_id == userID)) := by
  unfold server.RemoveUserFromChannel storage.RemoveUserFromChannel at h
  simp only [Prod.mk.injEq] at h
  rw [← h.1]
  exact ⟨rfl, rfl, rfl⟩

theorem server.handleRemoveUserFromChannel_tables (env : server.Env)
    (db : storage.Database) (msg : Msg) :
    (server.handleRemoveUserFromChannel env db msg).1.users = db.users ∧
    (server.handleRemoveUserFromChannel env db msg).1.channels = db.channels ∧
    ((server.handleRemoveUserFromChannel env db msg).1.channel_members = db.channel_members ∨
      ∃ token user channelID userID, msg.string (lit "token") = some token ∧
        storage.GetSession db token = .ok user ∧
        msg.string (lit "channel_id") = some channelID ∧
        msg.string (lit "user_id") = some userID ∧
        (server.handleRemoveUserFromChannel env db msg).1.channel_members =
          db.channel_members.filter
            (fun m => !(m.channel_id == channelID && m.user_id == userID))) := by
  unfold server.handleRemoveUserFromChannel
  cases htok : msg.string (lit "token") with
  | none => exact ⟨rfl, rfl, Or.inl rfl⟩
  | some token =>
    simp only
    rcases hv : server.ValidateSession db env.now token with ⟨db1, _ | user⟩
    · obtain ⟨h1, h2, h3⟩ := server.sameDirectory_of_ValidateSession hv
      exact ⟨h1, h2, Or.inl h3⟩
    · obtain ⟨h1, h2, h3⟩ := server.sameDirectory_of_ValidateSession hv
      have hget : storage.GetSession db token = .ok user :=
        (server.ValidateSession_ok_tables db env.now token user (by rw [hv])).1
      simp only
      cases hch : msg.string (lit "channel_id") with
      | none => exact ⟨h1, h2, Or.inl h3⟩
      | some channelID =>
        simp only
        cases hus : msg.string (lit "user_id") with
        | none => exact ⟨h1, h2, Or.inl h3⟩
        | some userID =>
          simp only
          rcases hr : server.RemoveUserFromChannel db1 channelID userID with ⟨db2, _ | err⟩
          all_goals
            obtain ⟨g1, g2, g3⟩ := server.RemoveUserFromChannel_tables hr
            simp only
            refine ⟨g1.trans h1, g2.trans h2, Or.inr ⟨token, user, channelID, userID, rfl,
              hget, rfl, rfl, ?_⟩⟩
            rw [g3, h3]

theorem server.processMessage_grows (L : server.Lib) (env : server.Env)
    (db : storage.Database) (msg : Msg)
    (h : msg.string (lit "action") ≠ some (lit "remove_user_from_channel")) :
    db.Grows (server.processMessage L env db msg).1 := by
  cases hact : msg.string (lit "action") with
  | none =>
    unfold server.processMessage
    rw [hact]
    exact Or.inl (storage.Database.sameDirectory_refl db)
  | some action =>
    by_cases hk : action ∈ server.knownActions
    · simp only [server.knownActions, server.authActions, List.mem_cons, List.mem_singleton,
        List.not_mem_nil, or_false] at hk
      rcases hk with hk | hk | hk | hk | hk | hk | hk | hk | hk | hk | hk
      all_goals subst hk
      · rw [server.processMessage_register L env db msg hact]
        exact server.handleRegister_grows L env db msg
      · rw [server.processMessage_login L env db msg hact]
        exact Or.inl (server.handleLogin_sameDirectory L env db msg)
      · rw [server.processMessage_send_message L env db msg hact]
        exact Or.inl (server.handleSendMessage_sameDirectory L env db msg)
      · rw [server.processMessage_send_channel_message L env db msg hact]
        exact Or.inl (server.handleSendChannelMessage_sameDirectory L env db msg)
      · rw [server.processMessage_get_messages L env db msg hact]
        exact Or.inl (server.handleGetMessages_sameDirectory env db msg)
      · rw [server.processMessage_get_channel_messages L env db msg hact]
        exact Or.inl (server.handleGetChannelMessages_sameDirectory env db msg)
      · rw [server.processMessage_create_channel L env db msg hact]
        exact server.handleCreateChannel_grows L env db msg
      · rw [server.processMessage_get_user_channels L env db msg hact]
        exact Or.inl (server.handleGetUserChannels_sameDirectory env db msg)
      · rw [server.processMessage_add_user_to_channel L env db msg hact]
        exact server.handleAddUserToChannel_grows env db msg
      · exact absurd hact h
      · rw [server.processMessage_get_recent_messages L env db msg hact]
        exact Or.inl (server.handleGetRecentMessages_sameDirectory env db msg)
    · rw [server.processMessage_unknown L env db msg action hact hk]
      exact Or.inl (storage.Database.sameDirectory_refl db)

theorem storage.Database.uniqueIdentities_of_grows {db db1 : storage.Database}
    (hg : db.Grows db1) (h : db.UniqueIdentities) : db1.UniqueIdentities := by
  unfold storage.Database.UniqueIdentities at *
  rcases hg with ⟨hu, -, -⟩ | ⟨-, -, row, hu, hfresh⟩ | ⟨hu, -⟩ | ⟨hu, -, -⟩
  · rw [hu]
    exact h
  · rw [hu]
    simp only [List.map_append, List.map_cons, List.map_nil]
    constructor
    · refine List.Nodup.append h.1 (List.nodup_singleton _) ?_
      intro x hx hx2
      simp only [List.mem_singleton] at hx2
      subst hx2
      obtain ⟨r, hr, hrx⟩ := List.mem_map.mp hx
      exact (hfresh r hr).1 hrx
    · refine List.Nodup.append h.2 (List.nodup_singleton _) ?_
      intro x hx hx2
      simp only [List.mem_singleton] at hx2
      subst hx2
      obtain ⟨r, hr, hrx⟩ := List.mem_map.mp hx
      exact (hfresh r hr).2 hrx
  · rw [hu]
    exact h
  · rw [hu]
    exact h

theorem storage.Database.creatorsAreMembers_of_grows {db db1 : storage.Database}
    (hg : db.Grows db1) (h : db.CreatorsAreMembers) : db1.CreatorsAreMembers := by
  unfold storage.Database.CreatorsAreMembers at *
  rcases hg with ⟨-, hc, hm⟩ | ⟨hc, hm, -⟩ | ⟨-, c0, rows, hc, hm, m0, hm0, hid, hby⟩ |
    ⟨-, hc, row, hm⟩
  · rw [hc, hm]
    exact h
  · rw [hc, hm]
    exact h
  · rw [hc, hm]
    intro c hcmem
    rcases List.mem_append.mp hcmem with hold | hnew
    · obtain ⟨m, hmm, hmc⟩ := h c hold
      exact ⟨m, List.mem_append_left _ hmm, hmc⟩
    · simp only [List.mem_singleton] at hnew
      subst hnew
      exact ⟨m0, List.mem_append_right _ hm0, hid, hby⟩
  · rw [hc, hm]
    intro c hcmem
    obtain ⟨m, hmm, hmc⟩ := h c hcmem
    exact ⟨m, List.mem_append_left _ hmm, hmc⟩

theorem server.processMessage_uniqueIdentities (L : server.Lib) (env : server.Env)
    (db : storage.Database) (msg : Msg) (h : db.UniqueIdentities) :
    (server.processMessage L env db msg).1.UniqueIdentities := by
  by_cases hact : msg.string (lit "action") = some (lit "remove_user_from_channel")
  · rw [server.processMessage_remove_user_from_channel L env db msg hact]
    unfold storage.Database.UniqueIdentities at *
    rw [(server.handleRemoveUserFromChannel_tables env db msg).1]
    exact h
  · exact storage.Database.uniqueIdentities_of_grows
      (server.processMessage_grows L env db msg hact) h

theorem server.processMessage_creatorsAreMembers (L : server.Lib) (env : server.Env)
    (db : storage.Database) (msg : Msg) (h : db.CreatorsAreMembers)
    (hno : ¬ server.RemovesCreator db msg) :
    (server.processMessage L env db msg).1.CreatorsAreMembers := by
  by_cases hact : msg.string (lit "action") = some (lit "remove_user_from_channel")
  · rw [server.processMessage_remove_user_from_channel L env db msg hact]
    obtain ⟨-, hc, hm⟩ := server.handleRemoveUserFromChannel_tables env db msg
    unfold storage.Database.CreatorsAreMembers at *
    rw [hc]
    rcases hm with hm | ⟨token, user, channelID, userID, htok, hget, hch, hus, hm⟩
    · rw [hm]
      exact h
    · rw [hm]
      intro c hcmem
      obtain ⟨m, hmm, hmc, hmu⟩ := h c hcmem
      refine ⟨m, List.mem_filter.mpr ⟨hmm, ?_⟩, hmc, hmu⟩
      simp only [Bool.not_eq_true_eq_eq_false, Bool.and_eq_false_iff, beq_eq_false_iff_ne,
        Bool.not_eq_eq_eq_not, Bool.not_true, ne_eq]
      by_contra hboth
      simp only [not_or, not_not] at hboth
      apply hno
      refine ⟨hact, ⟨token, user, htok, hget⟩, c, hcmem, ?_, ?_⟩
      · rw [hch, ← hboth.1, hmc]
      · rw [hus, ← hboth.2, hmu]
  · exact storage.Database.creatorsAreMembers_of_grows
      (server.processMessage_grows L env db msg hact) h

theorem server.run_uniqueIdentities (L : server.Lib) :
    ∀ (steps : List (server.Env × Msg)) (db : storage.Database),
      db.UniqueIdentities → (server.run L db steps).UniqueIdentities
  | [], _, h => h
  | (env, msg) :: rest, db, h =>
    server.run_uniqueIdentities L rest _ (server.processMessage_uniqueIdentities L env db msg h)

theorem server.run_creatorsAreMembers (L : server.Lib) :
    ∀ (steps : List (server.Env × Msg)) (db : storage.Database),
      db.CreatorsAreMembers → server.NoCreatorRemoved L db steps →
      (server.run L db steps).CreatorsAreMembers
  | [], _, h, _ => h
  | (env, msg) :: rest, db, h, hno =>
    server.run_creatorsAreMembers L rest _
      (server.processMessage_creatorsAreMembers L env db msg h hno.1) hno.2

/-- C25: in every state reached from the empty tables through any sequence
of requests, register requests or others, no two stored users share a
username and no two share an email; the same holds from any tables in which
usernames and emails are unique. -/
theorem C25_usernames_and_emails_stay_unique (L : server.Lib)
    (steps : List (server.Env × Msg)) :
    (server.run L {} steps).UniqueIdentities ∧
    ∀ db : storage.Database, db.UniqueIdentities →
      (server.run L db steps).UniqueIdentities :=
  ⟨server.run_uniqueIdentities L steps {} ⟨List.nodup_nil, List.nodup_nil⟩,
    fun db h => server.run_uniqueIdentities L steps db h⟩

theorem C25_witness :
    (server.run Sample.lib {}
      [(Sample.env 5, Sample.registerAliceMsg),
        (Sample.env2 6, Sample.registerBobAsAlice)]).UniqueIdentities ∧
    (server.run Sample.lib {}
      [(Sample.env 5, Sample.registerAliceMsg),
        (Sample.env2 6, Sample.registerBobAsAlice)]).users.map (fun u => u.username) =
      [lit "alice"] :=
  ⟨(C25_usernames_and_emails_stay_unique Sample.lib
    [(Sample.env 5, Sample.registerAliceMsg), (Sample.env2 6, Sample.registerBobAsAlice)]).1,
    by rfl⟩

/-- C23 fails on the code: alice registers, creates the channel "team", and
then asks to remove herself from it; the request is carried out, and the
tables hold the channel, created by alice, with no member at all. -/
theorem C23_counterexample :
    (server.run Sample.lib {} Sample.creatorLeaves).channels = [Sample.teamRow] ∧
    (server.run Sample.lib {} Sample.creatorLeaves).channel_members = [] ∧
    ¬ (server.run Sample.lib {} Sample.creatorLeaves).CreatorsAreMembers := by
  have hc : (server.run Sample.lib {} Sample.creatorLeaves).channels = [Sample.teamRow] := by
    rfl
  have hm : (server.run Sample.lib {} Sample.creatorLeaves).channel_members = [] := by
    rfl
  refine ⟨hc, hm, ?_⟩
  intro h
  obtain ⟨m, hmem, -⟩ := h Sample.teamRow (by rw [hc]; exact List.mem_singleton_self _)
  rw [hm] at hmem
  cases hmem

/-- C23, amended: when the creator of every stored channel is a member of
it, as in the empty tables, and no remove_user_from_channel request of the
sequence carries a valid session token and names a stored channel together
with that channel's creator, then after the sequence of requests the creator
of every stored channel is a member of it. -/
theorem C23_creator_stays_member_unless_removed (L : server.Lib) (db : storage.Database)
    (steps : List (server.Env × Msg)) (h : db.CreatorsAreMembers)
    (hno : server.NoCreatorRemoved L db steps) :
    (server.run L db steps).CreatorsAreMembers :=
  server.run_creatorsAreMembers L steps db h hno

theorem C23_witness :
    (server.run Sample.lib {} Sample.creatorStays).CreatorsAreMembers ∧
    (server.run Sample.lib {} Sample.creatorStays).channels = [Sample.teamRow] :=
  ⟨C23_creator_stays_member_unless_removed Sample.lib {} Sample.creatorStays
    (fun c hc => absurd hc (List.not_mem_nil c))
    ⟨fun h => absurd h.1 (by decide), fun h => absurd h.1 (by decide),
      (by
        rintro ⟨-, -, c, hc, -, hu⟩
        have hch : (server.processMessage Sample.lib (Sample.env 100)
            (server.processMessage Sample.lib (Sample.env 5) {} Sample.registerAliceMsg).1
            (Sample.request (lit "create_channel") Sample.tokenAlice (lit "team||"))).1.channels =
            [Sample.teamRow] := by rfl
        rw [hch] at hc
        simp only [List.mem_singleton] at hc
        subst hc
        revert hu
        decide), trivial⟩,
    by rfl⟩
